import Mathlib

/-!
# Formatted output engine of `sw/device/lib/runtime/print.c`

A shallow embedding of the format engine (`base_vfprintf` and the writers it
drives) and of the capture-buffer sink (`snprintf_sink`, `base_snprintf`).

Conventions of the embedding:

* a `char` is a natural number (its byte value); `size_t` and `uint32_t` are
  naturals reduced modulo `2^32` wherever the C arithmetic can wrap;
* a byte span `(buf, len)` handed to a sink is the list of its `len` bytes;
* a sink `size_t f(void *data, const char *buf, size_t len)` is a function from
  the state behind `data` and the span to the new state and the returned count;
* the format string is the list of its characters; reading at or past the end
  of the list reads the terminator, and a `0` inside the list is a terminator;
* the variadic arguments are a list of argument slots; reading a slot that is
  missing or of the wrong kind is undefined behaviour in C and is reported as
  `Fault.undefined`.
-/

namespace Print

/-! ## Constants -/

/-- The modulus of `size_t` and `uint32_t` arithmetic on the 32-bit target. -/
def kWord : Nat := 4294967296

def kPercent : Nat := 37        -- '%'
def kCharacter : Nat := 99      -- 'c'
def kString : Nat := 115        -- 's'
def kSignedDec1 : Nat := 100    -- 'd'
def kSignedDec2 : Nat := 105    -- 'i'
def kUnsignedOct : Nat := 111   -- 'o'
def kUnsignedHexLow : Nat := 120   -- 'x'
def kUnsignedHexHigh : Nat := 88   -- 'X'
def kUnsignedDec : Nat := 117   -- 'u'
def kPointer : Nat := 112       -- 'p'
def kSvBinary : Nat := 98       -- 'b'
def kSvHexLow : Nat := 104      -- 'h'
def kSvHexHigh : Nat := 72      -- 'H'
def kHexLeLow : Nat := 121      -- 'y'
def kHexLeHigh : Nat := 89      -- 'Y'
def kStatusResult : Nat := 114  -- 'r'
def kFourCC : Nat := 67         -- 'C'

/-- The bytes of a string literal of the source. -/
def bytes (s : String) : List Nat := s.toList.map Char.toNat

/-- The table `kDigitsLow`, "0123456789abcdef". -/
def kDigitsLow : List Nat :=
  [48, 49, 50, 51, 52, 53, 54, 55, 56, 57, 97, 98, 99, 100, 101, 102]

/-- The table `kDigitsHigh`, "0123456789ABCDEF". -/
def kDigitsHigh : List Nat :=
  [48, 49, 50, 51, 52, 53, 54, 55, 56, 57, 65, 66, 67, 68, 69, 70]

/-- The token `kErrorNul`, "%<unexpected nul>" (17 bytes). -/
def kErrorNul : List Nat :=
  [37, 60, 117, 110, 101, 120, 112, 101, 99, 116, 101, 100, 32, 110, 117, 108, 62]

/-- The token `kUnknownSpec`, "%<unknown spec>" (15 bytes). -/
def kUnknownSpec : List Nat :=
  [37, 60, 117, 110, 107, 110, 111, 119, 110, 32, 115, 112, 101, 99, 62]

/-- The token `kErrorTooWide`, "%<bad width>" (12 bytes). -/
def kErrorTooWide : List Nat :=
  [37, 60, 98, 97, 100, 32, 119, 105, 100, 116, 104, 62]

/-! ## Sinks -/

/-- The type of `sink_func_ptr`: state behind `data`, the span, new state and count. -/
abbrev sink_func (σ : Type) := σ → List Nat → σ × Nat

/-- The struct `buffer_sink_t`; a null `sink` pointer is `none`. -/
structure buffer_sink_t (σ : Type) where
  data : σ
  sink : Option (sink_func σ)

/-- The sink `base_dev_null`: accepts everything, stores nothing. -/
def base_dev_null {σ : Type} : sink_func σ := fun data buf => (data, buf.length)

/-- The statement `*bytes_written += out.sink(out.data, buf, len)`: the pair is
the state behind `out.data` and the `size_t` counter. -/
def emit {σ : Type} (sink : sink_func σ) (st : σ × Nat) (buf : List Nat) : σ × Nat :=
  ((sink st.1 buf).1, (st.2 + (sink st.1 buf).2) % kWord)

/-- The statement `*bytes_written += f(out, ...)` for a writer `f` that returns
its own count: `r` is the state and count that `f` returned. -/
def add_count {σ : Type} (bytes_written : Nat) (r : σ × Nat) : σ × Nat :=
  (r.1, (bytes_written + r.2) % kWord)

/-- The struct `snprintf_captures_t`: `buf` is represented by the bytes stored so
far, in order, from the start of the destination (the pointer only advances
past what `memcpy` stored). -/
structure snprintf_captures_t where
  buf : List Nat
  bytes_left : Nat
deriving DecidableEq, Repr

/-- The sink `snprintf_sink`. -/
def snprintf_sink : sink_func snprintf_captures_t := fun captures buf =>
  if captures.bytes_left = 0 then
    (captures, 0)
  else
    let len := if buf.length > captures.bytes_left then captures.bytes_left else buf.length
    ({ buf := captures.buf ++ buf.take len, bytes_left := captures.bytes_left - len }, len)

/-- A sink that accepts every byte and keeps the text it was given. -/
def collect_sink : sink_func (List Nat) := fun data buf => (data ++ buf, buf.length)

/-- A sink that accepts every byte and keeps the spans of the separate calls. -/
def record_sink : sink_func (List (List Nat)) := fun data buf => (data ++ [buf], buf.length)

/-! ## Outcomes and arguments -/

/-- Why a run of the model gives no result. -/
inductive Fault where
  | undefined   -- undefined behaviour of the C program
  | exhausted   -- the model ran out of fuel
deriving DecidableEq, Repr

deriving instance DecidableEq for Except

/-- One slot of the `va_list`. -/
inductive va_arg_t where
  /-- An integer argument (`uint32_t`, `size_t`, `int`, `uintptr_t`). -/
  | u32 (v : Nat)
  /-- A pointer argument: its address and the bytes of the object it points to. -/
  | ptr (addr : Nat) (mem : List Nat)
  /-- A `status_t` argument, given by what `status_extract` decodes it into:
  the return value, the code string, the argument and the module id. -/
  | status (err : Bool) (code : List Nat) (arg : Int) (mod_id : List Nat)
deriving DecidableEq, Repr

/-- The read `va_arg(*args, T)` for a 32-bit integer type `T`; a pointer slot
read this way (the `uintptr_t` of the case `kPointer`) gives its address. -/
def va_arg_u32 : List va_arg_t → Except Fault (Nat × List va_arg_t)
  | va_arg_t.u32 v :: rest => .ok (v % kWord, rest)
  | va_arg_t.ptr addr _ :: rest => .ok (addr % kWord, rest)
  | _ => .error Fault.undefined

/-- The read `va_arg(*args, char *)`: the bytes of the object pointed to. -/
def va_arg_ptr : List va_arg_t → Except Fault (List Nat × List va_arg_t)
  | va_arg_t.ptr _ mem :: rest => .ok (mem, rest)
  | _ => .error Fault.undefined

/-- The read `va_arg(*args, status_t)`. -/
def va_arg_status :
    List va_arg_t → Except Fault ((Bool × List Nat × Int × List Nat) × List va_arg_t)
  | va_arg_t.status err code arg mod_id :: rest => .ok ((err, code, arg, mod_id), rest)
  | _ => .error Fault.undefined

/-! ## Scanning the format string -/

/-- The loop of `consume_until_percent`: the final value of `text_len`, the
index of the first terminator or '%'. -/
def text_len_loop : List Nat → Nat
  | [] => 0
  | c :: rest => if c = 0 ∨ c = kPercent then 0 else text_len_loop rest + 1

/-- The function `consume_until_percent`; returns the sink state with the
counter, the advanced `format` and the boolean result. -/
def consume_until_percent {σ : Type} (sink : sink_func σ) (st : σ × Nat)
    (format : List Nat) : (σ × Nat) × List Nat × Bool :=
  let text_len := text_len_loop format
  let c := format.getD text_len 0
  let st := if text_len > 0 then emit sink st (format.take text_len) else st
  (st, format.drop text_len, c != 0)

/-- The struct `format_specifier_t`. -/
structure format_specifier_t where
  type : Nat
  width : Nat
  padding : Nat
  is_nonstd : Bool
deriving DecidableEq, Repr

/-- The width loop of `consume_format_specifier`, started at `format + spec_len`
with the current `spec->width` and `spec->padding`. It gives `none` when the
terminator is met, and otherwise the width, the padding and the format from the
character on which the loop breaks. -/
def width_loop : List Nat → Nat → Nat → Option (Nat × Nat × List Nat)
  | [], _, _ => none
  | c :: rest, width, padding =>
    if c = 0 then none
    else if c < 48 ∨ c > 57 then some (width, padding, c :: rest)
    else if padding = 0 then
      if c = 48 then width_loop rest width 48
      else width_loop rest (((width * 10) % kWord + (c - 48)) % kWord) 32
    else width_loop rest (((width * 10) % kWord + (c - 48)) % kWord) padding

/-- The function `consume_format_specifier`, called with `format` at a '%'. The
second component is `none` when the C function returns false, and otherwise the
parsed specifier and the advanced `format`. -/
def consume_format_specifier {σ : Type} (sink : sink_func σ) (st : σ × Nat)
    (format : List Nat) : (σ × Nat) × Option (format_specifier_t × List Nat) :=
  let format := format.drop 1
  let is_nonstd : Bool := format.headD 0 = 33
  let format := if is_nonstd then format.drop 1 else format
  match width_loop format 0 0 with
  | none => (emit sink st kErrorNul, none)
  | some (width, padding, rest) =>
    if (width = 0 ∧ padding ≠ 0) ∨ width > 32 then
      (emit sink st kErrorTooWide, none)
    else
      (st, some ({ type := rest.headD 0, width := width, padding := padding,
                   is_nonstd := is_nonstd }, rest.drop 1))

/-! ## The digit writer -/

/-- The constant `kWordBits`, the size of the scratch buffer of `write_digits`. -/
def kWordBits : Nat := 32

/-- The loop `while (value > 0)` of `write_digits`. The scratch buffer is
represented by the characters already placed at its end, so `len` is the length
of the list; the fuel is the number of slots of the buffer. -/
def digits_loop (base : Nat) (glyphs : List Nat) : Nat → Nat → List Nat → List Nat
  | 0, _, buffer => buffer
  | fuel + 1, value, buffer =>
    if value > 0 then
      digits_loop base glyphs fuel (value / base) (glyphs.getD (value % base) 0 :: buffer)
    else buffer

/-- The loop `while (len < width)` of `write_digits`. -/
def padding_loop (width padding : Nat) : Nat → List Nat → List Nat
  | 0, buffer => buffer
  | fuel + 1, buffer =>
    if buffer.length < width then padding_loop width padding fuel (padding :: buffer)
    else buffer

/-- The span `buffer + (kWordBits - len)` of `len` characters that
`write_digits` hands to the sink. -/
def write_digits_buffer (value width padding base : Nat) (glyphs : List Nat) : List Nat :=
  let buffer := if value = 0 then [glyphs.getD 0 0] else []
  let buffer := digits_loop base glyphs kWordBits value buffer
  let width := if width = 0 then 1 else width
  let width := if width > kWordBits then kWordBits else width
  padding_loop width padding kWordBits buffer

/-- The function `write_digits`; returns what the single sink call returns. -/
def write_digits {σ : Type} (sink : sink_func σ) (data : σ)
    (value width padding base : Nat) (glyphs : List Nat) : σ × Nat :=
  sink data (write_digits_buffer value width padding base glyphs)

/-! ## The status writer -/

/-- The loop over the three characters of the module id in `write_status`. -/
def mod_loop {σ : Type} (sink : sink_func σ) (mod_id : List Nat) :
    List Nat → σ × Nat → σ × Nat
  | [], st => st
  | i :: is, st =>
    if mod_id.getD i 0 = 92 then mod_loop sink mod_id is (emit sink st [92, 92])
    else mod_loop sink mod_id is (emit sink st [mod_id.getD i 0])

/-- The function `write_status`, on the outputs of `status_extract`. -/
def write_status {σ : Type} (sink : sink_func σ) (data : σ)
    (value : Bool × List Nat × Int × List Nat) (as_json : Bool) : σ × Nat :=
  let err := value.1
  let start := value.2.1
  let arg := value.2.2.1
  let mod_id := value.2.2.2
  let st : σ × Nat := (data, 0)
  let st := emit sink st (List.take (if as_json then 2 else 0) [123, 34])
  let st := emit sink st (start.takeWhile (fun c => c != 0))
  let st := emit sink st (List.take (if as_json then 1 else 0) [34])
  let st := emit sink st [58]
  let st :=
    if err then
      let st := emit sink st [91, 34]
      let st := mod_loop sink mod_id [0, 1, 2] st
      let st := emit sink st [34, 44]
      let st := add_count st.2
        (write_digits sink st.1 (arg % (kWord : Int)).toNat 0 0 10 kDigitsLow)
      emit sink st [93]
    else
      add_count st.2 (write_digits sink st.1 (arg % (kWord : Int)).toNat 0 0 10 kDigitsLow)
  emit sink st (List.take (if as_json then 1 else 0) [125])

/-! ## The hex-dump writer -/

/-- The padding loop `while (width > 0)` of `hex_dump`. -/
def hex_pad_loop {σ : Type} (sink : sink_func σ) (padding : Nat) :
    Nat → Nat → σ × Nat → σ × Nat
  | 0, _, st => st
  | fuel + 1, width, st =>
    if width > 0 then
      let to_write := if width > 32 then 32 else width
      hex_pad_loop sink padding fuel (width - to_write)
        (emit sink st (List.replicate to_write padding))
    else st

/-- The loop `for (i = 0; i < len; ++i)` of `hex_dump`; the first argument is
`len - i`, and `buf` holds the `buffered` characters waiting in the scratch
buffer. -/
def hex_loop {σ : Type} (sink : sink_func σ) (bytes : List Nat) (len : Nat)
    (big_endian : Bool) (glyphs : List Nat) :
    Nat → List Nat → σ × Nat → List Nat × (σ × Nat)
  | 0, buf, st => (buf, st)
  | k + 1, buf, st =>
    let i := len - (k + 1)
    let idx := if big_endian then len - i - 1 else i
    let b := bytes.getD idx 0
    let buf := buf ++ [glyphs.getD ((b / 16) % 16) 0, glyphs.getD (b % 16) 0]
    if buf.length = 32 then
      hex_loop sink bytes len big_endian glyphs k [] (emit sink st buf)
    else
      hex_loop sink bytes len big_endian glyphs k buf st

/-- The function `hex_dump`. -/
def hex_dump {σ : Type} (sink : sink_func σ) (data : σ) (bytes : List Nat) (len : Nat)
    (width padding : Nat) (big_endian : Bool) (glyphs : List Nat) : σ × Nat :=
  let st : σ × Nat := (data, 0)
  let st := if len < width then hex_pad_loop sink padding (width - len) (width - len) st else st
  let r := hex_loop sink bytes len big_endian glyphs len [] st
  if r.1.length ≠ 0 then emit sink r.2 r.1 else r.2

/-! ## Dispatch on the specifier -/

/-- The size `sizeof(uintptr_t)` on the 32-bit target. -/
def sizeof_uintptr_t : Nat := 4

/-- The loop of the case `kFourCC` of `process_specifier`; the first argument
is the number of bytes still to render. -/
def fourcc_loop {σ : Type} (sink : sink_func σ) : Nat → Nat → σ × Nat → σ × Nat
  | 0, _, st => st
  | k + 1, value, st =>
    let ch := value % 256
    let st :=
      if ch ≥ 32 ∧ ch < 127 then emit sink st [ch]
      else
        emit sink (emit sink (emit sink st [92, 120]) [kDigitsLow.getD (ch / 16) 0])
          [kDigitsLow.getD (ch % 16) 0]
    fourcc_loop sink k (value / 256) st

/-- The loop `while (!spec.is_nonstd && value[len] != 0)` of the case `kString`:
the length of the string, or `none` when no terminator lies inside the
object. -/
def string_len_loop : List Nat → Option Nat
  | [] => none
  | c :: rest => if c = 0 then some 0 else (string_len_loop rest).map (fun n => n + 1)

/-- The label `bad_spec` and the `default` case of `process_specifier`. -/
def bad_spec {σ : Type} (sink : sink_func σ) (st : σ × Nat) (args : List va_arg_t) :
    Except Fault ((σ × Nat) × List va_arg_t) :=
  .ok (emit sink st kUnknownSpec, args)

/-- The cases of `process_specifier` that read one `uint32_t` and hand it to
`write_digits` with the width and padding of the specifier. -/
def digits_case {σ : Type} (sink : sink_func σ) (spec : format_specifier_t)
    (st : σ × Nat) (args : List va_arg_t) (base : Nat) (glyphs : List Nat) :
    Except Fault ((σ × Nat) × List va_arg_t) :=
  (va_arg_u32 args).bind fun r =>
    .ok (add_count st.2 (write_digits sink st.1 r.1 spec.width spec.padding base glyphs), r.2)

/-- The cases of `process_specifier` that read a length and a pointer and hand
them to `hex_dump`; reading outside the object pointed to is undefined. -/
def hex_dump_case {σ : Type} (sink : sink_func σ) (spec : format_specifier_t)
    (st : σ × Nat) (args : List va_arg_t) (big_endian : Bool) (glyphs : List Nat) :
    Except Fault ((σ × Nat) × List va_arg_t) :=
  (va_arg_u32 args).bind fun l =>
  (va_arg_ptr l.2).bind fun v =>
    if l.1 ≤ v.1.length then
      .ok (add_count st.2
        (hex_dump sink st.1 v.1 l.1 spec.width spec.padding big_endian glyphs), v.2)
    else .error Fault.undefined

/-- The function `process_specifier`; returns the sink state with the counter
and the arguments that are left. -/
def process_specifier {σ : Type} (sink : sink_func σ) (spec : format_specifier_t)
    (st : σ × Nat) (args : List va_arg_t) : Except Fault ((σ × Nat) × List va_arg_t) :=
  if spec.type = kPercent then
    if spec.is_nonstd then bad_spec sink st args
    else .ok (emit sink st [37], args)
  else if spec.type = kCharacter then
    if spec.is_nonstd then bad_spec sink st args
    else (va_arg_u32 args).bind fun r => .ok (emit sink st [r.1 % 256], r.2)
  else if spec.type = kFourCC then
    (va_arg_u32 args).bind fun r => .ok (fourcc_loop sink 4 r.1 st, r.2)
  else if spec.type = kString then
    if spec.is_nonstd then
      (va_arg_u32 args).bind fun l =>
      (va_arg_ptr l.2).bind fun v =>
        if l.1 ≤ v.1.length then .ok (emit sink st (v.1.take l.1), v.2)
        else .error Fault.undefined
    else
      (va_arg_ptr args).bind fun v =>
        match string_len_loop v.1 with
        | some len => .ok (emit sink st (v.1.take len), v.2)
        | none => .error Fault.undefined
  else if spec.type = kSignedDec1 ∨ spec.type = kSignedDec2 then
    if spec.is_nonstd then bad_spec sink st args
    else
      (va_arg_u32 args).bind fun r =>
        if r.1 ≥ 2147483648 then
          let st := emit sink st [45]
          .ok (add_count st.2 (write_digits sink st.1 ((kWord - r.1) % kWord)
            spec.width spec.padding 10 kDigitsLow), r.2)
        else
          .ok (add_count st.2 (write_digits sink st.1 r.1
            spec.width spec.padding 10 kDigitsLow), r.2)
  else if spec.type = kUnsignedOct then
    if spec.is_nonstd then bad_spec sink st args
    else digits_case sink spec st args 8 kDigitsLow
  else if spec.type = kPointer then
    if spec.is_nonstd then bad_spec sink st args
    else
      let st := emit sink st [48, 120]
      (va_arg_u32 args).bind fun r =>
        .ok (add_count st.2 (write_digits sink st.1 r.1 (sizeof_uintptr_t * 2) 48 16 kDigitsLow), r.2)
  else if spec.type = kUnsignedHexLow then
    if spec.is_nonstd then hex_dump_case sink spec st args true kDigitsLow
    else digits_case sink spec st args 16 kDigitsLow
  else if spec.type = kSvHexLow then
    digits_case sink spec st args 16 kDigitsLow
  else if spec.type = kUnsignedHexHigh then
    if spec.is_nonstd then hex_dump_case sink spec st args true kDigitsHigh
    else digits_case sink spec st args 16 kDigitsHigh
  else if spec.type = kSvHexHigh then
    digits_case sink spec st args 16 kDigitsHigh
  else if spec.type = kHexLeLow then
    if !spec.is_nonstd then bad_spec sink st args
    else hex_dump_case sink spec st args false kDigitsLow
  else if spec.type = kHexLeHigh then
    if !spec.is_nonstd then bad_spec sink st args
    else hex_dump_case sink spec st args false kDigitsHigh
  else if spec.type = kUnsignedDec then
    if spec.is_nonstd then bad_spec sink st args
    else digits_case sink spec st args 10 kDigitsLow
  else if spec.type = kSvBinary then
    if spec.is_nonstd then
      (va_arg_u32 args).bind fun r =>
        if r.1 ≠ 0 then .ok (emit sink st [116, 114, 117, 101], r.2)
        else .ok (emit sink st [102, 97, 108, 115, 101], r.2)
    else digits_case sink spec st args 2 kDigitsLow
  else if spec.type = kStatusResult then
    (va_arg_status args).bind fun r =>
      .ok (add_count st.2 (write_status sink st.1 r.1 spec.is_nonstd), r.2)
  else bad_spec sink st args

/-! ## The engine -/

/-- The loop `while (format[0] != 0)` of `base_vfprintf`. Every iteration that
goes on consumes at least the '%' of the format, so the length of the format
plus one is enough fuel. Returns the sink state with `bytes_written` and the
arguments left in `args_copy`. -/
def vfprintf_loop {σ : Type} (sink : sink_func σ) :
    Nat → σ × Nat → List Nat → List va_arg_t → Except Fault ((σ × Nat) × List va_arg_t)
  | 0, _, _, _ => .error Fault.exhausted
  | fuel + 1, st, format, args =>
    if format.headD 0 = 0 then .ok (st, args)
    else
      let r := consume_until_percent sink st format
      if !r.2.2 then .ok (r.1, args)
      else
        let p := consume_format_specifier sink r.1 r.2.1
        match p.2 with
        | none => .ok (p.1, args)
        | some (spec, format) =>
          match process_specifier sink spec p.1 args with
          | .error e => .error e
          | .ok q => vfprintf_loop sink fuel q.1 format q.2

/-- The function `base_vfprintf`: the final sink state and the returned count. -/
def base_vfprintf {σ : Type} (out : buffer_sink_t σ) (format : List Nat)
    (args : List va_arg_t) : Except Fault (σ × Nat) :=
  let sink := match out.sink with
    | none => base_dev_null
    | some f => f
  (vfprintf_loop sink (format.length + 1) (out.data, 0) format args).map fun r => r.1

/-- The function `base_snprintf` with destination capacity `len`: the final
captures (the bytes stored in the destination) and the returned count. -/
def base_snprintf (len : Nat) (format : List Nat) (args : List va_arg_t) :
    Except Fault (snprintf_captures_t × Nat) :=
  base_vfprintf { data := { buf := [], bytes_left := len }, sink := some snprintf_sink }
    format args

/-- The text and the count that `base_vfprintf` produces on a sink that accepts
everything. -/
def format_text (format : List Nat) (args : List va_arg_t) : Except Fault (List Nat × Nat) :=
  base_vfprintf { data := [], sink := some collect_sink } format args

/-- An `int32_t` value as the argument slot that carries it. -/
def int_arg (v : Int) : va_arg_t := va_arg_t.u32 (v % (kWord : Int)).toNat

/-! ## Notions used to state the properties -/

/-- The sink calls `calls`, made in order from the state `st`. -/
def feed {σ : Type} (sink : sink_func σ) (st : σ × Nat) (calls : List (List Nat)) : σ × Nat :=
  calls.foldl (emit sink) st

/-- The base-`base` digits of `v`, most significant first, as glyphs; the single
glyph of digit 0 when `v = 0`. -/
def digit_text (base : Nat) (glyphs : List Nat) (v : Nat) : List Nat :=
  if v = 0 then [glyphs.getD 0 0]
  else (Nat.digits base v).reverse.map fun d => glyphs.getD d 0

/-- The value of `text` read as a base-`base` numeral over the digit glyphs
`glyphs`, most significant digit first. -/
def read_numeral (base : Nat) (glyphs : List Nat) (text : List Nat) : Nat :=
  text.foldl (fun acc c => acc * base + glyphs.indexOf c) 0

/-- The value that a run of decimal digit characters denotes. -/
def decimal_value (digits : List Nat) : Nat :=
  digits.foldl (fun acc c => acc * 10 + (c - 48)) 0

/-- The characters that `process_specifier` has a case for. -/
def specifier_table : List Nat :=
  [kPercent, kCharacter, kString, kSignedDec1, kSignedDec2, kUnsignedOct, kUnsignedHexLow,
   kUnsignedHexHigh, kUnsignedDec, kPointer, kSvBinary, kSvHexLow, kSvHexHigh, kHexLeLow,
   kHexLeHigh, kStatusResult, kFourCC]

/-- The width accumulator without the reduction modulo `2^32`. -/
def width_acc (w : Nat) (ds : List Nat) : Nat :=
  ds.foldl (fun acc c => acc * 10 + (c - 48)) w

/-- The result of a step on the recording sink, replayed on another sink. -/
def replay {σ : Type} (sink : sink_func σ) (st : σ × Nat)
    (r : (List (List Nat) × Nat) × List va_arg_t) : (σ × Nat) × List va_arg_t :=
  (feed sink st r.1.1, r.2)

/-- The sink calls that `base_vfprintf` makes for a format and arguments. -/
def format_calls (format : List Nat) (args : List va_arg_t) :
    Except Fault (List (List Nat)) :=
  (vfprintf_loop record_sink (format.length + 1) ([], 0) format args).map fun r => r.1.1

/-- A configuration at the top of the loop of `base_vfprintf`: the sink state
with `bytes_written`, the rest of the format and the arguments left. -/
abbrev Config (σ : Type) := (σ × Nat) × List Nat × List va_arg_t

/-- The relation `Scan sink c c2`: the loop of `base_vfprintf`, entered in
configuration `c`, comes back to its top in configuration `c2` after zero or
more full iterations. -/
inductive Scan {σ : Type} (sink : sink_func σ) : Config σ → Config σ → Prop where
  | start (c : Config σ) : Scan sink c c
  | next (c : Config σ) (st : σ × Nat) (format : List Nat) (args : List va_arg_t)
      (spec : format_specifier_t) (format2 : List Nat) (q : (σ × Nat) × List va_arg_t) :
      Scan sink c (st, format, args) →
      format.headD 0 ≠ 0 →
      (consume_until_percent sink st format).2.2 = true →
      (consume_format_specifier sink (consume_until_percent sink st format).1
        (consume_until_percent sink st format).2.1).2 = some (spec, format2) →
      process_specifier sink spec
        (consume_format_specifier sink (consume_until_percent sink st format).1
          (consume_until_percent sink st format).2.1).1 args = .ok q →
      Scan sink c (q.1, format2, q.2)

/-! ## Notions used for the string, pointer, hex-dump and status cases -/

/-- The case `kPointer` of `process_specifier` without the '!' marker, with the
size `sizeof(uintptr_t)` of the platform as a parameter. -/
def pointer_case {σ : Type} (sink : sink_func σ) (st : σ × Nat) (args : List va_arg_t)
    (size : Nat) : Except Fault ((σ × Nat) × List va_arg_t) :=
  let st := emit sink st [48, 120]
  (va_arg_u32 args).bind fun r =>
    .ok (add_count st.2 (write_digits sink st.1 r.1 (size * 2) 48 16 kDigitsLow), r.2)

/-- Two hex glyphs for every byte of `bs`, the high nibble first. -/
def hex_text (glyphs : List Nat) (bs : List Nat) : List Nat :=
  (bs.map fun b => [glyphs.getD (b / 16 % 16) 0, glyphs.getD (b % 16) 0]).flatten

/-- The module identifier with every backslash doubled. -/
def escape_mod (mod_id : List Nat) : List Nat :=
  (mod_id.map fun c => if c = 92 then [92, 92] else [c]).flatten

/-! ## The memory-dump formatter -/

/-- The struct `base_hexdump_fmt_t`; `alphabet` is the table of 256 glyphs. -/
structure base_hexdump_fmt_t where
  bytes_per_word : Nat
  words_per_line : Nat
  alphabet : List Nat

/-- The table `kBaseHexdumpDefaultFmtAlphabet`: '.' for the 32 values below the
space, the printable characters from the space to '~' for themselves, and '.'
for the 129 values above. -/
def kBaseHexdumpDefaultFmtAlphabet : List Nat :=
  List.replicate 32 46 ++ (List.range 95).map (fun i => i + 32) ++ List.replicate 129 46

/-- The constant `kBaseHexdumpDefaultFmt`. -/
def kBaseHexdumpDefaultFmt : base_hexdump_fmt_t :=
  { bytes_per_word := 2, words_per_line := 8, alphabet := kBaseHexdumpDefaultFmtAlphabet }

/-- The function `base_fprintf` on a sink that is not null. -/
def base_fprintf {σ : Type} (sink : sink_func σ) (data : σ) (format : List Nat)
    (args : List va_arg_t) : Except Fault (σ × Nat) :=
  base_vfprintf { data := data, sink := some sink } format args

/-- The loop `while (line_bytes_written < chars_per_line)` of
`base_fhexdump_with`, which prints up to 16 spaces at a time with "%!s"; the
last two arguments are the sink state and `line_bytes_written`. -/
def fhexdump_pad_loop {σ : Type} (sink : sink_func σ) (chars_per_line : Nat) :
    Nat → σ → Nat → Except Fault (σ × Nat)
  | 0, _, _ => .error Fault.exhausted
  | fuel + 1, data, line_bytes_written =>
    if line_bytes_written < chars_per_line then
      let to_print := chars_per_line - line_bytes_written
      let to_print := if to_print > 16 then 16 else to_print
      (base_fprintf sink data [37, 33, 115]
        [va_arg_t.u32 to_print, va_arg_t.ptr 0 (List.replicate 16 32)]).bind fun r =>
        fhexdump_pad_loop sink chars_per_line fuel r.1 ((line_bytes_written + r.2) % kWord)
    else .ok (data, line_bytes_written)

/-- The loop `for (word = 0; word < bytes_per_line; word += fmt.bytes_per_word)`
of `base_fhexdump_with`; the last three arguments are `word`, the sink state and
`line_bytes_written`. -/
def fhexdump_words {σ : Type} (sink : sink_func σ) (fmt : base_hexdump_fmt_t)
    (buf : List Nat) (len line bytes_per_line chars_per_line : Nat) :
    Nat → Nat → σ → Nat → Except Fault (σ × Nat)
  | 0, _, _, _ => .error Fault.exhausted
  | fuel + 1, word, data, line_bytes_written =>
    if word < bytes_per_line then
      if len < (line + word) % kWord then
        fhexdump_pad_loop sink chars_per_line (chars_per_line + 1) data line_bytes_written
      else
        let bytes_left := ((len + kWord - line) % kWord + kWord - word) % kWord
        let bytes_left :=
          if bytes_left > fmt.bytes_per_word then fmt.bytes_per_word else bytes_left
        (base_fprintf sink data [32] []).bind fun r =>
          let h := hex_dump sink r.1 (buf.drop (line + word)) bytes_left bytes_left 48 false
            kDigitsLow
          fhexdump_words sink fmt buf len line bytes_per_line chars_per_line fuel
            ((word + fmt.bytes_per_word) % kWord) h.1
            (((line_bytes_written + r.2) % kWord + h.2) % kWord)
    else .ok (data, line_bytes_written)

/-- The loop `for (byte = 0; byte < bytes_per_line; ++byte)` of
`base_fhexdump_with`; the first argument is `bytes_per_line - byte`, the others
are `byte`, the `buffered` glyphs, the sink state and `bytes_written`. -/
def fhexdump_glyphs {σ : Type} (sink : sink_func σ) (fmt : base_hexdump_fmt_t)
    (buf : List Nat) (len line : Nat) :
    Nat → Nat → List Nat → σ → Nat → Except Fault (List Nat × σ × Nat)
  | 0, _, glyph_buffer, data, bytes_written => .ok (glyph_buffer, data, bytes_written)
  | k + 1, byte, glyph_buffer, data, bytes_written =>
    (if glyph_buffer.length = 16 then
      (base_fprintf sink data [37, 33, 115]
        [va_arg_t.u32 glyph_buffer.length, va_arg_t.ptr 0 glyph_buffer]).bind fun r =>
        .ok (([] : List Nat), r.1, (bytes_written + r.2) % kWord)
    else .ok (glyph_buffer, data, bytes_written)).bind fun s =>
      if (line + byte) % kWord ≥ len then .ok s
      else
        fhexdump_glyphs sink fmt buf len line k (byte + 1)
          (s.1 ++ [fmt.alphabet.getD (buf.getD (line + byte) 0 % 256) 0]) s.2.1 s.2.2

/-- The loop `for (line = 0; line < len; line += bytes_per_line)` of
`base_fhexdump_with`; the last three arguments are `line`, the sink state and
`bytes_written`. -/
def fhexdump_lines {σ : Type} (sink : sink_func σ) (fmt : base_hexdump_fmt_t)
    (buf : List Nat) (len bytes_per_line : Nat) :
    Nat → Nat → σ → Nat → Except Fault (σ × Nat)
  | 0, _, _, _ => .error Fault.exhausted
  | fuel + 1, line, data, bytes_written =>
    if line < len then
      (base_fprintf sink data [37, 48, 56, 120, 58] [va_arg_t.u32 line]).bind fun r1 =>
      let chars_per_line := ((bytes_per_line * 2) % kWord + fmt.words_per_line) % kWord
      (fhexdump_words sink fmt buf len line bytes_per_line chars_per_line
        (bytes_per_line + 1) 0 r1.1 0).bind fun r2 =>
      (base_fprintf sink r2.1 [32, 32] []).bind fun r3 =>
      (fhexdump_glyphs sink fmt buf len line bytes_per_line 0 [] r3.1
        ((((bytes_written + r1.2) % kWord + r2.2) % kWord + r3.2) % kWord)).bind fun r4 =>
      (if r4.1.length > 0 then
        (base_fprintf sink r4.2.1 [37, 33, 115]
          [va_arg_t.u32 r4.1.length, va_arg_t.ptr 0 r4.1]).bind fun r =>
          .ok (r.1, (r4.2.2 + r.2) % kWord)
      else .ok (r4.2.1, r4.2.2)).bind fun r5 =>
      (base_fprintf sink r5.1 [10] []).bind fun r6 =>
        fhexdump_lines sink fmt buf len bytes_per_line fuel
          ((line + bytes_per_line) % kWord) r6.1 ((r5.2 + r6.2) % kWord)
    else .ok (data, bytes_written)

/-- The function `base_fhexdump_with`: the final sink state and the returned
count. Every iteration that goes on adds at least 1 to its loop variable unless
the arithmetic wraps or the configuration holds a zero, so the fuel given to the
loops is enough whenever they end. -/
def base_fhexdump_with {σ : Type} (out : buffer_sink_t σ) (fmt : base_hexdump_fmt_t)
    (buf : List Nat) (len : Nat) : Except Fault (σ × Nat) :=
  let sink := match out.sink with
    | none => base_dev_null
    | some f => f
  let bytes_per_line := (fmt.bytes_per_word * fmt.words_per_line) % kWord
  fhexdump_lines sink fmt buf len bytes_per_line (len + 1) 0 out.data 0

/-- The text and the count that `base_fhexdump_with` produces on a sink that
accepts everything. -/
def hexdump_text (fmt : base_hexdump_fmt_t) (buf : List Nat) : Except Fault (List Nat × Nat) :=
  base_fhexdump_with { data := [], sink := some collect_sink } fmt buf buf.length

/-- The hexadecimal numeral of `o` in lower case, padded with '0' on the left to
8 digits. -/
def offset_text (o : Nat) : List Nat :=
  List.replicate (8 - (digit_text 16 kDigitsLow o).length) 48 ++ digit_text 16 kDigitsLow o

/-- For each of `count` words of `bytes_per_word` bytes taken from `bs`: a space
and two lower-case hex digits per byte, the bytes in memory order. -/
def words_text (bytes_per_word : Nat) : Nat → List Nat → List Nat
  | 0, _ => []
  | count + 1, bs =>
    [32] ++ hex_text kDigitsLow (bs.take bytes_per_word) ++
      words_text bytes_per_word count (bs.drop bytes_per_word)

/-- One full line of the dump for the bytes `bs` at offset `o`: the offset, a
colon, the words, two spaces, one alphabet glyph per byte and a newline. -/
def line_text (fmt : base_hexdump_fmt_t) (o : Nat) (bs : List Nat) : List Nat :=
  offset_text o ++ [58] ++ words_text fmt.bytes_per_word fmt.words_per_line bs ++ [32, 32] ++
    bs.map (fun b => fmt.alphabet.getD (b % 256) 0) ++ [10]

/-- The dump of `lines` full lines taken from `buf`, the first at offset `o`. -/
def dump_text (fmt : base_hexdump_fmt_t) : Nat → Nat → List Nat → List Nat
  | 0, _, _ => []
  | lines + 1, o, buf =>
    line_text fmt o (buf.take (fmt.bytes_per_word * fmt.words_per_line)) ++
      dump_text fmt lines (o + fmt.bytes_per_word * fmt.words_per_line)
        (buf.drop (fmt.bytes_per_word * fmt.words_per_line))

/-! ## The SPI console transport -/

/-- A call of the peripheral driver, as `print.c` makes it. -/
inductive spi_event where
  /-- The call `dif_spi_device_write_flash_buffer(.., address, length, data)`; the
  length is that of `data`. -/
  | write_flash_buffer (address : Nat) (data : List Nat)
  /-- The call `dif_spi_device_get_last_read_address`. -/
  | get_last_read_address
  /-- The call `dif_gpio_write` on the TX-ready pin. -/
  | gpio_write (state : Bool)
  /-- The call `dif_spi_device_get_csb_status`. -/
  | get_csb_status
deriving DecidableEq, Repr

/-- The driver and the host behind it: what each fallible driver call answers,
given the calls made before it. `false` and `none` stand for a result other
than `kDifOk`. -/
structure spi_host_t where
  write_flash_buffer : List spi_event → Nat → List Nat → Bool
  get_last_read_address : List spi_event → Option Nat
  get_csb_status : List spi_event → Option Bool

/-- The static variables of the SPI console: `next_write_address`,
`spi_device_frame_num`, and whether `spi_console_gpio` is not null. -/
structure spi_console_t where
  next_write_address : Nat
  spi_device_frame_num : Nat
  spi_console_gpio : Bool
deriving DecidableEq, Repr

/-- The constant `kSpiDeviceFrameHeaderSizeBytes`. -/
def kSpiDeviceFrameHeaderSizeBytes : Nat := 12

/-- The constant `kSpiDeviceBufferPreservedSizeBytes`. -/
def kSpiDeviceBufferPreservedSizeBytes : Nat := kSpiDeviceFrameHeaderSizeBytes

/-- The constant `kSpiDeviceFrameMagicNumber`. -/
def kSpiDeviceFrameMagicNumber : Nat := 0xa5a5beef

/-- The constant `kSpiDeviceMaxFramePayloadSizeBytes` for the buffer size `cap`
(`kSpiDeviceReadBufferSizeBytes`, which comes from a generated header). -/
def kSpiDeviceMaxFramePayloadSizeBytes (cap : Nat) : Nat :=
  (((cap + kWord - kSpiDeviceFrameHeaderSizeBytes) % kWord + kWord -
    kSpiDeviceBufferPreservedSizeBytes) % kWord + kWord - 4) % kWord

/-- The four bytes `(v >> (i * 8)) & 0xff`, `i = 0 .. 3`, of the header loops. -/
def le_bytes (v : Nat) : List Nat :=
  [v % 256, v / 256 % 256, v / 65536 % 256, v / 16777216 % 256]

/-- The function `spi_device_send_data` for the bytes `buf` (`len` is their
number): the calls made so far with the new ones, and whether the status is
ok. -/
def spi_device_send_data (host : spi_host_t) (cap : Nat) (log : List spi_event)
    (buf : List Nat) (address : Nat) : List spi_event × Bool :=
  if buf.length = 0 then (log, true)
  else
    let space_to_end_of_buffer := (cap + kWord - address) % kWord
    let first_part_size :=
      if space_to_end_of_buffer < buf.length then space_to_end_of_buffer else buf.length
    let log1 := log ++ [spi_event.write_flash_buffer address (buf.take first_part_size)]
    if !host.write_flash_buffer log address (buf.take first_part_size) then (log1, false)
    else if first_part_size < buf.length then
      (log1 ++ [spi_event.write_flash_buffer 0 (buf.drop first_part_size)],
        host.write_flash_buffer log1 0 (buf.drop first_part_size))
    else (log1, true)

/-- The polling loop `do .. while` of `spi_device_send_frame`: the calls made
and whether the loop was left with enough space (`false` is the `return 0` on a
driver error). -/
def spi_poll_loop (host : spi_host_t) (cap frame_size_bytes next_write_address : Nat) :
    Nat → List spi_event → Except Fault (List spi_event × Bool)
  | 0, _ => .error Fault.exhausted
  | fuel + 1, log =>
    match host.get_last_read_address log with
    | none => .ok (log ++ [spi_event.get_last_read_address], false)
    | some last_read_address =>
      let adjusted_last_read_address :=
        ((cap + last_read_address % kWord + kWord - kSpiDeviceFrameHeaderSizeBytes) % kWord) %
          cap
      let next_read_address := ((adjusted_last_read_address + 1) % kWord / 4 * 4) % cap
      let available_buffer_size :=
        if next_read_address > next_write_address then
          (next_read_address + kWord - next_write_address + kWord - 1) % kWord
        else
          ((next_read_address + (cap + kWord - next_write_address) % kWord) % kWord + kWord -
            1) % kWord
      if (frame_size_bytes + kSpiDeviceBufferPreservedSizeBytes) % kWord >
          available_buffer_size then
        spi_poll_loop host cap frame_size_bytes next_write_address fuel
          (log ++ [spi_event.get_last_read_address])
      else .ok (log ++ [spi_event.get_last_read_address], true)

/-- The loop `do .. while (cs_state != target_cs_state)` of the handshake. -/
def spi_csb_wait (host : spi_host_t) (target_cs_state : Bool) :
    Nat → List spi_event → Except Fault (List spi_event × Bool)
  | 0, _ => .error Fault.exhausted
  | fuel + 1, log =>
    match host.get_csb_status log with
    | none => .ok (log ++ [spi_event.get_csb_status], false)
    | some cs_state =>
      if cs_state != target_cs_state then
        spi_csb_wait host target_cs_state fuel (log ++ [spi_event.get_csb_status])
      else .ok (log ++ [spi_event.get_csb_status], true)

/-- The loop `for (i = 0; i < 4; ++i)` of the handshake over the values of `i`
still to come. -/
def spi_csb_loop (host : spi_host_t) (fuel : Nat) :
    List Nat → Bool → List spi_event → Except Fault (List spi_event × Bool)
  | [], _, log => .ok (log, true)
  | i :: is, target_cs_state, log =>
    (spi_csb_wait host target_cs_state fuel log).bind fun r =>
      if !r.2 then .ok (r.1, false)
      else
        spi_csb_loop host fuel is (!target_cs_state)
          (if i = 0 then r.1 ++ [spi_event.gpio_write false] else r.1)

/-- The function `spi_device_send_frame` for the payload `buf` (`len` is its
length) and the buffer size `cap`: the calls made, the static variables and the
returned count. `fuel` bounds each of the unbounded waiting loops. -/
def spi_device_send_frame (host : spi_host_t) (cap fuel : Nat) (st : spi_console_t)
    (log : List spi_event) (buf : List Nat) :
    Except Fault (List spi_event × spi_console_t × Nat) :=
  let len := buf.length
  let data_packet_size_bytes := (len + 3) % kWord / 4 * 4
  let frame_size_bytes := (kSpiDeviceFrameHeaderSizeBytes + data_packet_size_bytes) % kWord
  if frame_size_bytes ≥ cap then .ok (log, st, 0)
  else
    let frame_header_bytes :=
      le_bytes kSpiDeviceFrameMagicNumber ++ le_bytes st.spi_device_frame_num ++ le_bytes len
    (if !st.spi_console_gpio then
      spi_poll_loop host cap frame_size_bytes st.next_write_address fuel log
    else .ok (log, true)).bind fun p =>
    if !p.2 then .ok (p.1, st, 0)
    else
      let data_write_address :=
        (st.next_write_address + kSpiDeviceFrameHeaderSizeBytes) % kWord % cap
      let aligned_data_len := len / 4 * 4
      let s1 := spi_device_send_data host cap p.1 (buf.take aligned_data_len) data_write_address
      if !s1.2 then .ok (s1.1, st, 0)
      else
        let s2 :=
          if len ≠ aligned_data_len then
            spi_device_send_data host cap s1.1
              (buf.drop aligned_data_len ++ List.replicate (4 - (len - aligned_data_len)) 255)
              ((data_write_address + aligned_data_len) % kWord % cap)
          else (s1.1, true)
        if !s2.2 then .ok (s2.1, st, 0)
        else
          let s3 := spi_device_send_data host cap s2.1 frame_header_bytes st.next_write_address
          if !s3.2 then .ok (s3.1, st, 0)
          else
            let st2 : spi_console_t :=
              { next_write_address := (st.next_write_address + frame_size_bytes) % kWord % cap,
                spi_device_frame_num := (st.spi_device_frame_num + 1) % kWord,
                spi_console_gpio := st.spi_console_gpio }
            if st.spi_console_gpio then
              (spi_csb_loop host fuel [0, 1, 2, 3] false
                (s3.1 ++ [spi_event.gpio_write true])).bind fun h =>
                if !h.2 then .ok (h.1, st2, 0)
                else .ok (h.1, { st2 with next_write_address := 0 }, len)
            else .ok (s3.1, st2, len)

/-- The loop `while (write_data_len < len)` of `base_dev_spi_device`; `fuel`
bounds the iterations, a frame that fails being sent again without end. -/
def spi_device_send_loop (host : spi_host_t) (cap fuel : Nat) (buf : List Nat) :
    Nat → spi_console_t → List spi_event → Nat →
      Except Fault (List spi_event × spi_console_t × Nat)
  | 0, _, _, _ => .error Fault.exhausted
  | rounds + 1, st, log, write_data_len =>
    if write_data_len < buf.length then
      let payload_len := buf.length - write_data_len
      let payload_len :=
        if payload_len > kSpiDeviceMaxFramePayloadSizeBytes cap then
          kSpiDeviceMaxFramePayloadSizeBytes cap
        else payload_len
      (spi_device_send_frame host cap fuel st log
        ((buf.drop write_data_len).take payload_len)).bind fun r =>
        if r.2.2 = payload_len then
          spi_device_send_loop host cap fuel buf rounds r.2.1 r.1
            ((write_data_len + payload_len) % kWord)
        else spi_device_send_loop host cap fuel buf rounds r.2.1 r.1 write_data_len
    else .ok (log, st, write_data_len)

/-- The function `base_dev_spi_device`, the sink of the SPI console. -/
def base_dev_spi_device (host : spi_host_t) (cap fuel rounds : Nat) (st : spi_console_t)
    (log : List spi_event) (buf : List Nat) :
    Except Fault (List spi_event × spi_console_t × Nat) :=
  spi_device_send_loop host cap fuel buf rounds st log 0

/-- The effect of `base_spi_device_stdout` on the static variables. -/
def base_spi_device_stdout (st : spi_console_t) : spi_console_t :=
  { st with spi_device_frame_num := 0 }

/-- The effect of `base_spi_device_set_gpio_tx_indicator` on the static
variables; `gpio` tells whether the pointer given is not null. -/
def base_spi_device_set_gpio_tx_indicator (st : spi_console_t) (gpio : Bool) :
    spi_console_t :=
  { st with spi_console_gpio := gpio }

/-- The flash-buffer writes among the driver calls `events`, in order. -/
def spi_writes (events : List spi_event) : List (Nat × List Nat) :=
  events.filterMap fun e =>
    match e with
    | spi_event.write_flash_buffer address data => some (address, data)
    | _ => none

/-- The single byte stores that the writes `ws` ask for, in order: the address
and the value of each. -/
def write_cells (ws : List (Nat × List Nat)) : List (Nat × Nat) :=
  (ws.map fun w => (List.range w.2.length).map fun j => (w.1 + j, w.2.getD j 0)).flatten

/-- The size of a payload of `n` bytes rounded up to a multiple of 4. -/
def roundup4 (n : Nat) : Nat := (n + 3) / 4 * 4

/-- The bytes of the frame for the payload: the header of magic number, frame
number and length, each little-endian, the payload, and 0xFF up to the next
multiple of 4. -/
def frame_bytes (frame_num : Nat) (payload : List Nat) : List Nat :=
  le_bytes 0xa5a5beef ++ le_bytes frame_num ++ le_bytes payload.length ++ payload ++
    List.replicate (roundup4 payload.length - payload.length) 255

/-! ## The SPI console: flow control, the chunk loop and the static variables -/

/-- The value `adjusted_last_read_address` of the polling loop, for the buffer
size `cap` and the `last_read_address` that the driver reports. -/
def adjusted_last_read_address (cap last_read_address : Nat) : Nat :=
  ((cap + last_read_address % kWord + kWord - kSpiDeviceFrameHeaderSizeBytes) % kWord) % cap

/-- The value `next_read_address` of the polling loop:
`((adjusted_last_read_address + 1) & ~3u) % kSpiDeviceReadBufferSizeBytes`. -/
def next_read_address (cap last_read_address : Nat) : Nat :=
  ((adjusted_last_read_address cap last_read_address + 1) % kWord / 4 * 4) % cap

/-- The value `available_buffer_size` that one iteration of the polling loop
computes from the write cursor and the reported `last_read_address`. -/
def available_buffer_size (cap next_write_address last_read_address : Nat) : Nat :=
  if next_read_address cap last_read_address > next_write_address then
    (next_read_address cap last_read_address + kWord - next_write_address + kWord - 1) % kWord
  else
    ((next_read_address cap last_read_address + (cap + kWord - next_write_address) % kWord) %
      kWord + kWord - 1) % kWord

/-- The static variables as their initialisers set them: `next_write_address`
and `spi_device_frame_num` are 0 and `spi_console_gpio` is null. -/
def spi_console_init : spi_console_t :=
  { next_write_address := 0, spi_device_frame_num := 0, spi_console_gpio := false }

/-- The value of `payload_len` in the loop of `base_dev_spi_device` when
`write_data_len` bytes of `buf` have been sent. -/
def spi_payload_len (cap : Nat) (buf : List Nat) (write_data_len : Nat) : Nat :=
  if buf.length - write_data_len > kSpiDeviceMaxFramePayloadSizeBytes cap then
    kSpiDeviceMaxFramePayloadSizeBytes cap
  else buf.length - write_data_len

/-- The relation `Sending host cap fuel buf st0 log0 st log w tr`: the loop
`while (write_data_len < len)` of `base_dev_spi_device`, entered with the static
variables `st0` after the driver calls `log0`, is at its top with the static
variables `st`, the driver calls `log` and `write_data_len = w`, after zero or
more iterations; `tr` lists, for each call of `spi_device_send_frame` made so
far, the chunk handed to it and the count it returned. -/
inductive Sending (host : spi_host_t) (cap fuel : Nat) (buf : List Nat) (st0 : spi_console_t)
    (log0 : List spi_event) :
    spi_console_t → List spi_event → Nat → List (List Nat × Nat) → Prop where
  | entry : Sending host cap fuel buf st0 log0 st0 log0 0 []
  | round (st : spi_console_t) (log : List spi_event) (w : Nat) (tr : List (List Nat × Nat))
      (log2 : List spi_event) (st2 : spi_console_t) (ret : Nat) :
      Sending host cap fuel buf st0 log0 st log w tr →
      w < buf.length →
      spi_device_send_frame host cap fuel st log
        ((buf.drop w).take (spi_payload_len cap buf w)) = .ok (log2, st2, ret) →
      Sending host cap fuel buf st0 log0 st2 log2
        (if ret = spi_payload_len cap buf w then (w + spi_payload_len cap buf w) % kWord else w)
        (tr ++ [((buf.drop w).take (spi_payload_len cap buf w), ret)])

/-- The chunks of the trace `tr` that the frame sender accepted, those for which
it returned the length of the chunk, in order. -/
def accepted_chunks (tr : List (List Nat × Nat)) : List (List Nat) :=
  (tr.filter fun e => e.2 = e.1.length).map fun e => e.1

/-- Whether the driver answered every flash-buffer write among the calls
`events`, made after the calls `log`, with `kDifOk`. -/
def writes_ok (host : spi_host_t) : List spi_event → List spi_event → Bool
  | _, [] => true
  | log, e :: events =>
    (match e with
      | spi_event.write_flash_buffer address data => host.write_flash_buffer log address data
      | _ => true) && writes_ok host (log ++ [e]) events

/-! ## The digit writer: what `write_digits` emits -/

theorem digits_loop_eq (base : Nat) (glyphs : List Nat) (hb : 2 ≤ base) :
    ∀ (fuel value : Nat) (buffer : List Nat), value < base ^ fuel →
      digits_loop base glyphs fuel value buffer =
        ((Nat.digits base value).reverse.map fun d => glyphs.getD d 0) ++ buffer := by
  intro fuel
  induction fuel with
  | zero =>
    intro value buffer h
    have h0 : value = 0 := by simpa using h
    subst h0
    simp [digits_loop]
  | succ n ih =>
    intro value buffer h
    unfold digits_loop
    by_cases hv : value > 0
    · have hlt : value / base < base ^ n := by
        rw [Nat.div_lt_iff_lt_mul (by omega)]
        calc value < base ^ (n + 1) := h
          _ = base ^ n * base := by ring
      rw [if_pos hv, ih _ _ hlt, Nat.digits_def' (by omega) hv]
      simp
    · have h0 : value = 0 := by omega
      subst h0
      simp

theorem padding_loop_eq (width padding : Nat) :
    ∀ (fuel : Nat) (buffer : List Nat), width ≤ buffer.length + fuel →
      padding_loop width padding fuel buffer =
        List.replicate (width - buffer.length) padding ++ buffer := by
  intro fuel
  induction fuel with
  | zero =>
    intro buffer h
    have : width - buffer.length = 0 := by omega
    simp [padding_loop, this]
  | succ n ih =>
    intro buffer h
    unfold padding_loop
    by_cases hlt : buffer.length < width
    · rw [if_pos hlt, ih _ (by simp; omega)]
      have : width - buffer.length = (width - (padding :: buffer).length) + 1 := by
        simp; omega
      rw [this, List.replicate_succ']
      simp
    · have : width - buffer.length = 0 := by omega
      simp [hlt, this]

theorem digit_text_length_pos (base : Nat) (glyphs : List Nat) (v : Nat) :
    1 ≤ (digit_text base glyphs v).length := by
  unfold digit_text
  by_cases hv : v = 0
  · simp [hv]
  · rw [if_neg hv]
    have : Nat.digits base v ≠ [] := Nat.digits_ne_nil_iff_ne_zero.mpr hv
    have : 0 < (Nat.digits base v).length := List.length_pos.mpr this
    simpa using this

theorem digits_length_le (base : Nat) (hb : 2 ≤ base) :
    ∀ (k v : Nat), v < base ^ k → (Nat.digits base v).length ≤ k := by
  intro k
  induction k with
  | zero =>
    intro v h
    have h0 : v = 0 := by simpa using h
    simp [h0]
  | succ n ih =>
    intro v h
    by_cases hv : v > 0
    · have hlt : v / base < base ^ n := by
        rw [Nat.div_lt_iff_lt_mul (by omega)]
        calc v < base ^ (n + 1) := h
          _ = base ^ n * base := by ring
      rw [Nat.digits_def' (by omega) hv]
      simpa using ih _ hlt
    · have h0 : v = 0 := by omega
      simp [h0]

theorem digit_text_length_le (base : Nat) (glyphs : List Nat) (v : Nat)
    (hb : 2 ≤ base) (hv : v < kWord) : (digit_text base glyphs v).length ≤ 32 := by
  unfold digit_text
  by_cases h0 : v = 0
  · simp [h0]
  · rw [if_neg h0]
    have h1 : v < base ^ 32 := by
      calc v < 2 ^ 32 := by simpa [kWord] using hv
        _ ≤ base ^ 32 := Nat.pow_le_pow_left hb 32
    simpa using digits_length_le base hb 32 v h1

theorem write_digits_buffer_eq (value width padding base : Nat) (glyphs : List Nat)
    (hb : 2 ≤ base) (hv : value < kWord) (hw : width ≤ 32) :
    write_digits_buffer value width padding base glyphs =
      List.replicate (max width 1 - (digit_text base glyphs value).length) padding ++
        digit_text base glyphs value := by
  have h1 : value < base ^ 32 := by
    calc value < 2 ^ 32 := by simpa [kWord] using hv
      _ ≤ base ^ 32 := Nat.pow_le_pow_left hb 32
  have hlen := digit_text_length_le base glyphs value hb hv
  have hbuf : digits_loop base glyphs kWordBits value
      (if value = 0 then [glyphs.getD 0 0] else []) = digit_text base glyphs value := by
    rw [digits_loop_eq base glyphs hb kWordBits value _ (by simpa [kWordBits] using h1)]
    unfold digit_text
    by_cases h0 : value = 0
    · simp [h0]
    · simp [h0]
  have hwidth : (if (if width = 0 then 1 else width) > kWordBits then kWordBits
      else (if width = 0 then 1 else width)) = max width 1 := by
    simp only [kWordBits]
    split_ifs <;> omega
  unfold write_digits_buffer
  simp only [hbuf, hwidth]
  rw [padding_loop_eq]
  simp only [kWordBits]
  omega

theorem glyph_index (glyphs : List Nat) (hg : glyphs = kDigitsLow ∨ glyphs = kDigitsHigh) :
    ∀ d, d < 16 → glyphs.indexOf (glyphs.getD d 0) = d := by
  rcases hg with h | h <;> subst h <;> decide

theorem read_numeral_digits (base : Nat) (glyphs : List Nat) :
    ∀ (L : List Nat), (∀ d ∈ L, glyphs.indexOf (glyphs.getD d 0) = d) →
      read_numeral base glyphs (L.reverse.map fun d => glyphs.getD d 0) = Nat.ofDigits base L := by
  intro L
  induction L with
  | nil => intro _; simp [read_numeral]
  | cons d L ih =>
    intro h
    have hd := h d (by simp)
    have hL := ih (fun x hx => h x (by simp [hx]))
    unfold read_numeral at hL ⊢
    rw [List.reverse_cons, List.map_append, List.foldl_append, hL]
    simp only [List.map_cons, List.map_nil, List.foldl_cons, List.foldl_nil, hd,
      Nat.ofDigits_cons]
    ring

/-- C3: for every unsigned 32-bit value and every base in 2, 8, 10, 16, the text
that `write_digits` emits with width 0, read back as a numeral of that base over
the same glyph table, is the value. -/
theorem write_digits_round_trip (v b p : Nat) (glyphs : List Nat)
    (hv : v < 4294967296) (hb : b = 2 ∨ b = 8 ∨ b = 10 ∨ b = 16)
    (hg : glyphs = kDigitsLow ∨ glyphs = kDigitsHigh) :
    read_numeral b glyphs (write_digits collect_sink [] v 0 p b glyphs).1 = v := by
  have hb2 : 2 ≤ b := by omega
  have hb16 : b ≤ 16 := by omega
  have hpos := digit_text_length_pos b glyphs v
  have hbuf := write_digits_buffer_eq v 0 p b glyphs hb2 (by simpa [kWord] using hv) (by omega)
  have h0 : max 0 1 - (digit_text b glyphs v).length = 0 := by omega
  rw [h0] at hbuf
  simp only [write_digits, collect_sink, hbuf, List.replicate_zero, List.nil_append]
  unfold digit_text
  by_cases hz : v = 0
  · subst hz
    have := glyph_index glyphs hg 0 (by omega)
    simpa [read_numeral] using this
  · rw [if_neg hz, read_numeral_digits, Nat.ofDigits_digits]
    intro d hd
    exact glyph_index glyphs hg d (lt_of_lt_of_le (Nat.digits_lt_base (by omega) hd) hb16)

/-- Witness of C3: the value 3735928559 in base 16 over the lower-case glyphs. -/
theorem write_digits_round_trip_witness :
    read_numeral 16 kDigitsLow
      (write_digits collect_sink [] 3735928559 0 32 16 kDigitsLow).1 = 3735928559 :=
  write_digits_round_trip 3735928559 16 32 kDigitsLow (by decide) (by decide) (by decide)

/-- C4: for every unsigned 32-bit value, base 2..16, width 0..32 and padding
character, `write_digits` makes one sink call whose span is the digits of the
value, most significant first (the glyph of 0 alone for the value 0), preceded
by `max width 1 - d` padding characters, `d` being the number of digits; the
span is `max d (max width 1)` characters long, at most 32; the value 7 with
width 3, space padding and base 10 gives "  7". -/
theorem write_digits_layout {σ : Type} (sink : sink_func σ) (data : σ)
    (v w p b : Nat) (glyphs : List Nat)
    (hv : v < 4294967296) (hb : 2 ≤ b ∧ b ≤ 16) (hw : w ≤ 32) :
    write_digits sink data v w p b glyphs =
        sink data (List.replicate (max w 1 - (digit_text b glyphs v).length) p ++
          digit_text b glyphs v) ∧
      write_digits record_sink [] v w p b glyphs =
        ([List.replicate (max w 1 - (digit_text b glyphs v).length) p ++
          digit_text b glyphs v], max (digit_text b glyphs v).length (max w 1)) ∧
      (v = 0 → digit_text b glyphs v = [glyphs.getD 0 0]) ∧
      max (digit_text b glyphs v).length (max w 1) ≤ 32 ∧
      write_digits collect_sink [] 7 3 32 10 kDigitsLow = (bytes "  7", 3) := by
  have hbuf := write_digits_buffer_eq v w p b glyphs hb.1 (by simpa [kWord] using hv) hw
  have hlen := digit_text_length_le b glyphs v hb.1 (by simpa [kWord] using hv)
  refine ⟨by simp [write_digits, hbuf], ?_, ?_, by omega, by decide⟩
  · simp only [write_digits, record_sink, hbuf, List.nil_append, List.length_append,
      List.length_replicate]
    congr 1
    omega
  · intro h0
    simp [digit_text, h0]

/-- Witness of C4: the value 7 with width 3, space padding and base 10. -/
theorem write_digits_layout_witness :
    write_digits collect_sink [] 7 3 32 10 kDigitsLow =
        collect_sink [] (List.replicate (max 3 1 - (digit_text 10 kDigitsLow 7).length) 32 ++
          digit_text 10 kDigitsLow 7) :=
  (write_digits_layout collect_sink [] 7 3 32 10 kDigitsLow (by decide) (by decide)
    (by decide)).1

/-! ## Every writer is a sequence of sink calls that does not depend on the sink -/

@[simp] theorem feed_nil {σ : Type} (sink : sink_func σ) (st : σ × Nat) :
    feed sink st [] = st := rfl

@[simp] theorem feed_cons {σ : Type} (sink : sink_func σ) (st : σ × Nat) (c : List Nat)
    (cs : List (List Nat)) : feed sink st (c :: cs) = feed sink (emit sink st c) cs := rfl

@[simp] theorem feed_append {σ : Type} (sink : sink_func σ) (st : σ × Nat)
    (cs ds : List (List Nat)) : feed sink st (cs ++ ds) = feed sink (feed sink st cs) ds := by
  simp [feed, List.foldl_append]

@[simp] theorem emit_record_fst (r : List (List Nat) × Nat) (buf : List Nat) :
    (emit record_sink r buf).1 = r.1 ++ [buf] := rfl

@[simp] theorem feed_record_fst (cs : List (List Nat)) :
    ∀ (r : List (List Nat) × Nat), (feed record_sink r cs).1 = r.1 ++ cs := by
  induction cs with
  | nil => intro r; simp
  | cons c cs ih => intro r; simp [ih]

theorem emit_lt {σ : Type} (sink : sink_func σ) (st : σ × Nat) (buf : List Nat) :
    (emit sink st buf).2 < kWord := by
  simp only [emit, kWord]
  omega

theorem feed_lt {σ : Type} (sink : sink_func σ) (cs : List (List Nat)) :
    ∀ (st : σ × Nat), st.2 < kWord → (feed sink st cs).2 < kWord := by
  induction cs with
  | nil => intro st h; simpa using h
  | cons c cs ih => intro st _; simpa using ih _ (emit_lt sink st c)

theorem add_count_feed_gen {σ : Type} (sink : sink_func σ) (bw : Nat) (cs : List (List Nat)) :
    ∀ (d : σ) (k : Nat),
      add_count bw (feed sink (d, k) cs) = feed sink (d, (bw + k) % kWord) cs := by
  induction cs with
  | nil => intro d k; simp [add_count]
  | cons c cs ih =>
    intro d k
    simp only [feed_cons, emit]
    rw [ih]
    congr 2
    simp only [kWord]
    omega

theorem add_count_feed {σ : Type} (sink : sink_func σ) (st : σ × Nat) (cs : List (List Nat))
    (h : st.2 < kWord) : add_count st.2 (feed sink (st.1, 0) cs) = feed sink st cs := by
  rw [add_count_feed_gen]
  simp [Nat.mod_eq_of_lt h]

theorem add_count_sink {σ : Type} (sink : sink_func σ) (st : σ × Nat) (buf : List Nat) :
    add_count st.2 (sink st.1 buf) = emit sink st buf := rfl

theorem hex_pad_loop_calls (padding : Nat) :
    ∀ (fuel : Nat) {σ : Type} (sink : sink_func σ) (width : Nat) (st : σ × Nat),
      hex_pad_loop sink padding fuel width st =
        feed sink st (hex_pad_loop record_sink padding fuel width ([], 0)).1 := by
  intro fuel
  induction fuel with
  | zero => intro σ sink width st; simp [hex_pad_loop]
  | succ n ih =>
    intro σ sink width st
    unfold hex_pad_loop
    by_cases hw : width > 0
    · simp only [if_pos hw]
      rw [ih sink, ih record_sink _ (emit record_sink _ _)]
      simp
    · simp [hw]

theorem hex_loop_calls (bytes : List Nat) (len : Nat) (big_endian : Bool) (glyphs : List Nat) :
    ∀ (k : Nat) {σ : Type} (sink : sink_func σ) (buf : List Nat) (st : σ × Nat),
      hex_loop sink bytes len big_endian glyphs k buf st =
        ((hex_loop record_sink bytes len big_endian glyphs k buf ([], 0)).1,
          feed sink st (hex_loop record_sink bytes len big_endian glyphs k buf ([], 0)).2.1) := by
  intro k
  induction k with
  | zero => intro σ sink buf st; simp [hex_loop]
  | succ n ih =>
    intro σ sink buf st
    unfold hex_loop
    simp only
    split_ifs
    all_goals first
      | rw [ih sink]; done
      | (rw [ih sink, ih record_sink _ (emit record_sink _ _)]; simp)

theorem hex_dump_calls {σ : Type} (sink : sink_func σ) (data : σ) (bytes : List Nat)
    (len width padding : Nat) (big_endian : Bool) (glyphs : List Nat) :
    hex_dump sink data bytes len width padding big_endian glyphs =
      feed sink (data, 0)
        (hex_dump record_sink [] bytes len width padding big_endian glyphs).1 := by
  unfold hex_dump
  simp only
  rw [hex_loop_calls bytes len big_endian glyphs len sink,
    hex_loop_calls bytes len big_endian glyphs len record_sink _ (ite _ _ _)]
  by_cases hw : len < width
  · simp only [if_pos hw]
    rw [hex_pad_loop_calls padding _ sink]
    split_ifs <;> simp
  · simp only [if_neg hw]
    split_ifs <;> simp

theorem mod_loop_calls (mod_id : List Nat) :
    ∀ (is : List Nat) {σ : Type} (sink : sink_func σ) (st : σ × Nat),
      mod_loop sink mod_id is st = feed sink st (mod_loop record_sink mod_id is ([], 0)).1 := by
  intro is
  induction is with
  | nil => intro σ sink st; simp [mod_loop]
  | cons i is ih =>
    intro σ sink st
    unfold mod_loop
    split_ifs with h
    · rw [ih sink, ih record_sink (emit record_sink _ _)]
      simp
    · rw [ih sink, ih record_sink (emit record_sink _ _)]
      simp

theorem write_status_calls {σ : Type} (sink : sink_func σ) (data : σ)
    (value : Bool × List Nat × Int × List Nat) (as_json : Bool) :
    write_status sink data value as_json =
      feed sink (data, 0) (write_status record_sink [] value as_json).1 := by
  unfold write_status
  simp only [write_digits, add_count_sink]
  by_cases herr : value.1 = true
  · simp only [if_pos herr]
    rw [mod_loop_calls _ _ sink, mod_loop_calls _ _ record_sink (emit record_sink _ _)]
    simp
  · simp [herr]

theorem fourcc_loop_calls :
    ∀ (k : Nat) {σ : Type} (sink : sink_func σ) (value : Nat) (st : σ × Nat),
      fourcc_loop sink k value st = feed sink st (fourcc_loop record_sink k value ([], 0)).1 := by
  intro k
  induction k with
  | zero => intro σ sink value st; simp [fourcc_loop]
  | succ n ih =>
    intro σ sink value st
    unfold fourcc_loop
    simp only
    rw [ih sink, ih record_sink _ (ite _ _ _)]
    split_ifs <;> simp

theorem bad_spec_calls {σ : Type} (sink : sink_func σ) (st : σ × Nat) (args : List va_arg_t) :
    bad_spec sink st args = (bad_spec record_sink ([], 0) args).map (replay sink st) := by
  simp [bad_spec, Except.map, replay]

theorem digits_case_calls {σ : Type} (sink : sink_func σ) (spec : format_specifier_t)
    (st : σ × Nat) (args : List va_arg_t) (base : Nat) (glyphs : List Nat) :
    digits_case sink spec st args base glyphs =
      (digits_case record_sink spec ([], 0) args base glyphs).map (replay sink st) := by
  unfold digits_case
  cases va_arg_u32 args with
  | error e => simp [Except.bind, Except.map]
  | ok r =>
    simp [Except.bind, Except.map, replay, write_digits, record_sink, add_count, emit]

theorem hex_dump_case_calls {σ : Type} (sink : sink_func σ) (spec : format_specifier_t)
    (st : σ × Nat) (args : List va_arg_t) (big_endian : Bool) (glyphs : List Nat)
    (h : st.2 < kWord) :
    hex_dump_case sink spec st args big_endian glyphs =
      (hex_dump_case record_sink spec ([], 0) args big_endian glyphs).map (replay sink st) := by
  unfold hex_dump_case
  cases va_arg_u32 args with
  | error e => simp [Except.bind, Except.map]
  | ok l =>
    simp only [Except.bind]
    cases va_arg_ptr l.2 with
    | error e => simp [Except.map]
    | ok v =>
      simp only
      split_ifs
      · simp only [Except.map, replay]
        rw [hex_dump_calls sink, add_count_feed sink st _ h]
        simp [add_count]
      · simp [Except.map]

theorem process_specifier_calls {σ : Type} (sink : sink_func σ) (spec : format_specifier_t)
    (st : σ × Nat) (args : List va_arg_t) (h : st.2 < kWord) :
    process_specifier sink spec st args =
      (process_specifier record_sink spec ([], 0) args).map (replay sink st) := by
  unfold process_specifier
  by_cases h1 : spec.type = kPercent
  · simp only [if_pos h1]
    split_ifs
    · exact bad_spec_calls sink st args
    · simp [Except.map, replay]
  simp only [if_neg h1]
  by_cases h2 : spec.type = kCharacter
  · simp only [if_pos h2]
    split_ifs
    · exact bad_spec_calls sink st args
    · cases va_arg_u32 args <;> simp [Except.bind, Except.map, replay]
  simp only [if_neg h2]
  by_cases h3 : spec.type = kFourCC
  · simp only [if_pos h3]
    cases va_arg_u32 args with
    | error e => simp [Except.bind, Except.map]
    | ok r =>
      simp only [Except.bind, Except.map, replay]
      rw [fourcc_loop_calls 4 sink]
  simp only [if_neg h3]
  by_cases h4 : spec.type = kString
  · simp only [if_pos h4]
    split_ifs
    · cases va_arg_u32 args with
      | error e => simp [Except.bind, Except.map]
      | ok l =>
        simp only [Except.bind]
        cases va_arg_ptr l.2 with
        | error e => simp [Except.map]
        | ok v =>
          simp only
          split_ifs <;> simp [Except.map, replay]
    · cases va_arg_ptr args with
      | error e => simp [Except.bind, Except.map]
      | ok v =>
        simp only [Except.bind]
        cases string_len_loop v.1 <;> simp [Except.map, replay]
  simp only [if_neg h4]
  by_cases h5 : spec.type = kSignedDec1 ∨ spec.type = kSignedDec2
  · simp only [if_pos h5]
    split_ifs
    · exact bad_spec_calls sink st args
    · cases va_arg_u32 args with
      | error e => simp [Except.bind, Except.map]
      | ok r =>
        simp only [Except.bind]
        split_ifs <;>
          simp [Except.map, replay, write_digits, record_sink, add_count, emit]
  simp only [if_neg h5]
  by_cases h6 : spec.type = kUnsignedOct
  · simp only [if_pos h6]
    split_ifs
    · exact bad_spec_calls sink st args
    · exact digits_case_calls sink spec st args _ _
  simp only [if_neg h6]
  by_cases h7 : spec.type = kPointer
  · simp only [if_pos h7]
    split_ifs
    · exact bad_spec_calls sink st args
    · cases va_arg_u32 args <;>
        simp [Except.bind, Except.map, replay, write_digits, record_sink, add_count, emit]
  simp only [if_neg h7]
  by_cases h8 : spec.type = kUnsignedHexLow
  · simp only [if_pos h8]
    split_ifs
    · exact hex_dump_case_calls sink spec st args _ _ h
    · exact digits_case_calls sink spec st args _ _
  simp only [if_neg h8]
  by_cases h9 : spec.type = kSvHexLow
  · simp only [if_pos h9]
    exact digits_case_calls sink spec st args _ _
  simp only [if_neg h9]
  by_cases h10 : spec.type = kUnsignedHexHigh
  · simp only [if_pos h10]
    split_ifs
    · exact hex_dump_case_calls sink spec st args _ _ h
    · exact digits_case_calls sink spec st args _ _
  simp only [if_neg h10]
  by_cases h11 : spec.type = kSvHexHigh
  · simp only [if_pos h11]
    exact digits_case_calls sink spec st args _ _
  simp only [if_neg h11]
  by_cases h12 : spec.type = kHexLeLow
  · simp only [if_pos h12]
    split_ifs
    · exact bad_spec_calls sink st args
    · exact hex_dump_case_calls sink spec st args _ _ h
  simp only [if_neg h12]
  by_cases h13 : spec.type = kHexLeHigh
  · simp only [if_pos h13]
    split_ifs
    · exact bad_spec_calls sink st args
    · exact hex_dump_case_calls sink spec st args _ _ h
  simp only [if_neg h13]
  by_cases h14 : spec.type = kUnsignedDec
  · simp only [if_pos h14]
    split_ifs
    · exact bad_spec_calls sink st args
    · exact digits_case_calls sink spec st args _ _
  simp only [if_neg h14]
  by_cases h15 : spec.type = kSvBinary
  · simp only [if_pos h15]
    split_ifs
    · cases va_arg_u32 args with
      | error e => simp [Except.bind, Except.map]
      | ok r =>
        simp only [Except.bind]
        split_ifs <;> simp [Except.map, replay]
    · exact digits_case_calls sink spec st args _ _
  simp only [if_neg h15]
  by_cases h16 : spec.type = kStatusResult
  · simp only [if_pos h16]
    cases va_arg_status args with
    | error e => simp [Except.bind, Except.map]
    | ok r =>
      simp only [Except.bind, Except.map, replay]
      rw [write_status_calls sink, add_count_feed sink st _ h]
      simp [add_count]
  simp only [if_neg h16]
  exact bad_spec_calls sink st args

theorem consume_until_percent_calls {σ : Type} (sink : sink_func σ) (st : σ × Nat)
    (format : List Nat) :
    consume_until_percent sink st format =
      (feed sink st (consume_until_percent record_sink ([], 0) format).1.1,
        (consume_until_percent record_sink ([], 0) format).2) := by
  unfold consume_until_percent
  simp only
  split_ifs <;> simp

theorem consume_format_specifier_calls {σ : Type} (sink : sink_func σ) (st : σ × Nat)
    (format : List Nat) :
    consume_format_specifier sink st format =
      (feed sink st (consume_format_specifier record_sink ([], 0) format).1.1,
        (consume_format_specifier record_sink ([], 0) format).2) := by
  unfold consume_format_specifier
  simp only
  split
  · simp
  · split_ifs <;> simp

theorem replay_replay {σ : Type} (sink : sink_func σ) (st : σ × Nat)
    (r : List (List Nat) × Nat) (x : (List (List Nat) × Nat) × List va_arg_t) :
    replay sink st (replay record_sink r x) = replay sink (feed sink st r.1) x := by
  simp [replay]

theorem vfprintf_loop_calls :
    ∀ (fuel : Nat) {σ : Type} (sink : sink_func σ) (st : σ × Nat) (format : List Nat)
      (args : List va_arg_t), st.2 < kWord →
      vfprintf_loop sink fuel st format args =
        (vfprintf_loop record_sink fuel ([], 0) format args).map (replay sink st) := by
  intro fuel
  induction fuel with
  | zero => intro σ sink st format args _; simp [vfprintf_loop, Except.map]
  | succ n ih =>
    intro σ sink st format args h
    unfold vfprintf_loop
    by_cases h0 : format.headD 0 = 0
    · simp only [if_pos h0, Except.map, replay, feed_nil]
    simp only [if_neg h0]
    rw [consume_until_percent_calls sink]
    generalize hR : consume_until_percent record_sink ([], 0) format = R
    by_cases hf : R.2.2 = true
    · simp only [hf, Bool.not_true, Bool.false_eq_true, if_false]
      rw [consume_format_specifier_calls sink,
        consume_format_specifier_calls record_sink R.1]
      generalize consume_format_specifier record_sink ([], 0) R.2.1 = P
      rcases P with ⟨Pst, _ | ⟨spec, format2⟩⟩
      · simp [Except.map, replay]
      · simp only
        have h1 : (feed sink (feed sink st R.1.1) Pst.1).2 < kWord :=
          feed_lt sink _ _ (feed_lt sink _ _ h)
        have h2 : (feed record_sink R.1 Pst.1).2 < kWord := by
          apply feed_lt
          have := consume_until_percent_calls record_sink ([], 0) format
          rw [hR] at this
          rw [this]
          exact feed_lt _ _ _ (by simp [kWord])
        rw [process_specifier_calls sink spec _ args h1,
          process_specifier_calls record_sink spec _ args h2]
        cases process_specifier record_sink spec ([], 0) args with
        | error e => simp [Except.map]
        | ok q =>
          simp only [Except.map]
          rw [ih sink _ _ _ (by simpa [replay] using feed_lt sink _ _ h1),
            ih record_sink (replay record_sink _ q).1 _ _
              (by simpa [replay] using feed_lt record_sink _ _ h2)]
          simp only [replay, Except.map]
          cases vfprintf_loop record_sink n ([], 0) format2 q.2 with
          | error e => rfl
          | ok v => simp
    · simp [hf, Except.map, replay]

/-! ## The two sinks of the statements -/

theorem feed_collect (cs : List (List Nat)) :
    ∀ (d : List Nat) (k : Nat), k < kWord →
      feed collect_sink (d, k) cs = (d ++ cs.flatten, (k + cs.flatten.length) % kWord) := by
  induction cs with
  | nil => intro d k h; simp [Nat.mod_eq_of_lt h]
  | cons c cs ih =>
    intro d k h
    have hk : (k + c.length) % kWord < kWord := Nat.mod_lt _ (by simp [kWord])
    simp only [feed_cons, emit, collect_sink]
    rw [ih _ _ hk]
    simp only [List.flatten_cons, List.append_assoc, List.length_append, kWord, Prod.mk.injEq,
      true_and]
    omega

theorem feed_snprintf (cs : List (List Nat)) :
    ∀ (b : List Nat) (l k : Nat), k < kWord →
      feed snprintf_sink ({ buf := b, bytes_left := l }, k) cs =
        ({ buf := b ++ cs.flatten.take l, bytes_left := l - min l cs.flatten.length },
          (k + min l cs.flatten.length) % kWord) := by
  induction cs with
  | nil => intro b l k h; simp [Nat.mod_eq_of_lt h]
  | cons c cs ih =>
    intro b l k h
    simp only [feed_cons, emit, snprintf_sink]
    by_cases hl : l = 0
    · subst hl
      simp only [if_true]
      rw [ih _ _ _ (Nat.mod_lt _ (by simp [kWord]))]
      simp [kWord]
    · simp only [if_neg hl]
      rw [ih _ _ _ (Nat.mod_lt _ (by simp [kWord]))]
      simp only [List.flatten_cons]
      generalize cs.flatten = r
      simp only [List.length_append, List.take_append_eq_append_take,
        List.append_assoc, kWord]
      by_cases hc : c.length > l
      · have e1 : l - c.length = 0 := by omega
        have e2 : min l (c.length + r.length) = l := by omega
        simp [hc, e1, e2]
      · have e1 : min l (c.length + r.length) =
            c.length + min (l - c.length) r.length := by omega
        have e2 : List.take l c = c := List.take_of_length_le (by omega)
        simp only [if_neg hc, e1, e2, List.take_length, snprintf_captures_t.mk.injEq,
          Prod.mk.injEq, true_and]
        omega

/-! ## Fuel: every iteration shortens the format -/

theorem width_loop_length :
    ∀ (format : List Nat) (width padding : Nat) (r : Nat × Nat × List Nat),
      width_loop format width padding = some r →
        1 ≤ r.2.2.length ∧ r.2.2.length ≤ format.length := by
  intro format
  induction format with
  | nil => intro width padding r h; simp [width_loop] at h
  | cons c rest ih =>
    intro width padding r h
    unfold width_loop at h
    split_ifs at h
    · injection h with h
      subst h
      simp
    all_goals
      have := ih _ _ _ h
      simp only [List.length_cons]
      omega

theorem consume_until_percent_length {σ : Type} (sink : sink_func σ) (st : σ × Nat)
    (format : List Nat) : (consume_until_percent sink st format).2.1.length ≤ format.length := by
  simp [consume_until_percent]

theorem consume_format_specifier_length {σ : Type} (sink : sink_func σ) (st : σ × Nat)
    (format : List Nat) (spec : format_specifier_t) (format2 : List Nat)
    (h : (consume_format_specifier sink st format).2 = some (spec, format2)) :
    format2.length < format.length := by
  unfold consume_format_specifier at h
  simp only at h
  split at h
  · simp at h
  · rename_i width padding rest hw
    have hlen := width_loop_length _ _ _ _ hw
    simp only at hlen
    split_ifs at h
    all_goals
      simp only [Option.some.injEq, Prod.mk.injEq] at h
      rw [← h.2]
      split_ifs at hlen
      all_goals
        simp only [List.length_drop] at hlen ⊢
        omega

/-- One iteration of the loop of `base_vfprintf` from a configuration in which
the format is not at its terminator: the three ways it can go on. -/
theorem vfprintf_loop_succ {σ : Type} (sink : sink_func σ) (n : Nat) (st : σ × Nat)
    (format : List Nat) (args : List va_arg_t) (h0 : format.headD 0 ≠ 0) :
    vfprintf_loop sink (n + 1) st format args =
      if (consume_until_percent sink st format).2.2 = false then
        .ok ((consume_until_percent sink st format).1, args)
      else
        match (consume_format_specifier sink (consume_until_percent sink st format).1
            (consume_until_percent sink st format).2.1).2 with
        | none =>
          .ok ((consume_format_specifier sink (consume_until_percent sink st format).1
            (consume_until_percent sink st format).2.1).1, args)
        | some (spec, format2) =>
          match process_specifier sink spec
            (consume_format_specifier sink (consume_until_percent sink st format).1
              (consume_until_percent sink st format).2.1).1 args with
          | .error e => .error e
          | .ok q => vfprintf_loop sink n q.1 format2 q.2 := by
  rw [vfprintf_loop]
  simp only [if_neg h0, Bool.not_eq_true']

theorem vfprintf_loop_fuel {σ : Type} (sink : sink_func σ) :
    ∀ (n m : Nat) (st : σ × Nat) (format : List Nat) (args : List va_arg_t),
      format.length < n → format.length < m →
        vfprintf_loop sink n st format args = vfprintf_loop sink m st format args := by
  intro n
  induction n with
  | zero => intro m st format args h; omega
  | succ n ih =>
    intro m st format args hn hm
    cases m with
    | zero => omega
    | succ m =>
      by_cases h0 : format.headD 0 = 0
      · simp only [vfprintf_loop, if_pos h0]
      rw [vfprintf_loop_succ sink n st format args h0,
        vfprintf_loop_succ sink m st format args h0]
      split_ifs
      · rfl
      · split
        · rfl
        · rename_i spec format2 hs
          have h1 := consume_format_specifier_length _ _ _ _ _ hs
          have h2 := consume_until_percent_length sink st format
          split
          · rfl
          · exact ih _ _ _ _ (by omega) (by omega)

theorem va_arg_u32_fault (args : List va_arg_t) (e : Fault)
    (h : va_arg_u32 args = .error e) : e = Fault.undefined := by
  unfold va_arg_u32 at h
  split at h <;> simp_all

theorem va_arg_ptr_fault (args : List va_arg_t) (e : Fault)
    (h : va_arg_ptr args = .error e) : e = Fault.undefined := by
  unfold va_arg_ptr at h
  split at h <;> simp_all

theorem va_arg_status_fault (args : List va_arg_t) (e : Fault)
    (h : va_arg_status args = .error e) : e = Fault.undefined := by
  unfold va_arg_status at h
  split at h <;> simp_all

theorem digits_case_fault {σ : Type} (sink : sink_func σ) (spec : format_specifier_t)
    (st : σ × Nat) (args : List va_arg_t) (base : Nat) (glyphs : List Nat) (e : Fault)
    (h : digits_case sink spec st args base glyphs = .error e) : e = Fault.undefined := by
  unfold digits_case at h
  cases hu : va_arg_u32 args with
  | error e2 =>
    rw [hu] at h
    simp only [Except.bind, Except.error.injEq] at h
    exact h ▸ va_arg_u32_fault args e2 hu
  | ok r => rw [hu] at h; simp [Except.bind] at h

theorem hex_dump_case_fault {σ : Type} (sink : sink_func σ) (spec : format_specifier_t)
    (st : σ × Nat) (args : List va_arg_t) (big_endian : Bool) (glyphs : List Nat) (e : Fault)
    (h : hex_dump_case sink spec st args big_endian glyphs = .error e) :
    e = Fault.undefined := by
  unfold hex_dump_case at h
  cases hu : va_arg_u32 args with
  | error e2 =>
    rw [hu] at h
    simp only [Except.bind, Except.error.injEq] at h
    exact h ▸ va_arg_u32_fault args e2 hu
  | ok l =>
    rw [hu] at h
    simp only [Except.bind] at h
    cases hp : va_arg_ptr l.2 with
    | error e2 =>
      rw [hp] at h
      simp only [Except.error.injEq] at h
      exact h ▸ va_arg_ptr_fault _ e2 hp
    | ok v =>
      rw [hp] at h
      simp only at h
      split_ifs at h
      simp only [Except.error.injEq] at h
      exact h.symm

theorem process_specifier_fault {σ : Type} (sink : sink_func σ) (spec : format_specifier_t)
    (st : σ × Nat) (args : List va_arg_t) (e : Fault)
    (h : process_specifier sink spec st args = .error e) : e = Fault.undefined := by
  unfold process_specifier at h
  by_cases h1 : spec.type = kPercent
  · simp only [if_pos h1] at h
    split_ifs at h
    simp [bad_spec] at h
  simp only [if_neg h1] at h
  by_cases h2 : spec.type = kCharacter
  · simp only [if_pos h2] at h
    split_ifs at h
    · simp [bad_spec] at h
    · cases hu : va_arg_u32 args with
      | error e2 =>
        rw [hu] at h
        simp only [Except.bind, Except.error.injEq] at h
        exact h ▸ va_arg_u32_fault args e2 hu
      | ok r => rw [hu] at h; simp [Except.bind] at h
  simp only [if_neg h2] at h
  by_cases h3 : spec.type = kFourCC
  · simp only [if_pos h3] at h
    cases hu : va_arg_u32 args with
    | error e2 =>
      rw [hu] at h
      simp only [Except.bind, Except.error.injEq] at h
      exact h ▸ va_arg_u32_fault args e2 hu
    | ok r => rw [hu] at h; simp [Except.bind] at h
  simp only [if_neg h3] at h
  by_cases h4 : spec.type = kString
  · simp only [if_pos h4] at h
    split_ifs at h
    · cases hu : va_arg_u32 args with
      | error e2 =>
        rw [hu] at h
        simp only [Except.bind, Except.error.injEq] at h
        exact h ▸ va_arg_u32_fault args e2 hu
      | ok l =>
        rw [hu] at h
        simp only [Except.bind] at h
        cases hp : va_arg_ptr l.2 with
        | error e2 =>
          rw [hp] at h
          simp only [Except.error.injEq] at h
          exact h ▸ va_arg_ptr_fault _ e2 hp
        | ok v =>
          rw [hp] at h
          simp only at h
          split_ifs at h
          simp only [Except.error.injEq] at h
          exact h.symm
    · cases hp : va_arg_ptr args with
      | error e2 =>
        rw [hp] at h
        simp only [Except.bind, Except.error.injEq] at h
        exact h ▸ va_arg_ptr_fault _ e2 hp
      | ok v =>
        rw [hp] at h
        simp only [Except.bind] at h
        split at h
        · simp at h
        · simp only [Except.error.injEq] at h
          exact h.symm
  simp only [if_neg h4] at h
  by_cases h5 : spec.type = kSignedDec1 ∨ spec.type = kSignedDec2
  · simp only [if_pos h5] at h
    split_ifs at h
    · simp [bad_spec] at h
    · cases hu : va_arg_u32 args with
      | error e2 =>
        rw [hu] at h
        simp only [Except.bind, Except.error.injEq] at h
        exact h ▸ va_arg_u32_fault args e2 hu
      | ok r =>
        rw [hu] at h
        simp only [Except.bind] at h
        split_ifs at h
  simp only [if_neg h5] at h
  by_cases h6 : spec.type = kUnsignedOct
  · simp only [if_pos h6] at h
    split_ifs at h
    · simp [bad_spec] at h
    · exact digits_case_fault _ _ _ _ _ _ _ h
  simp only [if_neg h6] at h
  by_cases h7 : spec.type = kPointer
  · simp only [if_pos h7] at h
    split_ifs at h
    · simp [bad_spec] at h
    · cases hu : va_arg_u32 args with
      | error e2 =>
        rw [hu] at h
        simp only [Except.bind, Except.error.injEq] at h
        exact h ▸ va_arg_u32_fault args e2 hu
      | ok r => rw [hu] at h; simp [Except.bind] at h
  simp only [if_neg h7] at h
  by_cases h8 : spec.type = kUnsignedHexLow
  · simp only [if_pos h8] at h
    split_ifs at h
    · exact hex_dump_case_fault _ _ _ _ _ _ _ h
    · exact digits_case_fault _ _ _ _ _ _ _ h
  simp only [if_neg h8] at h
  by_cases h9 : spec.type = kSvHexLow
  · simp only [if_pos h9] at h
    exact digits_case_fault _ _ _ _ _ _ _ h
  simp only [if_neg h9] at h
  by_cases h10 : spec.type = kUnsignedHexHigh
  · simp only [if_pos h10] at h
    split_ifs at h
    · exact hex_dump_case_fault _ _ _ _ _ _ _ h
    · exact digits_case_fault _ _ _ _ _ _ _ h
  simp only [if_neg h10] at h
  by_cases h11 : spec.type = kSvHexHigh
  · simp only [if_pos h11] at h
    exact digits_case_fault _ _ _ _ _ _ _ h
  simp only [if_neg h11] at h
  by_cases h12 : spec.type = kHexLeLow
  · simp only [if_pos h12] at h
    split_ifs at h
    · simp [bad_spec] at h
    · exact hex_dump_case_fault _ _ _ _ _ _ _ h
  simp only [if_neg h12] at h
  by_cases h13 : spec.type = kHexLeHigh
  · simp only [if_pos h13] at h
    split_ifs at h
    · simp [bad_spec] at h
    · exact hex_dump_case_fault _ _ _ _ _ _ _ h
  simp only [if_neg h13] at h
  by_cases h14 : spec.type = kUnsignedDec
  · simp only [if_pos h14] at h
    split_ifs at h
    · simp [bad_spec] at h
    · exact digits_case_fault _ _ _ _ _ _ _ h
  simp only [if_neg h14] at h
  by_cases h15 : spec.type = kSvBinary
  · simp only [if_pos h15] at h
    split_ifs at h
    · cases hu : va_arg_u32 args with
      | error e2 =>
        rw [hu] at h
        simp only [Except.bind, Except.error.injEq] at h
        exact h ▸ va_arg_u32_fault args e2 hu
      | ok r =>
        rw [hu] at h
        simp only [Except.bind] at h
        split_ifs at h
    · exact digits_case_fault _ _ _ _ _ _ _ h
  simp only [if_neg h15] at h
  by_cases h16 : spec.type = kStatusResult
  · simp only [if_pos h16] at h
    cases hu : va_arg_status args with
    | error e2 =>
      rw [hu] at h
      simp only [Except.bind, Except.error.injEq] at h
      exact h ▸ va_arg_status_fault args e2 hu
    | ok r => rw [hu] at h; simp [Except.bind] at h
  simp only [if_neg h16] at h
  simp [bad_spec] at h

theorem vfprintf_loop_returns {σ : Type} (sink : sink_func σ) :
    ∀ (n : Nat) (st : σ × Nat) (format : List Nat) (args : List va_arg_t),
      format.length < n → vfprintf_loop sink n st format args ≠ .error Fault.exhausted := by
  intro n
  induction n with
  | zero => intro st format args h; omega
  | succ n ih =>
    intro st format args hn
    by_cases h0 : format.headD 0 = 0
    · simp only [vfprintf_loop, if_pos h0]
      simp
    rw [vfprintf_loop_succ sink n st format args h0]
    split_ifs
    · simp
    · split
      · simp
      · rename_i spec format2 hs
        have h1 := consume_format_specifier_length _ _ _ _ _ hs
        have h2 := consume_until_percent_length sink st format
        split
        · rename_i e he
          rw [process_specifier_fault _ _ _ _ _ he]
          simp
        · exact ih _ _ _ (by omega)

/-! ## The capture-buffer print -/

theorem base_vfprintf_calls {σ : Type} (data : σ) (sink : sink_func σ) (format : List Nat)
    (args : List va_arg_t) :
    base_vfprintf { data := data, sink := some sink } format args =
      (format_calls format args).map fun cs => feed sink (data, 0) cs := by
  unfold base_vfprintf format_calls
  simp only
  rw [vfprintf_loop_calls _ sink (data, 0) format args (by simp [kWord])]
  cases vfprintf_loop record_sink (format.length + 1) ([], 0) format args <;>
    simp [Except.map, replay]

theorem format_text_eq (format : List Nat) (args : List va_arg_t) :
    format_text format args =
      (format_calls format args).map fun cs => (cs.flatten, cs.flatten.length % kWord) := by
  unfold format_text
  rw [base_vfprintf_calls]
  cases format_calls format args with
  | error e => rfl
  | ok cs => simp [Except.map, feed_collect cs [] 0 (by simp [kWord])]

theorem base_snprintf_eq (n : Nat) (format : List Nat) (args : List va_arg_t) :
    base_snprintf n format args =
      (format_calls format args).map fun cs =>
        ({ buf := cs.flatten.take n, bytes_left := n - min n cs.flatten.length },
          min n cs.flatten.length % kWord) := by
  unfold base_snprintf
  rw [base_vfprintf_calls]
  cases format_calls format args with
  | error e => rfl
  | ok cs => simp [Except.map, feed_snprintf cs [] n 0 (by simp [kWord])]

/-- C1: for every format string, argument list and destination capacity `n`,
`base_snprintf` returns (it never runs out of fuel and is undefined exactly when
the untruncated run is), stores at most `n` bytes, and the bytes it stores are
the first `min n L` bytes of the text of length `L` that the same format and
arguments give on a sink that accepts everything; nothing else is stored. -/
theorem base_snprintf_stores_truncated (n : Nat) (format : List Nat) (args : List va_arg_t) :
    base_snprintf n format args ≠ .error Fault.exhausted ∧
    (∀ e, format_text format args = .error e → base_snprintf n format args = .error e) ∧
    (∀ text count, format_text format args = .ok (text, count) →
      ∃ captures ret, base_snprintf n format args = .ok (captures, ret) ∧
        captures.buf.length ≤ n ∧
        captures.buf = text.take (min n text.length)) := by
  refine ⟨?_, ?_, ?_⟩
  · unfold base_snprintf base_vfprintf
    simp only
    have := vfprintf_loop_returns snprintf_sink (format.length + 1)
      ({ buf := [], bytes_left := n }, 0) format args (by omega)
    cases h : vfprintf_loop snprintf_sink (format.length + 1)
      ({ buf := [], bytes_left := n }, 0) format args with
    | error e =>
      rw [h] at this
      simpa [Except.map] using this
    | ok r => simp [Except.map]
  · intro e h
    rw [format_text_eq] at h
    rw [base_snprintf_eq]
    cases hc : format_calls format args with
    | error e2 => rw [hc] at h; simpa [Except.map] using h
    | ok cs => rw [hc] at h; simp [Except.map] at h
  · intro text count h
    rw [format_text_eq] at h
    rw [base_snprintf_eq]
    cases hc : format_calls format args with
    | error e2 => rw [hc] at h; simp [Except.map] at h
    | ok cs =>
      rw [hc] at h
      simp only [Except.map, Except.ok.injEq, Prod.mk.injEq] at h
      refine ⟨_, _, rfl, ?_, ?_⟩
      · simp
      · rw [← h.1]
        simp [List.take_eq_take]

/-- C2, as amended: for every format string, argument list and capacity
`n < 2^32`, the value returned by `base_snprintf` is `min n L`, the number of
bytes stored, `L` being the length of the untruncated text; the count on the
sink that accepts everything is `L` modulo `2^32`. -/
theorem base_snprintf_returns_stored (n : Nat) (format : List Nat) (args : List va_arg_t)
    (text : List Nat) (count : Nat) (hn : n < 4294967296)
    (h : format_text format args = .ok (text, count)) :
    count = text.length % 4294967296 ∧
      ∃ captures, base_snprintf n format args = .ok (captures, min n text.length) ∧
        captures.buf.length = min n text.length := by
  rw [format_text_eq] at h
  rw [base_snprintf_eq]
  cases hc : format_calls format args with
  | error e2 => rw [hc] at h; simp [Except.map] at h
  | ok cs =>
    rw [hc] at h
    simp only [Except.map, Except.ok.injEq, Prod.mk.injEq] at h
    refine ⟨by rw [← h.2, ← h.1]; rfl,
      { buf := cs.flatten.take n, bytes_left := n - min n cs.flatten.length }, ?_, ?_⟩
    · rw [← h.1]
      have : min n cs.flatten.length % kWord = min n cs.flatten.length :=
        Nat.mod_eq_of_lt (by simp only [kWord]; omega)
      simp only [Except.map, this]
    · rw [← h.1]
      simp

/-- Witness of C2 as amended: capacity 4, the format "abc%dxyz" and the
argument 77. -/
theorem base_snprintf_returns_stored_witness :
    8 = (bytes "abc77xyz").length % 4294967296 ∧
      ∃ captures, base_snprintf 4 (bytes "abc%dxyz") [va_arg_t.u32 77] =
          .ok (captures, min 4 (bytes "abc77xyz").length) ∧
        captures.buf.length = min 4 (bytes "abc77xyz").length :=
  base_snprintf_returns_stored 4 (bytes "abc%dxyz") [va_arg_t.u32 77] (bytes "abc77xyz") 8
    (by decide) (by decide)

/-- Counterexample to C2 as stated: with capacity 1 and the format "abc" the
call returns 1, while the untruncated length is 3. -/
theorem base_snprintf_count_counterexample :
    ¬ (∀ (n : Nat) (format : List Nat) (args : List va_arg_t)
        (captures : snprintf_captures_t) (ret : Nat) (text : List Nat) (L : Nat),
        base_snprintf n format args = .ok (captures, ret) →
        format_text format args = .ok (text, L) → ret = L) := by
  intro h
  have := h 1 (bytes "abc") [] { buf := [97], bytes_left := 0 } 1 (bytes "abc") 3
    (by decide) (by decide)
  omega

/-! ## Signed decimals and rejected specifiers -/

/-- C5: for every negative 32-bit value `v`, the minimum included, and every
width up to 32, the cases 'd' and 'i' of `process_specifier` emit "-" and then,
in one more sink call, the decimal digits of the magnitude of `v` padded on the
left to the width, so the sign is not counted in the width; -5 with "%03d"
gives "-005". -/
theorem signed_dec_negative {σ : Type} (sink : sink_func σ) (spec : format_specifier_t)
    (st : σ × Nat) (rest : List va_arg_t) (v : Int)
    (hv : -2147483648 ≤ v ∧ v < 0)
    (ht : spec.type = kSignedDec1 ∨ spec.type = kSignedDec2)
    (hn : spec.is_nonstd = false) (hw : spec.width ≤ 32) :
    process_specifier sink spec st (int_arg v :: rest) =
        .ok (emit sink (emit sink st [45])
          (List.replicate (spec.width - (digit_text 10 kDigitsLow v.natAbs).length)
            spec.padding ++ digit_text 10 kDigitsLow v.natAbs), rest) ∧
      format_text (bytes "%03d") [int_arg (-5)] = .ok (bytes "-005", 4) := by
  refine ⟨?_, by decide⟩
  have hx : (v % (kWord : Int)).toNat % kWord = 4294967296 - v.natAbs := by
    simp only [kWord]
    omega
  have hge : 4294967296 - v.natAbs ≥ 2147483648 := by omega
  have hneg : (kWord - (4294967296 - v.natAbs)) % kWord = v.natAbs := by
    simp only [kWord]
    omega
  have hpos := digit_text_length_pos 10 kDigitsLow v.natAbs
  have hbuf := write_digits_buffer_eq v.natAbs spec.width spec.padding 10 kDigitsLow
    (by omega) (by simp only [kWord]; omega) hw
  have hmax : max spec.width 1 - (digit_text 10 kDigitsLow v.natAbs).length =
      spec.width - (digit_text 10 kDigitsLow v.natAbs).length := by omega
  rw [hmax] at hbuf
  rcases ht with h | h <;>
    simp [process_specifier, h, hn, kPercent, kCharacter, kFourCC, kString, kSignedDec1,
      kSignedDec2, int_arg, va_arg_u32, Except.bind, hx, hge, hneg, write_digits, hbuf,
      add_count_sink]

/-- Witness of C5: the minimum value with width 12 and zero padding. -/
theorem signed_dec_negative_witness :
    process_specifier collect_sink
        { type := kSignedDec1, width := 12, padding := 48, is_nonstd := false } ([], 0)
        (int_arg (-2147483648) :: []) =
      .ok (emit collect_sink (emit collect_sink ([], 0) [45])
          (List.replicate
            (({ type := kSignedDec1, width := 12, padding := 48,
                is_nonstd := false } : format_specifier_t).width -
              (digit_text 10 kDigitsLow (-2147483648 : Int).natAbs).length)
            ({ type := kSignedDec1, width := 12, padding := 48,
                is_nonstd := false } : format_specifier_t).padding
            ++ digit_text 10 kDigitsLow (-2147483648 : Int).natAbs), []) :=
  (signed_dec_negative collect_sink
    { type := kSignedDec1, width := 12, padding := 48, is_nonstd := false } ([], 0) []
    (-2147483648) (by decide) (by decide) (by decide) (by decide)).1

/-- C6, as amended: "%5d" with the value -42 gives "-   42": the minus sign,
three spaces and 42, six characters, because the width 5 pads the magnitude
alone. -/
theorem signed_dec_width_five :
    format_text (bytes "%5d") [int_arg (-42)] = .ok (bytes "-   42", 6) := by decide

/-- Counterexample to C6 as stated: the text for "%5d" and -42 is not
"-  42". -/
theorem signed_dec_width_five_counterexample :
    (format_text (bytes "%5d") [int_arg (-42)]).map (fun r => r.1) ≠ .ok (bytes "-  42") := by
  decide

/-- C10: for the type characters '%', 'c', 'd', 'i', 'o', 'u', 'p' with the
'!' marker, and for 'y' and 'Y' without it, `process_specifier` emits
"%<unknown spec>" in one sink call and leaves the argument list as it was; so
"%!d%d" with the single argument 5 gives "%<unknown spec>5". -/
theorem disallowed_marker_unknown_spec {σ : Type} (sink : sink_func σ)
    (spec : format_specifier_t) (st : σ × Nat) (args : List va_arg_t)
    (h : (spec.is_nonstd = true ∧
          spec.type ∈ [kPercent, kCharacter, kSignedDec1, kSignedDec2, kUnsignedOct,
            kUnsignedDec, kPointer]) ∨
        (spec.is_nonstd = false ∧ spec.type ∈ [kHexLeLow, kHexLeHigh])) :
    process_specifier sink spec st args = .ok (emit sink st kUnknownSpec, args) ∧
      format_text (bytes "%!d%d") [va_arg_t.u32 5] = .ok (bytes "%<unknown spec>5", 16) := by
  refine ⟨?_, by decide⟩
  rcases h with ⟨hn, ht⟩ | ⟨hn, ht⟩
  · simp only [List.mem_cons, List.mem_singleton, List.not_mem_nil, or_false] at ht
    rcases ht with h | h | h | h | h | h | h <;>
      simp [process_specifier, h, hn, bad_spec, kPercent, kCharacter, kFourCC, kString,
        kSignedDec1, kSignedDec2, kUnsignedOct, kPointer, kUnsignedHexLow, kSvHexLow,
        kUnsignedHexHigh, kSvHexHigh, kHexLeLow, kHexLeHigh, kUnsignedDec]
  · simp only [List.mem_cons, List.mem_singleton, List.not_mem_nil, or_false] at ht
    rcases ht with h | h <;>
      simp [process_specifier, h, hn, bad_spec, kPercent, kCharacter, kFourCC, kString,
        kSignedDec1, kSignedDec2, kUnsignedOct, kPointer, kUnsignedHexLow, kSvHexLow,
        kUnsignedHexHigh, kSvHexHigh, kHexLeLow, kHexLeHigh, kUnsignedDec]

/-- Witness of C10: the specifier "%!d". -/
theorem disallowed_marker_unknown_spec_witness :
    process_specifier collect_sink
        { type := kSignedDec1, width := 0, padding := 0, is_nonstd := true } ([], 0)
        [va_arg_t.u32 5] =
      .ok (emit collect_sink ([], 0) kUnknownSpec, [va_arg_t.u32 5]) :=
  (disallowed_marker_unknown_spec collect_sink
    { type := kSignedDec1, width := 0, padding := 0, is_nonstd := true } ([], 0)
    [va_arg_t.u32 5] (by decide)).1

/-! ## Scanning: literal runs, widths and the error tokens -/

theorem text_len_loop_literal (lit rest : List Nat) (hlit : ∀ c ∈ lit, c ≠ 0 ∧ c ≠ 37)
    (hrest : rest.headD 0 = 0 ∨ rest.headD 0 = 37) :
    text_len_loop (lit ++ rest) = lit.length := by
  induction lit with
  | nil =>
    cases rest with
    | nil => rfl
    | cons c r =>
      simp only [List.headD_cons] at hrest
      simp [text_len_loop, kPercent, hrest]
  | cons c lit ih =>
    have hc := hlit c (by simp)
    have := ih (fun x hx => hlit x (by simp [hx]))
    simp [text_len_loop, kPercent, hc.1, hc.2, this]

theorem consume_until_percent_literal {σ : Type} (sink : sink_func σ) (st : σ × Nat)
    (lit rest : List Nat) (hlit : ∀ c ∈ lit, c ≠ 0 ∧ c ≠ 37)
    (hrest : rest.headD 0 = 0 ∨ rest.headD 0 = 37) :
    consume_until_percent sink st (lit ++ rest) =
      (if lit.length > 0 then emit sink st lit else st, rest, rest.headD 0 != 0) := by
  unfold consume_until_percent
  simp only [text_len_loop_literal lit rest hlit hrest]
  have h1 : (lit ++ rest).getD lit.length 0 = rest.headD 0 := by
    clear hlit
    induction lit with
    | nil => cases rest <;> rfl
    | cons c l ih => simpa using ih
  simp only [h1, List.take_left, List.drop_left]

theorem emit_collect (st : List Nat × Nat) (buf : List Nat) :
    emit collect_sink st buf = (st.1 ++ buf, (st.2 + buf.length) % kWord) := rfl

theorem emit_literal_collect (st : List Nat × Nat) (lit : List Nat) (h : st.2 < kWord) :
    (if lit.length > 0 then emit collect_sink st lit else st) =
      (st.1 ++ lit, (st.2 + lit.length) % kWord) := by
  cases lit with
  | nil => simp [Nat.mod_eq_of_lt h]
  | cons c l => simp [emit_collect]

theorem vfprintf_loop_literal (n : Nat) (st : List Nat × Nat) (lit : List Nat)
    (args : List va_arg_t) (h : st.2 < kWord) (hlit : ∀ c ∈ lit, c ≠ 0 ∧ c ≠ 37) :
    vfprintf_loop collect_sink (n + 1) st lit args =
      .ok ((st.1 ++ lit, (st.2 + lit.length) % kWord), args) := by
  cases lit with
  | nil => simp [vfprintf_loop, Nat.mod_eq_of_lt h]
  | cons c l =>
    have hc := hlit c (by simp)
    rw [vfprintf_loop_succ _ _ _ _ _ (by simpa using hc.1)]
    have := consume_until_percent_literal collect_sink st (c :: l) [] hlit (by simp)
    rw [List.append_nil] at this
    rw [this]
    simp [emit_collect]

theorem width_loop_nul (tail : List Nat) (htail : tail.headD 0 = 0) :
    ∀ (ds : List Nat) (w p : Nat), (∀ c ∈ ds, 48 ≤ c ∧ c ≤ 57) →
      width_loop (ds ++ tail) w p = none := by
  intro ds
  induction ds with
  | nil =>
    intro w p _
    cases tail with
    | nil => rfl
    | cons c r =>
      simp only [List.headD_cons] at htail
      simp [width_loop, htail]
  | cons c ds ih =>
    intro w p h
    have hc := h c (by simp)
    have hds : ∀ x ∈ ds, 48 ≤ x ∧ x ≤ 57 := fun x hx => h x (by simp [hx])
    have h0 : c ≠ 0 := by omega
    have h1 : ¬ (c < 48 ∨ c > 57) := by omega
    simp only [List.cons_append, width_loop, if_neg h0, if_neg h1, List.append_eq]
    split_ifs <;> exact ih _ _ hds

theorem width_acc_mod (ds : List Nat) :
    ∀ (a b : Nat), a % kWord = b % kWord → width_acc a ds % kWord = width_acc b ds % kWord := by
  induction ds with
  | nil => intro a b h; simpa [width_acc] using h
  | cons c ds ih =>
    intro a b h
    simp only [width_acc, List.foldl_cons]
    apply ih
    simp only [kWord] at h ⊢
    omega

theorem width_loop_digits (t : Nat) (rest : List Nat) (ht : t ≠ 0 ∧ (t < 48 ∨ 57 < t))
    (p : Nat) (hp : p ≠ 0) :
    ∀ (ds : List Nat) (w : Nat), w < kWord → (∀ c ∈ ds, 48 ≤ c ∧ c ≤ 57) →
      width_loop (ds ++ t :: rest) w p = some (width_acc w ds % kWord, p, t :: rest) := by
  intro ds
  induction ds with
  | nil =>
    intro w hw _
    have h1 : t < 48 ∨ t > 57 := ht.2
    simp [width_loop, ht.1, h1, width_acc, Nat.mod_eq_of_lt hw]
  | cons c ds ih =>
    intro w hw h
    have hc := h c (by simp)
    have hds : ∀ x ∈ ds, 48 ≤ x ∧ x ≤ 57 := fun x hx => h x (by simp [hx])
    have h0 : c ≠ 0 := by omega
    have h1 : ¬ (c < 48 ∨ c > 57) := by omega
    simp only [List.cons_append, width_loop, if_neg h0, if_neg h1, if_neg hp, List.append_eq]
    rw [ih _ (Nat.mod_lt _ (by simp [kWord])) hds]
    simp only [width_acc, List.foldl_cons, Option.some.injEq, Prod.mk.injEq, and_true]
    apply width_acc_mod
    simp only [kWord]
    omega

theorem width_loop_start (t : Nat) (rest : List Nat) (ht : t ≠ 0 ∧ (t < 48 ∨ 57 < t))
    (ds : List Nat) (hne : ds ≠ []) (hds : ∀ c ∈ ds, 48 ≤ c ∧ c ≤ 57) :
    ∃ p, p ≠ 0 ∧
      width_loop (ds ++ t :: rest) 0 0 = some (decimal_value ds % kWord, p, t :: rest) := by
  cases ds with
  | nil => exact absurd rfl hne
  | cons c ds =>
    have hc := hds c (by simp)
    have hds2 : ∀ x ∈ ds, 48 ≤ x ∧ x ≤ 57 := fun x hx => hds x (by simp [hx])
    have h0 : c ≠ 0 := by omega
    have h1 : ¬ (c < 48 ∨ c > 57) := by omega
    simp only [List.cons_append, width_loop, if_neg h0, if_neg h1, if_true, List.append_eq]
    by_cases h48 : c = 48
    · refine ⟨48, by omega, ?_⟩
      rw [if_pos h48, width_loop_digits t rest ht 48 (by omega) ds 0 (by simp [kWord]) hds2]
      simp [decimal_value, width_acc, h48]
    · refine ⟨32, by omega, ?_⟩
      rw [if_neg h48, width_loop_digits t rest ht 32 (by omega) ds _
        (Nat.mod_lt _ (by simp [kWord])) hds2]
      simp only [decimal_value, List.foldl_cons, Option.some.injEq, Prod.mk.injEq, and_true]
      apply width_acc_mod
      simp only [kWord]
      omega

theorem decimal_value_zeros (ds : List Nat) (h : ∀ c ∈ ds, c = 48) : decimal_value ds = 0 := by
  induction ds with
  | nil => rfl
  | cons c ds ih =>
    have hc := h c (by simp)
    have := ih (fun x hx => h x (by simp [hx]))
    simp only [decimal_value, List.foldl_cons] at this ⊢
    simpa [hc] using this

theorem consume_format_specifier_shape {σ : Type} (sink : sink_func σ) (st : σ × Nat)
    (bang : Bool) (body : List Nat) (hb : body.headD 0 ≠ 33) :
    consume_format_specifier sink st (37 :: ((if bang then [33] else []) ++ body)) =
      match width_loop body 0 0 with
      | none => (emit sink st kErrorNul, none)
      | some (width, padding, rest) =>
        if (width = 0 ∧ padding ≠ 0) ∨ width > 32 then (emit sink st kErrorTooWide, none)
        else (st, some ({ type := rest.headD 0, width := width, padding := padding,
                          is_nonstd := bang }, rest.drop 1)) := by
  have hb2 : body.head?.getD 0 ≠ 33 := by simpa using hb
  unfold consume_format_specifier
  cases bang with
  | true => simp
  | false => simp [hb2]

theorem process_specifier_unknown {σ : Type} (sink : sink_func σ)
    (spec : format_specifier_t) (st : σ × Nat) (args : List va_arg_t)
    (h : spec.type ∉ specifier_table) :
    process_specifier sink spec st args = .ok (emit sink st kUnknownSpec, args) := by
  simp only [specifier_table, List.mem_cons, List.mem_singleton, List.not_mem_nil, or_false,
    not_or] at h
  obtain ⟨h1, h2, h3, h4, h5, h6, h7, h8, h9, h10, h11, h12, h13, h14, h15, h16, h17⟩ := h
  simp [process_specifier, bad_spec, h1, h2, h3, h4, h5, h6, h7, h8, h9, h10, h11, h12, h13,
    h14, h15, h16, h17]

theorem vfprintf_loop_of_scan {σ : Type} (sink : sink_func σ) (c c2 : Config σ)
    (h : Scan sink c c2) :
    ∀ n, c.2.1.length < n →
      vfprintf_loop sink n c.1 c.2.1 c.2.2 =
        vfprintf_loop sink (c2.2.1.length + 1) c2.1 c2.2.1 c2.2.2 := by
  induction h with
  | start => intro n hn; exact vfprintf_loop_fuel sink _ _ _ _ _ hn (by omega)
  | next st format args spec format2 q _ h0 hfound hspec hproc ih =>
    intro n hn
    rw [ih n hn]
    simp only
    rw [vfprintf_loop_succ sink _ st format args h0]
    simp only [hfound, Bool.true_eq_false, if_false, hspec, hproc]
    have h1 := consume_format_specifier_length _ _ _ _ _ hspec
    have h2 := consume_until_percent_length sink st format
    exact vfprintf_loop_fuel sink _ _ _ _ _ (by omega) (by omega)

/-- C7: for every type character `t` that `process_specifier` has no case for
(a character that is not the terminator, not the '!' marker and not a digit, so
that it stands in the type position) and every literal text `T` without '%',
the format "%t" followed by `T` gives "%<unknown spec>" followed by `T`; so
"%qabc" gives "%<unknown spec>abc". -/
theorem unknown_spec_continues (t : Nat) (T : List Nat) (args : List va_arg_t)
    (ht : t ∉ specifier_table) (hc : t ≠ 0 ∧ t ≠ 33 ∧ (t < 48 ∨ 57 < t))
    (hT : ∀ c ∈ T, c ≠ 0 ∧ c ≠ 37) :
    format_text (37 :: t :: T) args =
        .ok (kUnknownSpec ++ T, (15 + T.length) % 4294967296) ∧
      format_text (bytes "%qabc") [] = .ok (bytes "%<unknown spec>abc", 18) := by
  refine ⟨?_, by decide⟩
  unfold format_text base_vfprintf
  simp only [List.length_cons]
  rw [vfprintf_loop_succ _ _ _ _ _ (by simp)]
  have h1 := consume_until_percent_literal collect_sink ([], 0) [] (37 :: t :: T)
    (by simp) (by simp)
  simp only [List.nil_append, List.length_nil, gt_iff_lt, lt_self_iff_false, if_false,
    List.headD_cons] at h1
  have h2 := consume_format_specifier_shape collect_sink ([], 0) false (t :: T)
    (by simpa using hc.2.1)
  have h3 : width_loop (t :: T) 0 0 = some (0, 0, t :: T) := by
    have : t < 48 ∨ t > 57 := hc.2.2
    simp [width_loop, hc.1, this]
  simp only [Bool.false_eq_true, if_false, List.nil_append, h3] at h2
  simp only [h1, h2]
  simp only [ne_eq, not_true_eq_false, and_false, gt_iff_lt, Nat.not_lt_zero, or_self,
    if_false, List.headD_cons, List.drop_succ_cons, List.drop_zero]
  rw [process_specifier_unknown _ _ _ _ (by simpa using ht)]
  simp only [emit_collect, List.nil_append]
  rw [vfprintf_loop_literal _ _ _ _ (by simp [kWord, kUnknownSpec]) hT]
  simp [Except.map, kUnknownSpec, kWord]

/-- Witness of C7: the type character 'q' and the literal "abc". -/
theorem unknown_spec_continues_witness :
    format_text (37 :: 113 :: [97, 98, 99]) [] =
      .ok (kUnknownSpec ++ [97, 98, 99], (15 + [97, 98, 99].length) % 4294967296) :=
  (unknown_spec_continues 113 [97, 98, 99] [] (by decide) (by decide) (by decide)).1

/-- C8: for every format string that is literal text, then '%', an optional
'!', a run of width digits and a type character, where the run denotes a value
above 32 (and below `2^32`, so that the accumulator does not wrap) or consists
of zeros only, the output is the literal text followed by "%<bad width>"; the
scan stops there and the argument list is as it was; "%33d" and "%00d" both
give "%<bad width>". -/
theorem bad_width_stops (format lit ds rest : List Nat) (bang : Bool) (t : Nat)
    (args : List va_arg_t)
    (hf : format = lit ++ 37 :: ((if bang then [33] else []) ++ (ds ++ t :: rest)))
    (hlit : ∀ c ∈ lit, c ≠ 0 ∧ c ≠ 37)
    (hne : ds ≠ []) (hds : ∀ c ∈ ds, 48 ≤ c ∧ c ≤ 57)
    (ht : t ≠ 0 ∧ (t < 48 ∨ 57 < t))
    (hval : (32 < decimal_value ds ∧ decimal_value ds < 4294967296) ∨ ∀ c ∈ ds, c = 48) :
    vfprintf_loop collect_sink (format.length + 1) ([], 0) format args =
        .ok ((lit ++ kErrorTooWide, (lit.length + 12) % 4294967296), args) ∧
      format_text format args = .ok (lit ++ kErrorTooWide, (lit.length + 12) % 4294967296) ∧
      format_text (bytes "%33d") [va_arg_t.u32 1] = .ok (bytes "%<bad width>", 12) ∧
      format_text (bytes "%00d") [va_arg_t.u32 1] = .ok (bytes "%<bad width>", 12) := by
  have main : vfprintf_loop collect_sink (format.length + 1) ([], 0) format args =
      .ok ((lit ++ kErrorTooWide, (lit.length + 12) % 4294967296), args) := by
    have h0 : format.headD 0 ≠ 0 := by
      rw [hf]
      cases lit with
      | nil => simp
      | cons c l => simpa using (hlit c (by simp)).1
    rw [vfprintf_loop_succ _ _ _ _ _ h0]
    have h1 := consume_until_percent_literal collect_sink ([], 0) lit
      (37 :: ((if bang then [33] else []) ++ (ds ++ t :: rest))) hlit (by simp)
    rw [← hf, emit_literal_collect _ _ (by simp [kWord])] at h1
    have hb : (ds ++ t :: rest).headD 0 ≠ 33 := by
      cases ds with
      | nil => exact absurd rfl hne
      | cons c l =>
        have := hds c (by simp)
        simp only [List.cons_append, List.headD_cons]
        omega
    have h2 := consume_format_specifier_shape collect_sink
      (lit, (0 + lit.length) % kWord) bang (ds ++ t :: rest) hb
    obtain ⟨p, hp, h3⟩ := width_loop_start t rest ht ds hne hds
    have hbad : (decimal_value ds % kWord = 0 ∧ p ≠ 0) ∨ decimal_value ds % kWord > 32 := by
      rcases hval with hv | hz
      · right
        rw [Nat.mod_eq_of_lt (by simpa [kWord] using hv.2)]
        exact hv.1
      · left
        rw [decimal_value_zeros ds hz]
        exact ⟨rfl, hp⟩
    simp only [h3, if_pos hbad] at h2
    simp only [h1, List.nil_append, List.headD_cons, h2]
    simp [emit_collect, kErrorTooWide, kWord]
  refine ⟨main, ?_, by decide, by decide⟩
  unfold format_text base_vfprintf
  simp only [main, Except.map]

/-- Witness of C8: the format "ab%!0040x" followed by more text. -/
theorem bad_width_stops_witness :
    vfprintf_loop collect_sink ((bytes "ab%!0040x, %d").length + 1) ([], 0)
        (bytes "ab%!0040x, %d") [va_arg_t.u32 1] =
      .ok (([97, 98] ++ kErrorTooWide, (([97, 98] : List Nat).length + 12) % 4294967296),
        [va_arg_t.u32 1]) :=
  (bad_width_stops (bytes "ab%!0040x, %d") [97, 98] [48, 48, 52, 48] (bytes ", %d") true 120
    [va_arg_t.u32 1] (by decide) (by decide) (by decide) (by decide) (by decide)
    (by decide)).1

/-- C9: whenever the scan of a format string comes to the top of its loop with
the rest of the format being literal text, a '%', an optional '!', optional
width digits and then the terminator, the output is what was rendered up to
there, the literal text and "%<unexpected nul>"; the scan stops and the
arguments left at that point stay unread; "abc%" gives
"abc%<unexpected nul>". -/
theorem unexpected_nul_stops (format : List Nat) (args : List va_arg_t)
    (st : List Nat × Nat) (args2 : List va_arg_t) (lit ds tail : List Nat) (bang : Bool)
    (hscan : Scan collect_sink (([], 0), format, args)
      (st, lit ++ 37 :: ((if bang then [33] else []) ++ (ds ++ tail)), args2))
    (hlit : ∀ c ∈ lit, c ≠ 0 ∧ c ≠ 37) (hds : ∀ c ∈ ds, 48 ≤ c ∧ c ≤ 57)
    (htail : tail.headD 0 = 0) :
    (∃ count, vfprintf_loop collect_sink (format.length + 1) ([], 0) format args =
        .ok ((st.1 ++ lit ++ kErrorNul, count), args2)) ∧
      (∃ count, format_text format args = .ok (st.1 ++ lit ++ kErrorNul, count)) ∧
      format_text (bytes "abc%") [] = .ok (bytes "abc%<unexpected nul>", 20) := by
  have main : ∃ count, vfprintf_loop collect_sink (format.length + 1) ([], 0) format args =
      .ok ((st.1 ++ lit ++ kErrorNul, count), args2) := by
    have hs := vfprintf_loop_of_scan collect_sink _ _ hscan (format.length + 1) (by simp)
    simp only at hs
    rw [hs]
    have h0 : (lit ++ 37 :: ((if bang then [33] else []) ++ (ds ++ tail))).headD 0 ≠ 0 := by
      cases lit with
      | nil => simp
      | cons c l => simpa using (hlit c (by simp)).1
    rw [vfprintf_loop_succ _ _ _ _ _ h0]
    have h1 := consume_until_percent_literal collect_sink st lit
      (37 :: ((if bang then [33] else []) ++ (ds ++ tail))) hlit (by simp)
    have hb : (ds ++ tail).headD 0 ≠ 33 := by
      cases ds with
      | nil =>
        simp only [List.nil_append]
        omega
      | cons c l =>
        have := hds c (by simp)
        simp only [List.cons_append, List.headD_cons]
        omega
    have h2 := consume_format_specifier_shape collect_sink
      (if lit.length > 0 then emit collect_sink st lit else st) bang (ds ++ tail) hb
    simp only [width_loop_nul tail htail ds 0 0 hds] at h2
    refine ⟨(emit collect_sink (if lit.length > 0 then emit collect_sink st lit else st)
      kErrorNul).2, ?_⟩
    simp only [h1, List.headD_cons, h2]
    cases lit <;> simp [emit_collect]
  refine ⟨main, ?_, by decide⟩
  obtain ⟨count, hm⟩ := main
  exact ⟨count, by unfold format_text base_vfprintf; simp only [hm, Except.map]⟩

/-- Witness of C9: the format "%d %!12" with one argument: the scan renders
the argument, comes back to the top of the loop and meets the terminator after
the width digits. -/
theorem unexpected_nul_stops_witness :
    ∃ count, vfprintf_loop collect_sink ((bytes "%d %!12").length + 1) ([], 0)
        (bytes "%d %!12") [va_arg_t.u32 7] =
      .ok (([55] ++ [32] ++ kErrorNul, count), []) :=
  (unexpected_nul_stops (bytes "%d %!12") [va_arg_t.u32 7] ([55], 1) [] [32] [49, 50] [] true
    (Scan.next _ ([], 0) (bytes "%d %!12") [va_arg_t.u32 7]
      { type := 100, width := 0, padding := 0, is_nonstd := false } (bytes " %!12")
      (([55], 1), []) (Scan.start _) (by decide) (by decide) (by decide) (by decide))
    (by decide) (by decide) (by decide)).1

/-! ## Single specifiers -/

/-- The specifier with the marker `bang` and the type `t`, no width. -/
theorem format_text_single (bang : Bool) (t : Nat) (args : List va_arg_t)
    (ht : t ≠ 0 ∧ t ≠ 33 ∧ (t < 48 ∨ 57 < t)) :
    format_text (37 :: ((if bang then [33] else []) ++ [t])) args =
      (process_specifier collect_sink
        { type := t, width := 0, padding := 0, is_nonstd := bang } ([], 0) args).map
        fun q => q.1 := by
  unfold format_text base_vfprintf
  simp only
  rw [vfprintf_loop_succ _ _ _ _ _ (by simp)]
  have h1 := consume_until_percent_literal collect_sink ([], 0) []
    (37 :: ((if bang then [33] else []) ++ [t])) (by simp) (by simp)
  simp only [List.nil_append, List.length_nil, gt_iff_lt, lt_self_iff_false, if_false,
    List.headD_cons] at h1
  have h2 := consume_format_specifier_shape collect_sink ([], 0) bang [t]
    (by simpa using ht.2.1)
  have h3 : width_loop [t] 0 0 = some (0, 0, [t]) := by
    have : t < 48 ∨ t > 57 := ht.2.2
    simp [width_loop, ht.1, this]
  simp only [h3] at h2
  simp only [h1, h2]
  simp only [ne_eq, not_true_eq_false, and_false, gt_iff_lt, Nat.not_lt_zero, or_self,
    if_false, List.headD_cons, List.drop_succ_cons, List.drop_zero]
  cases process_specifier collect_sink
      { type := t, width := 0, padding := 0, is_nonstd := bang } ([], 0) args with
  | error e => simp [Except.map]
  | ok q =>
    simp only [Except.map]
    cases hl : (37 :: ((if bang then [33] else []) ++ [t])).length with
    | zero => simp at hl
    | succ n => simp [vfprintf_loop]

/-- On the sink that accepts everything the count is the length of the text. -/
theorem format_text_count (format : List Nat) (args : List va_arg_t) (text : List Nat)
    (h : (format_text format args).map (fun r => r.1) = .ok text) :
    format_text format args = .ok (text, text.length % kWord) := by
  rw [format_text_eq] at h ⊢
  cases hc : format_calls format args with
  | error e => rw [hc] at h; simp [Except.map] at h
  | ok cs =>
    rw [hc] at h
    simp only [Except.map, Except.ok.injEq] at h
    simp [Except.map, h]


theorem string_len_loop_spec :
    ∀ (B : List Nat), 0 ∈ B →
      ∃ k, string_len_loop B = some k ∧ B.take k = B.takeWhile (fun c => c != 0) := by
  intro B
  induction B with
  | nil => intro h; simp at h
  | cons c B ih =>
    intro h
    by_cases hc : c = 0
    · exact ⟨0, by simp [string_len_loop, hc], by simp [hc]⟩
    · have hB : 0 ∈ B := by
        rcases List.mem_cons.mp h with h1 | h1
        · exact absurd h1.symm hc
        · exact h1
      obtain ⟨k, hk, ht⟩ := ih hB
      exact ⟨k + 1, by simp [string_len_loop, hc, hk], by simp [hc, ht]⟩

/-- C11: for every byte sequence `B` and length `n ≤ |B|`, "%!s" with the
arguments `n` and `B` emits the first `n` bytes of `B`, embedded NUL bytes
included; "%s" with the argument `B`, a string with its terminator inside `B`,
emits the bytes of `B` before its first NUL; with the bytes 'a', NUL, 'c' the
first form with length 3 emits all three bytes and the second emits "a". -/
theorem string_forms (B : List Nat) (n addr : Nat) (rest : List va_arg_t)
    (hn : n ≤ B.length) (hsz : n < 4294967296) :
    format_text (bytes "%!s") (va_arg_t.u32 n :: va_arg_t.ptr addr B :: rest) =
        .ok (B.take n, (B.take n).length % 4294967296) ∧
      (0 ∈ B → format_text (bytes "%s") (va_arg_t.ptr addr B :: rest) =
        .ok (B.takeWhile (fun c => c != 0),
          (B.takeWhile (fun c => c != 0)).length % 4294967296)) ∧
      format_text (bytes "%!s") [va_arg_t.u32 3, va_arg_t.ptr 0 [97, 0, 99]] =
        .ok ([97, 0, 99], 3) ∧
      format_text (bytes "%s") [va_arg_t.ptr 0 [97, 0, 99]] = .ok ([97], 1) := by
  refine ⟨?_, ?_, by decide, by decide⟩
  · apply format_text_count
    have hf : bytes "%!s" = 37 :: ((if true then [33] else []) ++ [115]) := by decide
    rw [hf, format_text_single true 115 _ (by decide)]
    have hm : n % kWord = n := Nat.mod_eq_of_lt (by simpa [kWord] using hsz)
    simp [process_specifier, kPercent, kCharacter, kFourCC, kString, va_arg_u32, va_arg_ptr,
      Except.bind, Except.map, hm, hn, emit_collect]
  · intro h0
    apply format_text_count
    have hf : bytes "%s" = 37 :: ((if false then [33] else []) ++ [115]) := by decide
    rw [hf, format_text_single false 115 _ (by decide)]
    obtain ⟨k, hk, ht⟩ := string_len_loop_spec B h0
    simp [process_specifier, kPercent, kCharacter, kFourCC, kString, va_arg_ptr,
      Except.bind, Except.map, hk, ht, emit_collect]

/-- Witness of C11: four bytes with the terminator in third place, length 4. -/
theorem string_forms_witness :
    format_text (bytes "%!s") (va_arg_t.u32 4 :: va_arg_t.ptr 0 [104, 105, 0, 33] :: []) =
        .ok ([104, 105, 0, 33].take 4, ([104, 105, 0, 33].take 4).length % 4294967296) ∧
      format_text (bytes "%s") (va_arg_t.ptr 0 [104, 105, 0, 33] :: []) =
        .ok ([104, 105, 0, 33].takeWhile (fun c => c != 0),
          ([104, 105, 0, 33].takeWhile (fun c => c != 0)).length % 4294967296) :=
  ⟨(string_forms [104, 105, 0, 33] 4 0 [] (by decide) (by decide)).1,
    (string_forms [104, 105, 0, 33] 4 0 [] (by decide) (by decide)).2.1 (by decide)⟩


theorem digit_text_zero (base : Nat) (glyphs : List Nat) :
    digit_text base glyphs 0 = [glyphs.getD 0 0] := by
  simp [digit_text]

/-- C12: for every pointer size `s` of 1 to 16 bytes, the case 'p' formats the
pointer value 0 as "0x" followed by `2 * s` characters '0', `2 + 2 * s`
characters in all; on the target, where the size is 4, "%p" formats every
32-bit pointer value `p` as "0x" followed by the hexadecimal numeral of `p` in
lower case, padded with '0' on the left to 8 digits. -/
theorem pointer_form {σ : Type} (sink : sink_func σ) (st : σ × Nat) (spec : format_specifier_t)
    (s p : Nat) (mem : List Nat) (rest args : List va_arg_t)
    (hs : 1 ≤ s ∧ s ≤ 16) (hp : p < 4294967296)
    (ht : spec.type = kPointer) (hn : spec.is_nonstd = false) :
    pointer_case sink st (va_arg_t.ptr 0 mem :: rest) s =
        .ok (emit sink (emit sink st [48, 120]) (List.replicate (2 * s) 48), rest) ∧
      ([48, 120] ++ List.replicate (2 * s) 48).length = 2 + 2 * s ∧
      process_specifier sink spec st args = pointer_case sink st args sizeof_uintptr_t ∧
      sizeof_uintptr_t = 4 ∧
      format_text (bytes "%p") (va_arg_t.ptr p mem :: rest) =
        .ok ([48, 120] ++ (List.replicate (8 - (digit_text 16 kDigitsLow p).length) 48 ++
          digit_text 16 kDigitsLow p), 10) ∧
      (List.replicate (8 - (digit_text 16 kDigitsLow p).length) 48 ++
          digit_text 16 kDigitsLow p).length = 8 := by
  have hlen8 : (digit_text 16 kDigitsLow p).length ≤ 8 := by
    unfold digit_text
    by_cases h0 : p = 0
    · simp [h0]
    · rw [if_neg h0]
      simpa using digits_length_le 16 (by omega) 8 p (by norm_num; omega)
  have hbufp := write_digits_buffer_eq p 8 48 16 kDigitsLow (by omega)
    (by simpa [kWord] using hp) (by omega)
  have hmax8 : max 8 1 = 8 := by omega
  rw [hmax8] at hbufp
  refine ⟨?_, by simp; omega, ?_, rfl, ?_, by simp; omega⟩
  · have hbuf := write_digits_buffer_eq 0 (s * 2) 48 16 kDigitsLow (by omega)
      (by simp [kWord]) (by omega)
    have hd : (digit_text 16 kDigitsLow 0) = [48] := by decide
    rw [hd] at hbuf
    have hrep : List.replicate (max (s * 2) 1 - [48].length) 48 ++ [48] =
        List.replicate (2 * s) 48 := by
      have : max (s * 2) 1 - [48].length + 1 = 2 * s := by
        simp only [List.length_singleton]
        omega
      rw [← this, List.replicate_succ']
    rw [hrep] at hbuf
    simp [pointer_case, va_arg_u32, Except.bind, write_digits, hbuf, add_count_sink, kWord]
  · simp [process_specifier, pointer_case, ht, hn, kPercent, kCharacter, kFourCC, kString,
      kSignedDec1, kSignedDec2, kUnsignedOct, kPointer]
  · have hf : bytes "%p" = 37 :: ((if false then [33] else []) ++ [112]) := by decide
    have hm : p % kWord = p := Nat.mod_eq_of_lt (by simpa [kWord] using hp)
    have h10 : ([48, 120] ++ (List.replicate (8 - (digit_text 16 kDigitsLow p).length) 48 ++
        digit_text 16 kDigitsLow p)).length % kWord = 10 := by
      simp only [List.length_append, List.length_replicate, List.length_cons, List.length_nil,
        kWord]
      omega
    rw [← h10]
    apply format_text_count
    rw [hf, format_text_single false 112 _ (by decide)]
    simp [process_specifier, kPercent, kCharacter, kFourCC, kString, kSignedDec1, kSignedDec2,
      kUnsignedOct, kPointer, va_arg_u32, Except.bind, Except.map, hm, emit_collect,
      write_digits, collect_sink, add_count, sizeof_uintptr_t, hbufp]

/-- Witness of C12: a pointer size of 8 bytes and the specifier "%p". -/
theorem pointer_form_witness :
    pointer_case collect_sink ([], 0) (va_arg_t.ptr 0 [] :: []) 8 =
      .ok (emit collect_sink (emit collect_sink ([], 0) [48, 120]) (List.replicate (2 * 8) 48),
        []) :=
  (pointer_form collect_sink ([], 0)
    { type := kPointer, width := 0, padding := 0, is_nonstd := false } 8 305419896 [] [] []
    (by decide) (by decide) (by decide) (by decide)).1


/-! ## Hex dumps -/

theorem hex_text_cons (glyphs : List Nat) (b : Nat) (bs : List Nat) :
    hex_text glyphs (b :: bs) =
      [glyphs.getD (b / 16 % 16) 0, glyphs.getD (b % 16) 0] ++ hex_text glyphs bs := by
  simp [hex_text]

theorem hex_text_length (glyphs : List Nat) (bs : List Nat) :
    (hex_text glyphs bs).length = 2 * bs.length := by
  induction bs with
  | nil => simp [hex_text]
  | cons b bs ih =>
    rw [hex_text_cons, List.length_append, ih]
    simp only [List.length_cons, List.length_nil]
    omega

theorem hex_loop_collect (bytes : List Nat) (len : Nat) (big_endian : Bool)
    (glyphs : List Nat) :
    ∀ (k : Nat) (buf d : List Nat) (c : Nat),
      buf.length % 2 = 0 → buf.length < 32 → k ≤ len → c < kWord →
      ∃ buf2 d2 c2, c2 < kWord ∧
        hex_loop collect_sink bytes len big_endian glyphs k buf (d, c) = (buf2, (d2, c2)) ∧
        d2 ++ buf2 = d ++ buf ++ hex_text glyphs ((List.range' (len - k) k).map fun i =>
          bytes.getD (if big_endian then len - i - 1 else i) 0) ∧
        buf2.length % 2 = 0 ∧ buf2.length < 32 ∧
        (c2 + buf2.length) % kWord = (c + buf.length + 2 * k) % kWord := by
  intro k
  induction k with
  | zero =>
    intro buf d c h2 h32 _ hcw
    exact ⟨buf, d, c, hcw, by simp [hex_loop], by simp [hex_text], h2, h32, by simp⟩
  | succ n ih =>
    intro buf d c h2 h32 hk hcw
    have hr : List.range' (len - (n + 1)) (n + 1) =
        (len - (n + 1)) :: List.range' (len - n) n := by
      rw [List.range'_succ]
      congr 2
      omega
    rw [hr, List.map_cons, hex_text_cons]
    unfold hex_loop
    simp only
    generalize bytes.getD (if big_endian = true then len - (len - (n + 1)) - 1
      else len - (n + 1)) 0 = b
    by_cases hfull : (buf ++ [glyphs.getD (b / 16 % 16) 0, glyphs.getD (b % 16) 0]).length = 32
    · obtain ⟨buf2, d2, c2, hlt, he, ht, hb2, hb32, hc⟩ :=
        ih [] (d ++ (buf ++ [glyphs.getD (b / 16 % 16) 0, glyphs.getD (b % 16) 0]))
          ((c + 32) % kWord) (by simp) (by simp) (by omega)
          (Nat.mod_lt _ (by simp [kWord]))
      refine ⟨buf2, d2, c2, hlt, ?_, ?_, hb2, hb32, ?_⟩
      · rw [← he]
        simp only [if_pos hfull, emit_collect]
        rw [hfull]
      · rw [ht]
        simp
      · rw [hc]
        simp only [List.length_append, List.length_cons, List.length_nil] at hfull
        simp only [kWord, List.length_nil]
        omega
    · obtain ⟨buf2, d2, c2, hlt, he, ht, hb2, hb32, hc⟩ :=
        ih (buf ++ [glyphs.getD (b / 16 % 16) 0, glyphs.getD (b % 16) 0])
          d c (by simp; omega)
          (by simp only [List.length_append, List.length_cons, List.length_nil] at hfull ⊢
              omega)
          (by omega) hcw
      refine ⟨buf2, d2, c2, hlt, ?_, ?_, hb2, hb32, ?_⟩
      · rw [← he]
        simp only [if_neg hfull]
      · rw [ht]
        simp
      · rw [hc]
        simp only [List.length_append, List.length_cons, List.length_nil, kWord]
        omega

theorem hex_dump_collect (d bytes : List Nat) (len width padding : Nat) (big_endian : Bool)
    (glyphs : List Nat) (hw : ¬ len < width) :
    hex_dump collect_sink d bytes len width padding big_endian glyphs =
      (d ++ hex_text glyphs ((List.range' 0 len).map fun i =>
          bytes.getD (if big_endian then len - i - 1 else i) 0), (2 * len) % kWord) := by
  unfold hex_dump
  simp only [if_neg hw]
  obtain ⟨buf2, d2, c2, hlt, he, ht, _, hb32, hc⟩ :=
    hex_loop_collect bytes len big_endian glyphs len [] d 0 (by simp) (by simp) (by omega)
      (by simp [kWord])
  rw [he]
  simp only [Nat.sub_self, List.append_nil] at ht
  simp only [List.length_nil, Nat.add_zero, Nat.zero_add] at hc
  by_cases hz : buf2.length = 0
  · have hnil : buf2 = [] := List.length_eq_zero.mp hz
    subst hnil
    simp only [List.append_nil, List.length_nil, Nat.add_zero] at ht hc
    rw [Nat.mod_eq_of_lt hlt] at hc
    simp [ht, hc]
  · simp only [ne_eq, hz, not_false_eq_true, if_true, emit_collect, ht, hc]

theorem getD_range_forward (B : List Nat) :
    (List.range' 0 B.length).map (fun i => B.getD i 0) = B := by
  apply List.ext_getElem
  · simp
  · intro i h1 h2
    simp [List.getD, List.getElem?_eq_getElem h2]

theorem getD_range_backward (B : List Nat) :
    (List.range' 0 B.length).map (fun i => B.getD (B.length - i - 1) 0) = B.reverse := by
  apply List.ext_getElem
  · simp
  · intro i h1 h2
    have h3 : i < B.length := by simpa using h2
    have h4 : B.length - i - 1 < B.length := by omega
    simp only [List.getElem_map, List.getElem_range', Nat.zero_add, Nat.one_mul,
      List.getElem_reverse, List.getD_eq_getElem?_getD, List.getElem?_eq_getElem h4,
      Option.getD_some]
    congr 1
    omega


theorem hex_dump_format (bang_type : Nat) (B : List Nat) (addr : Nat) (rest : List va_arg_t)
    (big_endian : Bool) (glyphs : List Nat) (hB : B.length < kWord)
    (ht : bang_type ≠ 0 ∧ bang_type ≠ 33 ∧ (bang_type < 48 ∨ 57 < bang_type))
    (hcase : ∀ spec st args, spec.type = bang_type → spec.is_nonstd = true →
      process_specifier collect_sink spec st args =
        hex_dump_case collect_sink spec st args big_endian glyphs) :
    format_text (37 :: ((if true then [33] else []) ++ [bang_type]))
        (va_arg_t.u32 B.length :: va_arg_t.ptr addr B :: rest) =
      .ok (hex_text glyphs (if big_endian then B.reverse else B),
        (hex_text glyphs (if big_endian then B.reverse else B)).length % kWord) := by
  apply format_text_count
  rw [format_text_single true bang_type _ ht, hcase _ _ _ rfl rfl]
  have hm : B.length % kWord = B.length := Nat.mod_eq_of_lt hB
  simp only [hex_dump_case, va_arg_u32, va_arg_ptr, Except.bind, hm, le_refl, if_true,
    hex_dump_collect [] B B.length 0 0 big_endian glyphs (by omega), Except.map, add_count]
  cases big_endian with
  | true => simpa using congrArg (hex_text glyphs) (getD_range_backward B)
  | false => simpa using congrArg (hex_text glyphs) (getD_range_forward B)

/-- C13: for every byte sequence `B`, of any length, and no width, "%!y" and
"%!Y" emit two hex glyphs per byte, high nibble first, for the bytes of `B` in
buffer order, in lower and in upper case, and "%!x" and "%!X" emit the same for
the bytes of `B` in reverse order; the text is `2 * |B|` characters long. -/
theorem hex_dump_forms (B : List Nat) (addr : Nat) (rest : List va_arg_t)
    (hB : B.length < 4294967296) :
    format_text (bytes "%!y") (va_arg_t.u32 B.length :: va_arg_t.ptr addr B :: rest) =
        .ok (hex_text kDigitsLow B, (2 * B.length) % 4294967296) ∧
      format_text (bytes "%!Y") (va_arg_t.u32 B.length :: va_arg_t.ptr addr B :: rest) =
        .ok (hex_text kDigitsHigh B, (2 * B.length) % 4294967296) ∧
      format_text (bytes "%!x") (va_arg_t.u32 B.length :: va_arg_t.ptr addr B :: rest) =
        .ok (hex_text kDigitsLow B.reverse, (2 * B.length) % 4294967296) ∧
      format_text (bytes "%!X") (va_arg_t.u32 B.length :: va_arg_t.ptr addr B :: rest) =
        .ok (hex_text kDigitsHigh B.reverse, (2 * B.length) % 4294967296) ∧
      (hex_text kDigitsLow B).length = 2 * B.length ∧
      (hex_text kDigitsHigh B).length = 2 * B.length ∧
      (hex_text kDigitsLow B.reverse).length = 2 * B.length ∧
      (hex_text kDigitsHigh B.reverse).length = 2 * B.length := by
  have hB2 : B.length < kWord := by simpa [kWord] using hB
  have hy := hex_dump_format 121 B addr rest false kDigitsLow hB2 (by decide)
    (by
      intro spec st args h1 h2
      simp [process_specifier, h1, h2, kPercent, kCharacter, kFourCC, kString, kSignedDec1,
        kSignedDec2, kUnsignedOct, kPointer, kUnsignedHexLow, kSvHexLow, kUnsignedHexHigh,
        kSvHexHigh, kHexLeLow])
  have hY := hex_dump_format 89 B addr rest false kDigitsHigh hB2 (by decide)
    (by
      intro spec st args h1 h2
      simp [process_specifier, h1, h2, kPercent, kCharacter, kFourCC, kString, kSignedDec1,
        kSignedDec2, kUnsignedOct, kPointer, kUnsignedHexLow, kSvHexLow, kUnsignedHexHigh,
        kSvHexHigh, kHexLeLow, kHexLeHigh])
  have hx := hex_dump_format 120 B addr rest true kDigitsLow hB2 (by decide)
    (by
      intro spec st args h1 h2
      simp [process_specifier, h1, h2, kPercent, kCharacter, kFourCC, kString, kSignedDec1,
        kSignedDec2, kUnsignedOct, kPointer, kUnsignedHexLow])
  have hX := hex_dump_format 88 B addr rest true kDigitsHigh hB2 (by decide)
    (by
      intro spec st args h1 h2
      simp [process_specifier, h1, h2, kPercent, kCharacter, kFourCC, kString, kSignedDec1,
        kSignedDec2, kUnsignedOct, kPointer, kUnsignedHexLow, kSvHexLow, kUnsignedHexHigh])
  have e1 : bytes "%!y" = 37 :: ((if true then [33] else []) ++ [121]) := by decide
  have e2 : bytes "%!Y" = 37 :: ((if true then [33] else []) ++ [89]) := by decide
  have e3 : bytes "%!x" = 37 :: ((if true then [33] else []) ++ [120]) := by decide
  have e4 : bytes "%!X" = 37 :: ((if true then [33] else []) ++ [88]) := by decide
  simp only [hex_text_length, List.length_reverse, Bool.false_eq_true, if_false, if_true,
    kWord] at hy hY hx hX
  rw [e1, e2, e3, e4]
  exact ⟨hy, hY, hx, hX, hex_text_length _ _, hex_text_length _ _,
    by rw [hex_text_length, List.length_reverse],
    by rw [hex_text_length, List.length_reverse]⟩

/-- Witness of C13: seventeen bytes, more than one scratch buffer holds. -/
theorem hex_dump_forms_witness :
    format_text (bytes "%!x")
        (va_arg_t.u32 (List.range 17).length :: va_arg_t.ptr 0 (List.range 17) :: []) =
      .ok (hex_text kDigitsLow (List.range 17).reverse,
        (2 * (List.range 17).length) % 4294967296) :=
  (hex_dump_forms (List.range 17) 0 [] (by decide)).2.2.1


/-- C14, the code at the failing input: two bytes with width 3 and space
padding give five characters, one padding character and four hex glyphs,
because `hex_dump` compares the width with the number of bytes. -/
theorem hex_dump_width_three :
    hex_dump collect_sink [] [171, 205] 2 3 32 false kDigitsLow = (bytes " abcd", 5) ∧
      format_text (bytes "%!3y") [va_arg_t.u32 2, va_arg_t.ptr 0 [171, 205]] =
        .ok (bytes " abcd", 5) := by
  decide

/-! ## The status writer -/

theorem takeWhile_no_nul (N : List Nat) (h : 0 ∉ N) : N.takeWhile (fun c => c != 0) = N := by
  induction N with
  | nil => rfl
  | cons c N ih =>
    have hc : c ≠ 0 := fun e => h (by simp [e])
    have hN : 0 ∉ N := fun e => h (by simp [e])
    simp [hc, ih hN]

theorem mod_loop_collect (M : List Nat) (hM : M.length = 3) (st : List Nat × Nat) :
    (mod_loop collect_sink M [0, 1, 2] st).1 = st.1 ++ escape_mod M := by
  match M, hM with
  | [m0, m1, m2], _ =>
    simp only [mod_loop, List.getD_cons_zero, List.getD_cons_succ, escape_mod, List.map_cons,
      List.map_nil, List.flatten_cons, List.flatten_nil]
    split_ifs <;> simp [emit_collect]

theorem write_status_collect (d : List Nat) (err : Bool) (N M : List Nat) (a : Int)
    (as_json : Bool) (hN : 0 ∉ N) (hM : M.length = 3) (ha : 0 ≤ a ∧ a < 2147483648) :
    (write_status collect_sink d (err, N, a, M) as_json).1 =
      d ++ (if as_json then [123, 34] else []) ++ N ++ (if as_json then [34] else []) ++ [58] ++
        (if err then [91, 34] ++ escape_mod M ++ [34, 44] ++ digit_text 10 kDigitsLow a.toNat ++
          [93] else digit_text 10 kDigitsLow a.toNat) ++ (if as_json then [125] else []) := by
  have hv : (a % (kWord : Int)).toNat = a.toNat := by
    simp only [kWord]
    omega
  have hpos := digit_text_length_pos 10 kDigitsLow a.toNat
  have hbuf := write_digits_buffer_eq a.toNat 0 0 10 kDigitsLow (by omega)
    (by simp only [kWord]; omega) (by omega)
  have h0 : max 0 1 - (digit_text 10 kDigitsLow a.toNat).length = 0 := by omega
  rw [h0] at hbuf
  simp only [List.replicate_zero, List.nil_append] at hbuf
  unfold write_status
  simp only [takeWhile_no_nul N hN, hv, write_digits, add_count_sink]
  cases err <;> cases as_json <;>
    simp [emit_collect, hbuf, mod_loop_collect M hM]

theorem status_format (bang : Bool) (err : Bool) (N M : List Nat) (a : Int)
    (rest : List va_arg_t) (hN : 0 ∉ N) (hM : M.length = 3) (ha : 0 ≤ a ∧ a < 2147483648) :
    (format_text (37 :: ((if bang then [33] else []) ++ [114]))
        (va_arg_t.status err N a M :: rest)).map (fun r => r.1) =
      .ok ((if bang then [123, 34] else []) ++ N ++ (if bang then [34] else []) ++ [58] ++
        (if err then [91, 34] ++ escape_mod M ++ [34, 44] ++ digit_text 10 kDigitsLow a.toNat ++
          [93] else digit_text 10 kDigitsLow a.toNat) ++ (if bang then [125] else [])) := by
  rw [format_text_single bang 114 _ (by decide)]
  have h := write_status_collect [] err N M a bang hN hM ha
  simp only [List.nil_append] at h
  simp [process_specifier, kPercent, kCharacter, kFourCC, kString, kSignedDec1, kSignedDec2,
    kUnsignedOct, kPointer, kUnsignedHexLow, kSvHexLow, kUnsignedHexHigh, kSvHexHigh,
    kHexLeLow, kHexLeHigh, kUnsignedDec, kSvBinary, kStatusResult, va_arg_status,
    Except.bind, Except.map, add_count, h]


/-- C15: for every status value that `status_extract` decodes into the code
name `N`, the 3-character module identifier `M`, the payload `a ≥ 0` and the
failure flag, "%!r" emits, for a failure, an opening brace, `N` in double
quotes, a colon, and in square brackets `M` in double quotes with every
backslash doubled, a comma and `a`, then a closing brace; for a success it
emits the opening brace, `N` in double quotes, a colon, `a` and the closing
brace, without the module identifier; `a` is an unpadded decimal numeral. -/
theorem status_structured (N M : List Nat) (a : Int) (rest : List va_arg_t)
    (hN : 0 ∉ N) (hM : M.length = 3) (ha : 0 ≤ a ∧ a < 2147483648) :
    format_text (bytes "%!r") (va_arg_t.status true N a M :: rest) =
        .ok ([123, 34] ++ N ++ [34, 58, 91, 34] ++ escape_mod M ++ [34, 44] ++
            digit_text 10 kDigitsLow a.toNat ++ [93, 125],
          ([123, 34] ++ N ++ [34, 58, 91, 34] ++ escape_mod M ++ [34, 44] ++
            digit_text 10 kDigitsLow a.toNat ++ [93, 125]).length % 4294967296) ∧
      format_text (bytes "%!r") (va_arg_t.status false N a M :: rest) =
        .ok ([123, 34] ++ N ++ [34, 58] ++ digit_text 10 kDigitsLow a.toNat ++ [125],
          ([123, 34] ++ N ++ [34, 58] ++ digit_text 10 kDigitsLow a.toNat ++
            [125]).length % 4294967296) ∧
      escape_mod [80, 92, 78] = [80, 92, 92, 78] := by
  have hf : bytes "%!r" = 37 :: ((if true then [33] else []) ++ [114]) := by decide
  refine ⟨?_, ?_, by decide⟩
  · apply format_text_count
    rw [hf, status_format true true N M a rest hN hM ha]
    simp
  · apply format_text_count
    rw [hf, status_format true false N M a rest hN hM ha]
    simp

/-- Witness of C15: the code name "Unknown", the module identifier 'P', '\\',
'N' and the payload 5. -/
theorem status_structured_witness :
    format_text (bytes "%!r")
        (va_arg_t.status false (bytes "Unknown") 5 [80, 92, 78] :: []) =
      .ok ([123, 34] ++ bytes "Unknown" ++ [34, 58] ++
          digit_text 10 kDigitsLow (5 : Int).toNat ++ [125],
        ([123, 34] ++ bytes "Unknown" ++ [34, 58] ++ digit_text 10 kDigitsLow (5 : Int).toNat ++
          [125]).length % 4294967296) :=
  (status_structured (bytes "Unknown") [80, 92, 78] 5 [] (by decide) (by decide)
    (by decide)).2.1

/-- C16, as amended: "%r" emits the code name `N`, a colon and the decimal
numeral of the payload `a` for a success; for a failure it emits `N`, a colon
and then, in square brackets, the module identifier in double quotes with every
backslash doubled, a comma and `a`. -/
theorem status_plain (N M : List Nat) (a : Int) (rest : List va_arg_t)
    (hN : 0 ∉ N) (hM : M.length = 3) (ha : 0 ≤ a ∧ a < 2147483648) :
    format_text (bytes "%r") (va_arg_t.status false N a M :: rest) =
        .ok (N ++ [58] ++ digit_text 10 kDigitsLow a.toNat,
          (N ++ [58] ++ digit_text 10 kDigitsLow a.toNat).length % 4294967296) ∧
      format_text (bytes "%r") (va_arg_t.status true N a M :: rest) =
        .ok (N ++ [58, 91, 34] ++ escape_mod M ++ [34, 44] ++
            digit_text 10 kDigitsLow a.toNat ++ [93],
          (N ++ [58, 91, 34] ++ escape_mod M ++ [34, 44] ++
            digit_text 10 kDigitsLow a.toNat ++ [93]).length % 4294967296) := by
  have hf : bytes "%r" = 37 :: ((if false then [33] else []) ++ [114]) := by decide
  refine ⟨?_, ?_⟩
  · apply format_text_count
    rw [hf, status_format false false N M a rest hN hM ha]
    simp
  · apply format_text_count
    rw [hf, status_format false true N M a rest hN hM ha]
    simp

/-- Witness of C16 as amended: a failure with the code name "Unknown", the
module identifier "PRN" and the payload 5. -/
theorem status_plain_witness :
    format_text (bytes "%r") (va_arg_t.status true (bytes "Unknown") 5 (bytes "PRN") :: []) =
      .ok (bytes "Unknown" ++ [58, 91, 34] ++ escape_mod (bytes "PRN") ++ [34, 44] ++
          digit_text 10 kDigitsLow (5 : Int).toNat ++ [93],
        (bytes "Unknown" ++ [58, 91, 34] ++ escape_mod (bytes "PRN") ++ [34, 44] ++
          digit_text 10 kDigitsLow (5 : Int).toNat ++ [93]).length % 4294967296) :=
  (status_plain (bytes "Unknown") (bytes "PRN") 5 [] (by decide) (by decide) (by decide)).2

/-- Counterexample to C16 as stated: for a failure with the code name
"Unknown", the module identifier "PRN" and the payload 5, "%r" does not emit
"Unknown:5"; it emits the name, the colon and the bracketed module identifier
and payload. -/
theorem status_plain_counterexample :
    (format_text (bytes "%r") [va_arg_t.status true (bytes "Unknown") 5 (bytes "PRN")]).map
        (fun r => r.1) ≠ .ok (bytes "Unknown:5") ∧
      format_text (bytes "%r") [va_arg_t.status true (bytes "Unknown") 5 (bytes "PRN")] =
        .ok (bytes "Unknown:[\"PRN\",5]", 17) := by
  decide


/-! ## The memory dump -/

theorem fprintf_collect (d : List Nat) (format : List Nat) (args : List va_arg_t) :
    base_fprintf collect_sink d format args =
      (format_text format args).map fun r => (d ++ r.1, r.2) := by
  unfold base_fprintf format_text
  rw [base_vfprintf_calls, base_vfprintf_calls]
  cases format_calls format args with
  | error e => rfl
  | ok cs =>
    simp [Except.map, feed_collect cs [] 0 (by simp [kWord]),
      feed_collect cs d 0 (by simp [kWord])]

theorem fprintf_collect_literal (d lit : List Nat) (h : format_text lit [] = .ok (lit, lit.length)) :
    base_fprintf collect_sink d lit [] = .ok (d ++ lit, lit.length) := by
  rw [fprintf_collect, h]
  rfl

theorem fprintf_collect_bang_s (d mem : List Nat) (n : Nat) (hn : n ≤ mem.length)
    (hsz : n < kWord) :
    base_fprintf collect_sink d [37, 33, 115] [va_arg_t.u32 n, va_arg_t.ptr 0 mem] =
      .ok (d ++ mem.take n, n) := by
  rw [fprintf_collect]
  have hf : [37, 33, 115] = 37 :: ((if true then [33] else []) ++ [115]) := by decide
  have hm : n % kWord = n := Nat.mod_eq_of_lt hsz
  have ht : format_text [37, 33, 115] [va_arg_t.u32 n, va_arg_t.ptr 0 mem] =
      .ok (mem.take n, (mem.take n).length % kWord) := by
    apply format_text_count
    rw [hf, format_text_single true 115 _ (by decide)]
    simp [process_specifier, kPercent, kCharacter, kFourCC, kString, va_arg_u32, va_arg_ptr,
      Except.bind, Except.map, hm, hn, emit_collect]
  rw [ht]
  simp [Except.map, hn, hm]

theorem offset_text_length (o : Nat) (ho : o < kWord) : (offset_text o).length = 8 := by
  have hlen8 : (digit_text 16 kDigitsLow o).length ≤ 8 := by
    unfold digit_text
    by_cases h0 : o = 0
    · simp [h0]
    · rw [if_neg h0]
      simpa using digits_length_le 16 (by omega) 8 o (by simp only [kWord] at ho; norm_num; omega)
  simp only [offset_text, List.length_append, List.length_replicate]
  omega

theorem fprintf_collect_offset (d : List Nat) (line : Nat) (hl : line < kWord) :
    base_fprintf collect_sink d [37, 48, 56, 120, 58] [va_arg_t.u32 line] =
      .ok (d ++ offset_text line ++ [58], 9) := by
  rw [fprintf_collect]
  have hm : line % kWord = line := Nat.mod_eq_of_lt hl
  have hbuf := write_digits_buffer_eq line 8 48 16 kDigitsLow (by omega) hl (by omega)
  have hmax8 : max 8 1 = 8 := by omega
  rw [hmax8] at hbuf
  have ht : format_text [37, 48, 56, 120, 58] [va_arg_t.u32 line] =
      .ok (offset_text line ++ [58], (offset_text line ++ [58]).length % kWord) := by
    apply format_text_count
    unfold format_text base_vfprintf
    simp only [List.length_cons, List.length_nil]
    rw [vfprintf_loop_succ _ _ _ _ _ (by simp)]
    have h1 := consume_until_percent_literal collect_sink ([], 0) [] [37, 48, 56, 120, 58]
      (by simp) (by simp)
    simp only [List.nil_append, List.length_nil, gt_iff_lt, lt_self_iff_false, if_false,
      List.headD_cons] at h1
    have h2 := consume_format_specifier_shape collect_sink ([], 0) false [48, 56, 120, 58]
      (by decide)
    have h3 : width_loop [48, 56, 120, 58] 0 0 = some (8, 48, [120, 58]) := by decide
    simp only [Bool.false_eq_true, if_false, List.nil_append, h3] at h2
    simp only [h1, h2]
    simp only [ne_eq, gt_iff_lt, List.headD_cons, List.drop_succ_cons, List.drop_zero]
    have hp : process_specifier collect_sink
        { type := 120, width := 8, padding := 48, is_nonstd := false } ([], 0)
        [va_arg_t.u32 line] = .ok ((offset_text line, 8), []) := by
      have h8 := offset_text_length line hl
      simp only [offset_text] at h8
      simp [process_specifier, kPercent, kCharacter, kFourCC, kString, kSignedDec1,
        kSignedDec2, kUnsignedOct, kPointer, kUnsignedHexLow, digits_case, va_arg_u32,
        Except.bind, hm, write_digits, collect_sink, add_count, hbuf, offset_text]
      simp only [List.length_append, List.length_replicate] at h8
      rw [h8]
      rfl
    have hl5 := vfprintf_loop_literal 4 (offset_text line, 8) [58] [] (by simp [kWord])
      (by simp)
    simp only [Nat.reduceAdd] at hl5
    simp [hp, hl5, Except.map]
  rw [ht]
  simp [Except.map, offset_text_length line hl, kWord]


theorem getD_range_take (B : List Nat) (n : Nat) (hn : n ≤ B.length) :
    (List.range' 0 n).map (fun i => B.getD i 0) = B.take n := by
  apply List.ext_getElem
  · simp [hn]
  · intro i h1 h2
    have h3 : i < n := by simpa using h1
    have h4 : i < B.length := by omega
    simp [List.getD, List.getElem?_eq_getElem h4, List.getElem_take]

theorem hex_dump_collect_word (d buf : List Nat) (start n : Nat)
    (hn : start + n ≤ buf.length) :
    hex_dump collect_sink d (buf.drop start) n n 48 false kDigitsLow =
      (d ++ hex_text kDigitsLow ((buf.drop start).take n), (2 * n) % kWord) := by
  rw [hex_dump_collect d (buf.drop start) n n 48 false kDigitsLow (by omega)]
  have := getD_range_take (buf.drop start) n (by simp; omega)
  simp only [Bool.false_eq_true, if_false] at this ⊢
  rw [this]

theorem fhexdump_words_collect (fmt : base_hexdump_fmt_t) (buf : List Nat)
    (line bpl cpl : Nat) (hlw : buf.length < kWord) (hbpw : 1 ≤ fmt.bytes_per_word)
    (hline : line + bpl ≤ buf.length) :
    ∀ (k fuel word : Nat) (d : List Nat) (lbw : Nat),
      k < fuel → word + k * fmt.bytes_per_word = bpl → lbw < kWord →
      fhexdump_words collect_sink fmt buf buf.length line bpl cpl fuel word d lbw =
        .ok (d ++ words_text fmt.bytes_per_word k (buf.drop (line + word)),
          (lbw + (words_text fmt.bytes_per_word k (buf.drop (line + word))).length) %
            kWord) := by
  intro k
  induction k with
  | zero =>
    intro fuel word d lbw hf hw hl
    cases fuel with
    | zero => omega
    | succ fuel =>
      have : ¬ word < bpl := by omega
      simp [fhexdump_words, this, words_text, Nat.mod_eq_of_lt hl]
  | succ k ih =>
    intro fuel word d lbw hf hw hl
    cases fuel with
    | zero => omega
    | succ fuel =>
      rw [Nat.succ_mul] at hw
      have h1 : word < bpl := by omega
      have h2 : (line + word) % kWord = line + word := Nat.mod_eq_of_lt (by omega)
      have h3 : ¬ buf.length < line + word := by omega
      have h4 : ((buf.length + kWord - line) % kWord + kWord - word) % kWord =
          buf.length - line - word := by
        simp only [kWord] at hlw ⊢
        omega
      have h5 : (if buf.length - line - word > fmt.bytes_per_word then fmt.bytes_per_word
          else buf.length - line - word) = fmt.bytes_per_word := by
        split_ifs <;> omega
      have h6 : (word + fmt.bytes_per_word) % kWord = word + fmt.bytes_per_word :=
        Nat.mod_eq_of_lt (by omega)
      have hsp : base_fprintf collect_sink d [32] [] = .ok (d ++ [32], 1) :=
        fprintf_collect_literal d [32] (by decide)
      have hhex := hex_dump_collect_word (d ++ [32]) buf (line + word) fmt.bytes_per_word
        (by omega)
      unfold fhexdump_words
      simp only [if_pos h1, h2, if_neg h3, h4, h5, hsp, Except.bind, hhex, h6]
      rw [ih fuel (word + fmt.bytes_per_word) _ _ (by omega) (by omega)
        (Nat.mod_lt _ (by simp [kWord]))]
      have hd : List.drop fmt.bytes_per_word (List.drop (line + word) buf) =
          List.drop (line + (word + fmt.bytes_per_word)) buf := by
        rw [List.drop_drop]
        congr 1
        omega
      have hlen : (hex_text kDigitsLow
          (List.take fmt.bytes_per_word (List.drop (line + word) buf))).length =
          2 * fmt.bytes_per_word := by
        rw [hex_text_length, List.length_take, List.length_drop]
        omega
      simp only [words_text, hd, List.append_assoc, List.length_append, hlen,
        List.length_cons, List.length_nil, Except.ok.injEq, Prod.mk.injEq, true_and]
      simp only [kWord]
      omega


theorem fhexdump_glyphs_collect (fmt : base_hexdump_fmt_t) (buf : List Nat) (line : Nat)
    (hlw : buf.length < kWord) :
    ∀ (k byte : Nat) (gb d : List Nat) (bw : Nat),
      gb.length ≤ 16 → line + byte + k ≤ buf.length → bw < kWord →
      ∃ gb2 d2 bw2,
        fhexdump_glyphs collect_sink fmt buf buf.length line k byte gb d bw =
          .ok (gb2, d2, bw2) ∧
        d2 ++ gb2 = d ++ gb ++ ((buf.drop (line + byte)).take k).map
          (fun b => fmt.alphabet.getD (b % 256) 0) ∧
        gb2.length ≤ 16 ∧ bw2 < kWord ∧
        (bw2 + gb2.length) % kWord = (bw + gb.length + k) % kWord := by
  intro k
  induction k with
  | zero =>
    intro byte gb d bw hg _ hb
    exact ⟨gb, d, bw, by simp [fhexdump_glyphs], by simp, hg, hb, by simp⟩
  | succ k ih =>
    intro byte gb d bw hg hk hb
    have h1 : (line + byte) % kWord = line + byte := Nat.mod_eq_of_lt (by omega)
    have h2 : ¬ line + byte ≥ buf.length := by omega
    have h3 : line + byte < buf.length := by omega
    have hdrop : (buf.drop (line + byte)).take (k + 1) =
        buf.getD (line + byte) 0 :: (buf.drop (line + (byte + 1))).take k := by
      rw [List.drop_eq_getElem_cons h3, List.take_succ_cons]
      simp [List.getD, List.getElem?_eq_getElem h3, Nat.add_assoc]
    unfold fhexdump_glyphs
    by_cases hfull : gb.length = 16
    · have hfl := fprintf_collect_bang_s d gb gb.length (le_refl _)
        (by simp only [kWord]; omega)
      simp only [if_pos hfull, hfl, Except.bind, List.take_length, h1, if_neg h2,
        List.nil_append]
      obtain ⟨gb2, d2, bw2, he, ht, hg2, hb2, hc⟩ :=
        ih (byte + 1) [fmt.alphabet.getD (buf.getD (line + byte) 0 % 256) 0] (d ++ gb)
          ((bw + gb.length) % kWord) (by simp) (by omega) (Nat.mod_lt _ (by simp [kWord]))
      refine ⟨gb2, d2, bw2, ?_, ?_, hg2, hb2, ?_⟩
      · rw [← he, hfull]
      · rw [ht, hdrop]
        simp
      · rw [hc]
        simp only [List.length_cons, List.length_nil, kWord]
        omega
    · simp only [if_neg hfull, Except.bind, h1, if_neg h2]
      obtain ⟨gb2, d2, bw2, he, ht, hg2, hb2, hc⟩ :=
        ih (byte + 1) (gb ++ [fmt.alphabet.getD (buf.getD (line + byte) 0 % 256) 0]) d bw
          (by simp; omega) (by omega) hb
      refine ⟨gb2, d2, bw2, he, ?_, hg2, hb2, ?_⟩
      · rw [ht, hdrop]
        simp
      · rw [hc]
        simp only [List.length_append, List.length_cons, List.length_nil, kWord]
        omega

theorem words_text_take (bpw : Nat) :
    ∀ (k : Nat) (bs : List Nat),
      words_text bpw k (bs.take (k * bpw)) = words_text bpw k bs := by
  intro k
  induction k with
  | zero => intro bs; rfl
  | succ k ih =>
    intro bs
    have h1 : List.take bpw (List.take ((k + 1) * bpw) bs) = List.take bpw bs := by
      rw [List.take_take]
      congr 1
      rw [Nat.succ_mul]
      omega
    have h2 : List.drop bpw (List.take ((k + 1) * bpw) bs) =
        List.take (k * bpw) (List.drop bpw bs) := by
      rw [List.drop_take]
      congr 1
      rw [Nat.succ_mul]
      omega
    simp only [words_text, h1, h2, ih]


theorem fhexdump_lines_collect (fmt : base_hexdump_fmt_t) (buf : List Nat)
    (hlw : buf.length < kWord) (hbpw : 1 ≤ fmt.bytes_per_word)
    (hwpl : 1 ≤ fmt.words_per_line) :
    ∀ (m fuel line : Nat) (d : List Nat) (bw : Nat),
      m < fuel → line + m * (fmt.bytes_per_word * fmt.words_per_line) = buf.length →
      bw < kWord →
      fhexdump_lines collect_sink fmt buf buf.length
          (fmt.bytes_per_word * fmt.words_per_line) fuel line d bw =
        .ok (d ++ dump_text fmt m line (buf.drop line),
          (bw + (dump_text fmt m line (buf.drop line)).length) % kWord) := by
  have hbpl : 1 ≤ fmt.bytes_per_word * fmt.words_per_line := Nat.mul_pos hbpw hwpl
  have hwle : fmt.words_per_line ≤ fmt.bytes_per_word * fmt.words_per_line :=
    Nat.le_mul_of_pos_left _ hbpw
  generalize hB : fmt.bytes_per_word * fmt.words_per_line = bpl at hbpl hwle
  intro m
  induction m with
  | zero =>
    intro fuel line d bw hf hl hb
    cases fuel with
    | zero => omega
    | succ fuel =>
      have : ¬ line < buf.length := by omega
      simp [fhexdump_lines, this, dump_text, Nat.mod_eq_of_lt hb]
  | succ m ih =>
    intro fuel line d bw hf hl hb
    cases fuel with
    | zero => omega
    | succ fuel =>
      rw [Nat.succ_mul] at hl
      have h1 : line < buf.length := by omega
      have hoff := fprintf_collect_offset d line (by omega)
      have hwords := fhexdump_words_collect fmt buf line bpl
        ((bpl * 2 % kWord + fmt.words_per_line) % kWord) hlw hbpw (by omega)
        fmt.words_per_line (bpl + 1) 0 (d ++ offset_text line ++ [58]) 0 (by omega)
        (by rw [Nat.mul_comm, hB]; omega) (by simp [kWord])
      obtain ⟨gb2, d2, bw2, hg, hgt, hgl, hgb, hgc⟩ :=
        fhexdump_glyphs_collect fmt buf line hlw bpl 0 []
          (d ++ offset_text line ++ [58] ++
            words_text fmt.bytes_per_word fmt.words_per_line (buf.drop (line + 0)) ++ [32, 32])
          ((((bw + 9) % kWord +
            (0 + (words_text fmt.bytes_per_word fmt.words_per_line
              (buf.drop (line + 0))).length) % kWord) % kWord + 2) % kWord)
          (by simp) (by omega) (Nat.mod_lt _ (by simp [kWord]))
      have hsp2 := fprintf_collect_literal
        (d ++ offset_text line ++ [58] ++
          words_text fmt.bytes_per_word fmt.words_per_line (buf.drop (line + 0))) [32, 32]
        (by decide)
      simp only [List.length_cons, List.length_nil, Nat.zero_add, Nat.reduceAdd] at hsp2
      have hflush : (if gb2.length > 0 then
            (base_fprintf collect_sink d2 [37, 33, 115]
              [va_arg_t.u32 gb2.length, va_arg_t.ptr 0 gb2]).bind fun r =>
              .ok (r.1, (bw2 + r.2) % kWord)
          else (.ok (d2, bw2) : Except Fault (List Nat × Nat))) =
          .ok (d2 ++ gb2, (bw2 + gb2.length) % kWord) := by
        by_cases hz : gb2.length > 0
        · rw [if_pos hz, fprintf_collect_bang_s d2 gb2 gb2.length (le_refl _)
            (by simp only [kWord]; omega)]
          simp [Except.bind]
        · have hnil : gb2 = [] := List.length_eq_zero.mp (by omega)
          subst hnil
          simp [Nat.mod_eq_of_lt hgb]
      simp only [Except.bind] at hflush
      have hnl := fprintf_collect_literal (d2 ++ gb2) [10] (by decide)
      simp only [List.length_cons, List.length_nil, Nat.zero_add] at hnl
      have hmod : (line + bpl) % kWord = line + bpl := Nat.mod_eq_of_lt (by omega)
      unfold fhexdump_lines
      simp only [if_pos h1, hoff, Except.bind, hwords, hsp2, hg, hflush, hnl, hmod]
      rw [ih fuel (line + bpl) _ _ (by omega) (by omega) (Nat.mod_lt _ (by simp [kWord]))]
      have hdd : List.drop bpl (List.drop line buf) = List.drop (line + bpl) buf := by
        rw [List.drop_drop]
      have hwt : words_text fmt.bytes_per_word fmt.words_per_line
          (List.take bpl (List.drop line buf)) =
          words_text fmt.bytes_per_word fmt.words_per_line (List.drop line buf) := by
        have := words_text_take fmt.bytes_per_word fmt.words_per_line (List.drop line buf)
        rw [Nat.mul_comm, hB] at this
        exact this
      simp only [Nat.add_zero] at hgt hgc
      simp only [dump_text, line_text, hB, hdd, hwt, hgt, List.append_assoc,
        Except.ok.injEq, Prod.mk.injEq]
      refine ⟨by simp, ?_⟩
      have hO := offset_text_length line (by omega)
      have hG : (List.map (fun b => fmt.alphabet.getD (b % 256) 0)
          (List.take bpl (List.drop line buf))).length = bpl := by
        rw [List.length_map, List.length_take, List.length_drop]
        omega
      simp only [List.length_append, List.length_cons, List.length_nil, hO, hG,
        List.nil_append, Nat.zero_add] at hgc ⊢
      simp only [kWord] at hgc ⊢
      omega


/-- C17: for every dump configuration with `bytes_per_word ≥ 1` and
`words_per_line ≥ 1` and every input whose length is a positive multiple of
`bytes_per_word * words_per_line`, `base_fhexdump_with` emits, for each line at
input offset `o`, the 8-digit zero-padded lower-case hex numeral of `o`, a
colon, for each word a space and two lower-case hex digits per byte in memory
order, two spaces, one alphabet glyph per byte of the line and a newline, and
returns the number of characters emitted (as a `size_t`); the bytes 0x41, 0x42
with `bytes_per_word = 1`, `words_per_line = 2` and the default alphabet give
"00000000: 41 42  AB" and a newline. -/
theorem hexdump_full_lines (fmt : base_hexdump_fmt_t) (buf : List Nat) (m : Nat)
    (hbpw : 1 ≤ fmt.bytes_per_word) (hwpl : 1 ≤ fmt.words_per_line) (hm : 1 ≤ m)
    (hlen : buf.length = m * (fmt.bytes_per_word * fmt.words_per_line))
    (hsz : buf.length < 4294967296) :
    hexdump_text fmt buf =
        .ok (dump_text fmt m 0 buf, (dump_text fmt m 0 buf).length % 4294967296) ∧
      hexdump_text
          { bytes_per_word := 1, words_per_line := 2, alphabet := kBaseHexdumpDefaultFmtAlphabet }
          [65, 66] =
        .ok (bytes "00000000: 41 42  AB\n", 20) := by
  refine ⟨?_, by decide⟩
  have hbpl : 1 ≤ fmt.bytes_per_word * fmt.words_per_line := Nat.mul_pos hbpw hwpl
  have h1 : fmt.bytes_per_word * fmt.words_per_line ≤ buf.length := by
    rw [hlen]
    exact Nat.le_mul_of_pos_left _ hm
  have h2 : m ≤ buf.length := by
    rw [hlen]
    exact Nat.le_mul_of_pos_right _ hbpl
  have hlw : buf.length < kWord := by simpa [kWord] using hsz
  have hmod : (fmt.bytes_per_word * fmt.words_per_line) % kWord =
      fmt.bytes_per_word * fmt.words_per_line := Nat.mod_eq_of_lt (by omega)
  unfold hexdump_text base_fhexdump_with
  simp only [hmod]
  rw [fhexdump_lines_collect fmt buf hlw hbpw hwpl m (buf.length + 1) 0 [] 0 (by omega)
    (by omega) (by simp [kWord])]
  simp [kWord]

/-- Witness of C17: sixty-four bytes in the default configuration, two bytes
per word and eight words per line, four lines. -/
theorem hexdump_full_lines_witness :
    hexdump_text kBaseHexdumpDefaultFmt (List.range 64) =
      .ok (dump_text kBaseHexdumpDefaultFmt 4 0 (List.range 64),
        (dump_text kBaseHexdumpDefaultFmt 4 0 (List.range 64)).length % 4294967296) :=
  (hexdump_full_lines kBaseHexdumpDefaultFmt (List.range 64) 4 (by decide) (by decide)
    (by decide) (by decide) (by decide)).1

/-- C18, the code at the failing input: seven bytes with two bytes per word and
two words per line. The hex-word field of the first line is ten characters
long, that of the second line, on which the input ends inside the last word, is
eight characters long, so the glyphs of the second line start two columns
early. -/
theorem hexdump_short_last_line :
    hexdump_text
        { bytes_per_word := 2, words_per_line := 2, alphabet := kBaseHexdumpDefaultFmtAlphabet }
        [65, 66, 67, 68, 69, 70, 71] =
      .ok (bytes "00000000: 4142 4344  ABCD\n00000004: 4546 47  EFG\n", 49) := by
  decide


/-! ## The SPI console: frames -/

/-- C19: for every payload length `len` (of an object, so below `2^31`) with
`12 + roundup4 len ≥ capacity`, `spi_device_send_frame` returns 0 without any
driver call and leaves the write cursor and the frame number as they were. -/
theorem send_frame_rejects (host : spi_host_t) (cap fuel : Nat) (st : spi_console_t)
    (log : List spi_event) (buf : List Nat) (hlen : buf.length < 2147483648)
    (h : 12 + roundup4 buf.length ≥ cap) :
    spi_device_send_frame host cap fuel st log buf = .ok (log, st, 0) := by
  have h1 : (kSpiDeviceFrameHeaderSizeBytes + (buf.length + 3) % kWord / 4 * 4) % kWord =
      12 + roundup4 buf.length := by
    simp only [kSpiDeviceFrameHeaderSizeBytes, kWord, roundup4]
    omega
  unfold spi_device_send_frame
  simp only [h1, ge_iff_le]
  rw [if_pos h]

/-- Witness of C19: a payload of 20 bytes and a buffer of 32 bytes. -/
theorem send_frame_rejects_witness :
    spi_device_send_frame
        { write_flash_buffer := fun _ _ _ => true, get_last_read_address := fun _ => some 0,
          get_csb_status := fun _ => some false }
        32 5 { next_write_address := 8, spi_device_frame_num := 3, spi_console_gpio := false }
        [] (List.replicate 20 65) =
      .ok ([], { next_write_address := 8, spi_device_frame_num := 3,
                 spi_console_gpio := false }, 0) :=
  send_frame_rejects _ 32 5 _ [] (List.replicate 20 65) (by decide) (by decide)


theorem spi_writes_append (a b : List spi_event) :
    spi_writes (a ++ b) = spi_writes a ++ spi_writes b := by
  simp [spi_writes, List.filterMap_append]

theorem write_cells_append (a b : List (Nat × List Nat)) :
    write_cells (a ++ b) = write_cells a ++ write_cells b := by
  simp [write_cells]

theorem write_cells_single (address : Nat) (data : List Nat) :
    write_cells [(address, data)] =
      (List.range data.length).map fun j => (address + j, data.getD j 0) := by
  simp [write_cells]

theorem send_data_cells (host : spi_host_t) (cap : Nat) (log : List spi_event)
    (data : List Nat) (address : Nat)
    (hok : ∀ l a d, host.write_flash_buffer l a d = true)
    (ha : address < cap) (hd : data.length ≤ cap) (hc : cap < kWord) :
    (spi_device_send_data host cap log data address).2 = true ∧
      ∃ W, spi_writes (spi_device_send_data host cap log data address).1 =
          spi_writes log ++ W ∧
        write_cells W =
          (List.range data.length).map (fun j => ((address + j) % cap, data.getD j 0)) ∧
        ∀ w ∈ W, w.1 + w.2.length ≤ cap := by
  unfold spi_device_send_data
  by_cases h0 : data.length = 0
  · simp only [if_pos h0]
    exact ⟨trivial, [], by simp, by simp [write_cells, h0], by simp⟩
  · have hsp : (cap + kWord - address) % kWord = cap - address := by
      simp only [kWord] at hc ⊢
      omega
    simp only [if_neg h0, hsp, hok, Bool.not_true, Bool.false_eq_true, if_false]
    by_cases hlt : cap - address < data.length
    · simp only [if_pos hlt]
      refine ⟨trivial, [(address, data.take (cap - address)),
        (0, data.drop (cap - address))], ?_, ?_, ?_⟩
      · simp [spi_writes_append, spi_writes]
      · have hsplit : data.length = (cap - address) + (data.length - (cap - address)) := by
          omega
        have e1 : write_cells [(address, data.take (cap - address)),
            (0, data.drop (cap - address))] =
            write_cells [(address, data.take (cap - address))] ++
              write_cells [(0, data.drop (cap - address))] := by
          rw [← write_cells_append]
          rfl
        rw [e1, write_cells_single, write_cells_single]
        conv_rhs => rw [hsplit, List.range_add, List.map_append, List.map_map]
        have hl1 : (List.take (cap - address) data).length = cap - address := by
          rw [List.length_take]
          omega
        have hl2 : (List.drop (cap - address) data).length =
            data.length - (cap - address) := by
          rw [List.length_drop]
        rw [hl1, hl2]
        congr 1
        · apply List.map_congr_left
          intro j hj
          have hj2 : j < cap - address := List.mem_range.mp hj
          have hm : (address + j) % cap = address + j := Nat.mod_eq_of_lt (by omega)
          have hj3 : j < data.length := by omega
          simp [hm, List.getD, List.getElem?_take, hj2]
        · apply List.map_congr_left
          intro j hj
          have hj2 : j < data.length - (cap - address) := List.mem_range.mp hj
          have hm : (address + (cap - address + j)) % cap = 0 + j := by
            have : address + (cap - address + j) = j + cap := by omega
            rw [this, Nat.add_mod_right, Nat.mod_eq_of_lt (by omega)]
            omega
          simp [hm, List.getD]
      · intro w hw
        simp only [List.mem_cons, List.mem_singleton, List.not_mem_nil, or_false] at hw
        rcases hw with hw | hw
        · subst hw
          simp only [List.length_take]
          omega
        · subst hw
          simp only [List.length_drop]
          omega
    · simp only [if_neg hlt, lt_self_iff_false, if_false]
      refine ⟨trivial, [(address, data.take data.length)], ?_, ?_, ?_⟩
      · simp [spi_writes_append, spi_writes]
      · rw [write_cells_single]
        simp only [List.take_length]
        apply List.map_congr_left
        intro j hj
        have hj2 : j < data.length := List.mem_range.mp hj
        have hm : (address + j) % cap = address + j := Nat.mod_eq_of_lt (by omega)
        rw [hm]
      · intro w hw
        simp only [List.mem_singleton] at hw
        subst hw
        simp only [List.take_length]
        omega


theorem spi_poll_loop_writes (host : spi_host_t) (cap fs nw : Nat)
    (hpoll : ∀ l, host.get_last_read_address l ≠ none) :
    ∀ (fuel : Nat) (log : List spi_event) (r : List spi_event × Bool),
      spi_poll_loop host cap fs nw fuel log = .ok r →
        r.2 = true ∧ spi_writes r.1 = spi_writes log := by
  intro fuel
  induction fuel with
  | zero => intro log r h; simp [spi_poll_loop] at h
  | succ n ih =>
    intro log r h
    unfold spi_poll_loop at h
    cases hl : host.get_last_read_address log with
    | none => exact absurd hl (hpoll log)
    | some a =>
      rw [hl] at h
      simp only at h
      split_ifs at h
      all_goals first
        | (have hrec := ih _ _ h
           rw [spi_writes_append] at hrec
           simpa [spi_writes] using hrec)
        | (simp only [Except.ok.injEq] at h
           rw [← h]
           simp [spi_writes_append, spi_writes])

theorem spi_csb_wait_writes (host : spi_host_t) (target : Bool) :
    ∀ (fuel : Nat) (log : List spi_event) (r : List spi_event × Bool),
      spi_csb_wait host target fuel log = .ok r → spi_writes r.1 = spi_writes log := by
  intro fuel
  induction fuel with
  | zero => intro log r h; simp [spi_csb_wait] at h
  | succ n ih =>
    intro log r h
    unfold spi_csb_wait at h
    cases hl : host.get_csb_status log with
    | none =>
      rw [hl] at h
      simp only [Except.ok.injEq] at h
      rw [← h]
      simp [spi_writes_append, spi_writes]
    | some a =>
      rw [hl] at h
      simp only at h
      split_ifs at h
      all_goals first
        | (have hrec := ih _ _ h
           rw [spi_writes_append] at hrec
           simpa [spi_writes] using hrec)
        | (simp only [Except.ok.injEq] at h
           rw [← h]
           simp [spi_writes_append, spi_writes])

theorem spi_csb_loop_writes (host : spi_host_t) (fuel : Nat) :
    ∀ (is : List Nat) (target : Bool) (log : List spi_event) (r : List spi_event × Bool),
      spi_csb_loop host fuel is target log = .ok r → spi_writes r.1 = spi_writes log := by
  intro is
  induction is with
  | nil =>
    intro target log r h
    simp only [spi_csb_loop, Except.ok.injEq] at h
    rw [← h]
  | cons i is ih =>
    intro target log r h
    unfold spi_csb_loop at h
    cases hw : spi_csb_wait host target fuel log with
    | error e => rw [hw] at h; simp [Except.bind] at h
    | ok q =>
      rw [hw] at h
      simp only [Except.bind] at h
      have hq := spi_csb_wait_writes host target fuel log q hw
      split_ifs at h
      all_goals first
        | (simp only [Except.ok.injEq] at h
           rw [← h, hq])
        | (rw [ih _ _ _ h, hq])
        | (rw [ih _ _ _ h, spi_writes_append, hq]
           simp [spi_writes])


theorem getD_mid (X Y Z : List Nat) (j : Nat) (hj : j < Y.length) :
    (X ++ Y ++ Z).getD (X.length + j) 0 = Y.getD j 0 := by
  rw [List.getD_append _ _ _ _ (by simp; omega), List.getD_append_right _ _ _ _ (by omega)]
  congr 1
  omega

theorem frame_bytes_split (fn : Nat) (P : List Nat) :
    frame_bytes fn P =
      (le_bytes kSpiDeviceFrameMagicNumber ++ le_bytes fn ++ le_bytes P.length) ++
        P.take (P.length / 4 * 4) ++
        (if P.length ≠ P.length / 4 * 4 then
          P.drop (P.length / 4 * 4) ++ List.replicate (4 - (P.length - P.length / 4 * 4)) 255
        else []) := by
  unfold frame_bytes roundup4
  have key : ∀ R : List Nat, P.take (P.length / 4 * 4) ++ (P.drop (P.length / 4 * 4) ++ R) =
      P ++ R := by
    intro R
    rw [← List.append_assoc, List.take_append_drop]
  by_cases h : P.length ≠ P.length / 4 * 4
  · have e : (P.length + 3) / 4 * 4 - P.length = 4 - (P.length - P.length / 4 * 4) := by
      omega
    rw [if_pos h, e]
    simp only [List.append_assoc, key, kSpiDeviceFrameMagicNumber]
  · have e : (P.length + 3) / 4 * 4 - P.length = 0 := by omega
    have hd : P.take (P.length / 4 * 4) = P := by
      apply List.take_of_length_le
      omega
    rw [if_neg h, e, hd]
    simp [kSpiDeviceFrameMagicNumber]

theorem map_range'_eq (f : Nat → Nat × Nat) (s k : Nat) :
    (List.range' s k).map f = (List.range k).map fun j => f (s + j) := by
  rw [List.range'_eq_map_range, List.map_map]
  rfl


theorem cells_shift (cap a w s len : Nat) (D F : List Nat)
    (hval : ∀ j, j < len → D.getD j 0 = F.getD (s + j) 0)
    (haddr : ∀ j, (a + j) % cap = (w + (s + j)) % cap) :
    (List.range len).map (fun j => ((a + j) % cap, D.getD j 0)) =
      (List.range' s len).map (fun i => ((w + i) % cap, F.getD i 0)) := by
  rw [map_range'_eq]
  apply List.map_congr_left
  intro j hj
  rw [hval j (List.mem_range.mp hj), haddr j]

theorem send_frame_log (host : spi_host_t) (cap fuel : Nat) (st : spi_console_t)
    (log : List spi_event) (P : List Nat) (log2 : List spi_event) (st2 : spi_console_t)
    (ret : Nat)
    (hcap : cap ≤ 2147483648) (hw : st.next_write_address < cap)
    (hacc : 12 + roundup4 P.length < cap)
    (hok : ∀ l a d, host.write_flash_buffer l a d = true)
    (hpoll : ∀ l, host.get_last_read_address l ≠ none)
    (hrun : spi_device_send_frame host cap fuel st log P = .ok (log2, st2, ret)) :
    ∃ p, spi_writes p = spi_writes log ∧
      spi_writes log2 = spi_writes
        (spi_device_send_data host cap
          (spi_device_send_data host cap
            (spi_device_send_data host cap p (P.take (P.length / 4 * 4))
              ((st.next_write_address + 12) % cap)).1
            (if P.length ≠ P.length / 4 * 4 then
              P.drop (P.length / 4 * 4) ++
                List.replicate (4 - (P.length - P.length / 4 * 4)) 255
            else [])
            ((st.next_write_address + 12 + P.length / 4 * 4) % cap)).1
          (le_bytes kSpiDeviceFrameMagicNumber ++ le_bytes st.spi_device_frame_num ++
            le_bytes P.length)
          st.next_write_address).1 := by
  have hk : P.length / 4 * 4 ≤ P.length := Nat.div_mul_le_self _ _
  have hr : roundup4 P.length = (P.length + 3) / 4 * 4 := rfl
  have hcapK : cap < kWord := by
    simp only [kWord]
    omega
  have h1 : (kSpiDeviceFrameHeaderSizeBytes + (P.length + 3) % kWord / 4 * 4) % kWord =
      12 + roundup4 P.length := by
    simp only [kSpiDeviceFrameHeaderSizeBytes, kWord, roundup4]
    omega
  have hdwa : (st.next_write_address + kSpiDeviceFrameHeaderSizeBytes) % kWord % cap =
      (st.next_write_address + 12) % cap := by
    simp only [kSpiDeviceFrameHeaderSizeBytes, kWord]
    rw [Nat.mod_eq_of_lt (by omega : st.next_write_address + 12 < 4294967296)]
  have hpwa : ((st.next_write_address + 12) % cap + P.length / 4 * 4) % kWord % cap =
      (st.next_write_address + 12 + P.length / 4 * 4) % cap := by
    have hlt : (st.next_write_address + 12) % cap < cap := Nat.mod_lt _ (by omega)
    have hlt2 : (st.next_write_address + 12) % cap + P.length / 4 * 4 < kWord := by
      simp only [kWord]
      omega
    rw [Nat.mod_eq_of_lt hlt2, Nat.mod_add_mod]
  have hs2 : ∀ X : List spi_event,
      (if P.length ≠ P.length / 4 * 4 then
        spi_device_send_data host cap X
          (P.drop (P.length / 4 * 4) ++
            List.replicate (4 - (P.length - P.length / 4 * 4)) 255)
          ((st.next_write_address + 12 + P.length / 4 * 4) % cap)
      else (X, true)) =
      spi_device_send_data host cap X
        (if P.length ≠ P.length / 4 * 4 then
          P.drop (P.length / 4 * 4) ++
            List.replicate (4 - (P.length - P.length / 4 * 4)) 255
        else [])
        ((st.next_write_address + 12 + P.length / 4 * 4) % cap) := by
    intro X
    by_cases hne : P.length ≠ P.length / 4 * 4
    · rw [if_pos hne, if_pos hne]
    · rw [if_neg hne, if_neg hne]
      simp [spi_device_send_data]
  unfold spi_device_send_frame at hrun
  simp only [h1, hdwa, hpwa, hs2, ge_iff_le] at hrun
  rw [if_neg (by omega)] at hrun
  cases hq : (if (!st.spi_console_gpio) = true then
      spi_poll_loop host cap (12 + roundup4 P.length) st.next_write_address fuel log
    else Except.ok (log, true)) with
  | error e =>
    rw [hq] at hrun
    simp [Except.bind] at hrun
  | ok p =>
    have hp : p.2 = true ∧ spi_writes p.1 = spi_writes log := by
      by_cases hg : st.spi_console_gpio = true
      · simp only [hg, Bool.not_true, Bool.false_eq_true, if_false, Except.ok.injEq] at hq
        rw [← hq]
        exact ⟨rfl, rfl⟩
      · simp only [hg, Bool.not_false, if_true] at hq
        exact spi_poll_loop_writes host cap _ _ hpoll fuel log p hq
    have S1 := send_data_cells host cap p.1 (P.take (P.length / 4 * 4))
      ((st.next_write_address + 12) % cap) hok (Nat.mod_lt _ (by omega))
      (by simp only [List.length_take]; omega) hcapK
    have S2 := send_data_cells host cap
      (spi_device_send_data host cap p.1 (P.take (P.length / 4 * 4))
        ((st.next_write_address + 12) % cap)).1
      (if P.length ≠ P.length / 4 * 4 then
        P.drop (P.length / 4 * 4) ++
          List.replicate (4 - (P.length - P.length / 4 * 4)) 255
      else [])
      ((st.next_write_address + 12 + P.length / 4 * 4) % cap) hok (Nat.mod_lt _ (by omega))
      (by split_ifs <;> simp; omega) hcapK
    have S3 := send_data_cells host cap
      (spi_device_send_data host cap
        (spi_device_send_data host cap p.1 (P.take (P.length / 4 * 4))
          ((st.next_write_address + 12) % cap)).1
        (if P.length ≠ P.length / 4 * 4 then
          P.drop (P.length / 4 * 4) ++
            List.replicate (4 - (P.length - P.length / 4 * 4)) 255
        else [])
        ((st.next_write_address + 12 + P.length / 4 * 4) % cap)).1
      (le_bytes kSpiDeviceFrameMagicNumber ++ le_bytes st.spi_device_frame_num ++
        le_bytes P.length)
      st.next_write_address hok hw (by simp [le_bytes]; omega) hcapK
    rw [hq] at hrun
    simp only [Except.bind, hp.1, S1.1, S2.1, S3.1, Bool.not_true, Bool.false_eq_true,
      if_false] at hrun
    refine ⟨p.1, hp.2, ?_⟩
    by_cases hg : st.spi_console_gpio = true
    · rw [if_pos hg] at hrun
      split at hrun
      · simp at hrun
      · rename_i v hv
        have hvw := spi_csb_loop_writes host fuel _ _ _ _ hv
        have e : spi_writes [spi_event.gpio_write true] = [] := rfl
        rw [spi_writes_append, e, List.append_nil] at hvw
        split_ifs at hrun
        all_goals
          simp only [Except.ok.injEq, Prod.mk.injEq] at hrun
          rw [← hrun.1, hvw]
    · rw [if_neg hg] at hrun
      simp only [Except.ok.injEq, Prod.mk.injEq] at hrun
      rw [← hrun.1]

theorem frame_write_cells (host : spi_host_t) (cap : Nat) (st : spi_console_t)
    (log : List spi_event) (P : List Nat) (log2 p : List spi_event)
    (hcap : cap ≤ 2147483648) (hw : st.next_write_address < cap)
    (hacc : 12 + roundup4 P.length < cap)
    (hok : ∀ l a d, host.write_flash_buffer l a d = true)
    (hp : spi_writes p = spi_writes log)
    (hlog : spi_writes log2 = spi_writes
      (spi_device_send_data host cap
        (spi_device_send_data host cap
          (spi_device_send_data host cap p (P.take (P.length / 4 * 4))
            ((st.next_write_address + 12) % cap)).1
          (if P.length ≠ P.length / 4 * 4 then
            P.drop (P.length / 4 * 4) ++
              List.replicate (4 - (P.length - P.length / 4 * 4)) 255
          else [])
          ((st.next_write_address + 12 + P.length / 4 * 4) % cap)).1
        (le_bytes kSpiDeviceFrameMagicNumber ++ le_bytes st.spi_device_frame_num ++
          le_bytes P.length)
        st.next_write_address).1) :
    ∃ W, spi_writes log2 = spi_writes log ++ W ∧
      write_cells W =
        (List.range' 12 (roundup4 P.length) ++ List.range' 0 12).map
          (fun i => ((st.next_write_address + i) % cap,
            (frame_bytes st.spi_device_frame_num P).getD i 0)) ∧
      (write_cells W).length = 12 + roundup4 P.length ∧
      (frame_bytes st.spi_device_frame_num P).length = 12 + roundup4 P.length ∧
      ((write_cells W).map Prod.fst).Nodup ∧
      ∀ w ∈ W, w.1 + w.2.length ≤ cap := by
  have hk : P.length / 4 * 4 ≤ P.length := Nat.div_mul_le_self _ _
  have hr : roundup4 P.length = (P.length + 3) / 4 * 4 := rfl
  have hcapK : cap < kWord := by
    simp only [kWord]
    omega
  have hfb := frame_bytes_split st.spi_device_frame_num P
  generalize hD2 : (if P.length ≠ P.length / 4 * 4 then
      P.drop (P.length / 4 * 4) ++ List.replicate (4 - (P.length - P.length / 4 * 4)) 255
    else []) = D2 at hlog hfb
  generalize hH : le_bytes kSpiDeviceFrameMagicNumber ++ le_bytes st.spi_device_frame_num ++
      le_bytes P.length = H at hlog hfb
  have hl1 : (P.take (P.length / 4 * 4)).length = P.length / 4 * 4 := by
    rw [List.length_take]
    omega
  have hl2 : D2.length = roundup4 P.length - P.length / 4 * 4 := by
    rw [← hD2]
    split_ifs with hne
    · simp only [List.length_append, List.length_drop, List.length_replicate]
      omega
    · simp only [List.length_nil]
      omega
  have hl3 : H.length = 12 := by
    rw [← hH]
    rfl
  obtain ⟨-, W1, hW1, hc1, hb1⟩ := send_data_cells host cap p (P.take (P.length / 4 * 4))
    ((st.next_write_address + 12) % cap) hok (Nat.mod_lt _ (by omega)) (by omega) hcapK
  obtain ⟨-, W2, hW2, hc2, hb2⟩ := send_data_cells host cap
    (spi_device_send_data host cap p (P.take (P.length / 4 * 4))
      ((st.next_write_address + 12) % cap)).1 D2
    ((st.next_write_address + 12 + P.length / 4 * 4) % cap) hok (Nat.mod_lt _ (by omega))
    (by omega) hcapK
  obtain ⟨-, W3, hW3, hc3, hb3⟩ := send_data_cells host cap
    (spi_device_send_data host cap
      (spi_device_send_data host cap p (P.take (P.length / 4 * 4))
        ((st.next_write_address + 12) % cap)).1 D2
      ((st.next_write_address + 12 + P.length / 4 * 4) % cap)).1 H
    st.next_write_address hok hw (by omega) hcapK
  have hcells : write_cells (W1 ++ W2 ++ W3) =
      (List.range' 12 (roundup4 P.length) ++ List.range' 0 12).map
        (fun i => ((st.next_write_address + i) % cap,
          (frame_bytes st.spi_device_frame_num P).getD i 0)) := by
    rw [write_cells_append, write_cells_append, hc1, hc2, hc3, hl1, hl2, hl3]
    rw [cells_shift cap _ st.next_write_address 12 _ _
        (frame_bytes st.spi_device_frame_num P),
      cells_shift cap _ st.next_write_address (12 + P.length / 4 * 4) _ _
        (frame_bytes st.spi_device_frame_num P),
      cells_shift cap _ st.next_write_address 0 _ _
        (frame_bytes st.spi_device_frame_num P)]
    · have hsplit : List.range' 12 (roundup4 P.length) =
          List.range' 12 (P.length / 4 * 4) ++
            List.range' (12 + P.length / 4 * 4) (roundup4 P.length - P.length / 4 * 4) := by
        rw [List.range'_append_1]
        congr 1
        omega
      rw [hsplit, List.map_append, List.map_append]
    · intro j hj
      rw [hfb, List.append_assoc, List.getD_append _ _ _ _ (by omega)]
      simp
    · intro j
      simp
    · intro j _
      rw [hfb, List.getD_append_right _ _ _ _ (by
        rw [List.length_append, hl1, hl3]
        omega)]
      congr 1
      rw [List.length_append, hl1, hl3]
      omega
    · intro j
      rw [Nat.mod_add_mod]
      congr 1
      omega
    · intro j hj
      have := getD_mid H (P.take (P.length / 4 * 4)) D2 j (by omega)
      rw [hl3] at this
      rw [hfb, this]
    · intro j
      rw [Nat.mod_add_mod]
      congr 1
      omega
  refine ⟨W1 ++ W2 ++ W3, ?_, hcells, ?_, ?_, ?_, ?_⟩
  · rw [hlog, hW3, hW2, hW1, hp]
    simp only [List.append_assoc]
  · rw [hcells]
    simp only [List.length_map, List.length_append, List.length_range']
    omega
  · rw [hfb]
    simp only [List.length_append, hl1, hl2, hl3]
    omega
  · rw [hcells, List.map_map]
    apply List.Nodup.map_on
    · intro x hx y hy hxy
      have hx2 : x < cap := by
        simp only [List.mem_append, List.mem_range'_1] at hx
        omega
      have hy2 : y < cap := by
        simp only [List.mem_append, List.mem_range'_1] at hy
        omega
      have hmod : st.next_write_address + x ≡ st.next_write_address + y [MOD cap] := hxy
      exact Nat.ModEq.eq_of_lt_of_lt (Nat.ModEq.add_left_cancel' _ hmod) hx2 hy2
    · rw [List.nodup_append]
      refine ⟨List.nodup_range' _ _, List.nodup_range' _ _, ?_⟩
      intro a ha hb
      simp only [List.mem_range'_1] at ha hb
      omega
  · intro w hw2
    simp only [List.mem_append] at hw2
    rcases hw2 with (h | h) | h
    · exact hb1 w h
    · exact hb2 w h
    · exact hb3 w h

/-! ## The SPI console: the static variables after a frame -/

theorem send_frame_cases (host : spi_host_t) (cap fuel : Nat) (st : spi_console_t)
    (log : List spi_event) (P : List Nat) (log2 : List spi_event) (st2 : spi_console_t)
    (ret : Nat)
    (hrun : spi_device_send_frame host cap fuel st log P = .ok (log2, st2, ret)) :
    (st2 = st ∧ ret = 0) ∨
      (st2 = { next_write_address := (st.next_write_address + (kSpiDeviceFrameHeaderSizeBytes + (P.length + 3) % kWord / 4 * 4) % kWord) % kWord % cap, spi_device_frame_num := (st.spi_device_frame_num + 1) % kWord, spi_console_gpio := st.spi_console_gpio } ∧
        ((st.spi_console_gpio = false ∧ ret = P.length) ∨
          (st.spi_console_gpio = true ∧ ret = 0))) ∨
      (st.spi_console_gpio = true ∧
        st2 = { next_write_address := 0, spi_device_frame_num := (st.spi_device_frame_num + 1) % kWord, spi_console_gpio := st.spi_console_gpio } ∧
        ret = P.length) := by
  unfold spi_device_send_frame at hrun
  simp only [ge_iff_le] at hrun
  generalize (kSpiDeviceFrameHeaderSizeBytes + (P.length + 3) % kWord / 4 * 4) % kWord = F
    at hrun ⊢
  by_cases h0 : cap ≤ F
  · rw [if_pos h0] at hrun
    simp only [Except.ok.injEq, Prod.mk.injEq] at hrun
    exact Or.inl ⟨hrun.2.1.symm, hrun.2.2.symm⟩
  · rw [if_neg h0] at hrun
    cases hq : (if (!st.spi_console_gpio) = true then
        spi_poll_loop host cap F st.next_write_address fuel log
      else Except.ok (log, true)) with
    | error e =>
      rw [hq] at hrun
      simp [Except.bind] at hrun
    | ok p =>
      rw [hq] at hrun
      simp only [Except.bind] at hrun
      generalize spi_device_send_data host cap p.1 (List.take (P.length / 4 * 4) P)
        ((st.next_write_address + kSpiDeviceFrameHeaderSizeBytes) % kWord % cap) = s1 at hrun
      generalize (if P.length ≠ P.length / 4 * 4 then
          spi_device_send_data host cap s1.1
            (List.drop (P.length / 4 * 4) P ++
              List.replicate (4 - (P.length - P.length / 4 * 4)) 255)
            (((st.next_write_address + kSpiDeviceFrameHeaderSizeBytes) % kWord % cap +
              P.length / 4 * 4) % kWord % cap)
        else (s1.1, true)) = s2 at hrun
      generalize spi_device_send_data host cap s2.1
        (le_bytes kSpiDeviceFrameMagicNumber ++ le_bytes st.spi_device_frame_num ++
          le_bytes P.length) st.next_write_address = s3 at hrun
      by_cases h1 : (!p.2) = true
      · rw [if_pos h1] at hrun
        simp only [Except.ok.injEq, Prod.mk.injEq] at hrun
        exact Or.inl ⟨hrun.2.1.symm, hrun.2.2.symm⟩
      rw [if_neg h1] at hrun
      by_cases h2 : (!s1.2) = true
      · rw [if_pos h2] at hrun
        simp only [Except.ok.injEq, Prod.mk.injEq] at hrun
        exact Or.inl ⟨hrun.2.1.symm, hrun.2.2.symm⟩
      rw [if_neg h2] at hrun
      by_cases h3 : (!s2.2) = true
      · rw [if_pos h3] at hrun
        simp only [Except.ok.injEq, Prod.mk.injEq] at hrun
        exact Or.inl ⟨hrun.2.1.symm, hrun.2.2.symm⟩
      rw [if_neg h3] at hrun
      by_cases h4 : (!s3.2) = true
      · rw [if_pos h4] at hrun
        simp only [Except.ok.injEq, Prod.mk.injEq] at hrun
        exact Or.inl ⟨hrun.2.1.symm, hrun.2.2.symm⟩
      rw [if_neg h4] at hrun
      by_cases hg : st.spi_console_gpio = true
      · rw [if_pos hg] at hrun
        generalize spi_csb_loop host fuel [0, 1, 2, 3] false
          (s3.1 ++ [spi_event.gpio_write true]) = hs at hrun
        cases hs with
        | error e => simp at hrun
        | ok v =>
          simp only at hrun
          by_cases h5 : (!v.2) = true
          · rw [if_pos h5] at hrun
            simp only [Except.ok.injEq, Prod.mk.injEq] at hrun
            exact Or.inr (Or.inl ⟨hrun.2.1.symm, Or.inr ⟨hg, hrun.2.2.symm⟩⟩)
          · rw [if_neg h5] at hrun
            simp only [Except.ok.injEq, Prod.mk.injEq] at hrun
            exact Or.inr (Or.inr ⟨hg, hrun.2.1.symm, hrun.2.2.symm⟩)
      · rw [if_neg hg] at hrun
        simp only [Except.ok.injEq, Prod.mk.injEq] at hrun
        exact Or.inr (Or.inl ⟨hrun.2.1.symm, Or.inl ⟨by simpa using hg, hrun.2.2.symm⟩⟩)

theorem frame_size_eq (n : Nat) (hn : n < 2147483648) :
    (kSpiDeviceFrameHeaderSizeBytes + (n + 3) % kWord / 4 * 4) % kWord = 12 + roundup4 n := by
  simp only [kSpiDeviceFrameHeaderSizeBytes, kWord, roundup4]
  omega

theorem send_frame_rejected (host : spi_host_t) (cap fuel : Nat) (st : spi_console_t)
    (log : List spi_event) (P : List Nat)
    (h : cap ≤ (kSpiDeviceFrameHeaderSizeBytes + (P.length + 3) % kWord / 4 * 4) % kWord) :
    spi_device_send_frame host cap fuel st log P = .ok (log, st, 0) := by
  unfold spi_device_send_frame
  simp only [ge_iff_le]
  rw [if_pos h]

theorem send_frame_cursor (host : spi_host_t) (cap fuel : Nat) (hc4 : cap % 4 = 0)
    (hc0 : 0 < cap) (st : spi_console_t) (log : List spi_event) (P : List Nat)
    (log2 : List spi_event) (st2 : spi_console_t) (ret : Nat)
    (h4 : st.next_write_address % 4 = 0) (hlt : st.next_write_address < cap)
    (hrun : spi_device_send_frame host cap fuel st log P = .ok (log2, st2, ret)) :
    st2.next_write_address % 4 = 0 ∧ st2.next_write_address < cap := by
  rcases send_frame_cases host cap fuel st log P log2 st2 ret hrun with
    ⟨h, -⟩ | ⟨h, -⟩ | ⟨-, h, -⟩
  · rw [h]
    exact ⟨h4, hlt⟩
  · rw [h]
    simp only
    refine ⟨?_, Nat.mod_lt _ hc0⟩
    rw [Nat.mod_mod_of_dvd _ (Nat.dvd_of_mod_eq_zero hc4)]
    simp only [kSpiDeviceFrameHeaderSizeBytes, kWord]
    omega
  · rw [h]
    exact ⟨rfl, hc0⟩

theorem send_loop_sending (host : spi_host_t) (cap fuel : Nat) (buf : List Nat)
    (st0 : spi_console_t) (log0 : List spi_event) :
    ∀ (rounds : Nat) (st : spi_console_t) (log : List spi_event) (w : Nat)
      (tr : List (List Nat × Nat)) (r : List spi_event × spi_console_t × Nat),
      Sending host cap fuel buf st0 log0 st log w tr →
      spi_device_send_loop host cap fuel buf rounds st log w = .ok r →
      ∃ tr2, Sending host cap fuel buf st0 log0 r.2.1 r.1 r.2.2 tr2 ∧ ¬ r.2.2 < buf.length := by
  intro rounds
  induction rounds with
  | zero =>
    intro st log w tr r _ h
    simp [spi_device_send_loop] at h
  | succ n ih =>
    intro st log w tr r hs h
    unfold spi_device_send_loop at h
    by_cases hw : w < buf.length
    · rw [if_pos hw] at h
      simp only at h
      have hpl : (if buf.length - w > kSpiDeviceMaxFramePayloadSizeBytes cap then
          kSpiDeviceMaxFramePayloadSizeBytes cap else buf.length - w) =
          spi_payload_len cap buf w := rfl
      rw [hpl] at h
      cases hf : spi_device_send_frame host cap fuel st log
          ((buf.drop w).take (spi_payload_len cap buf w)) with
      | error e =>
        rw [hf] at h
        simp [Except.bind] at h
      | ok q =>
        rw [hf] at h
        simp only [Except.bind] at h
        have hnext := Sending.round st log w tr q.1 q.2.1 q.2.2 hs hw hf
        by_cases hacc : q.2.2 = spi_payload_len cap buf w
        · rw [if_pos hacc] at h hnext
          exact ih _ _ _ _ r hnext h
        · rw [if_neg hacc] at h hnext
          exact ih _ _ _ _ r hnext h
    · rw [if_neg hw] at h
      simp only [Except.ok.injEq] at h
      rw [← h]
      exact ⟨tr, hs, hw⟩

theorem sending_cursor (host : spi_host_t) (cap fuel : Nat) (hc4 : cap % 4 = 0)
    (hc0 : 0 < cap) (buf : List Nat) (st0 : spi_console_t) (log0 : List spi_event)
    (h4 : st0.next_write_address % 4 = 0) (hlt : st0.next_write_address < cap)
    (st : spi_console_t) (log : List spi_event) (w : Nat) (tr : List (List Nat × Nat))
    (h : Sending host cap fuel buf st0 log0 st log w tr) :
    st.next_write_address % 4 = 0 ∧ st.next_write_address < cap := by
  induction h with
  | entry => exact ⟨h4, hlt⟩
  | round st log w tr log2 st2 ret _ _ hf ih =>
    exact send_frame_cursor host cap fuel hc4 hc0 st log _ log2 st2 ret ih.1 ih.2 hf

/-- C27: for every buffer capacity that is a multiple of 4 (positive, at most
`2^31`), the write cursor `next_write_address` is a multiple of 4 and below the
capacity at all times: it starts at 0, installing the sink or the GPIO pin does
not touch it, every call of `spi_device_send_frame` that returns, whatever its
result, takes a cursor of that kind to a cursor of that kind, and so does every
configuration of the loop of `base_dev_spi_device` and every call of it that
returns; a call of `spi_device_send_frame` that reports success for a payload
of `n ≥ 1` bytes leaves the cursor at `(old + 12 + roundup4 n) mod capacity` in
polling mode and at 0 in the GPIO-handshake mode. -/
theorem write_cursor_invariant (host : spi_host_t) (cap fuel : Nat) (hc4 : cap % 4 = 0)
    (hc0 : 0 < cap) (hc : cap ≤ 2147483648) :
    spi_console_init.next_write_address = 0 ∧
      (∀ st : spi_console_t,
        (base_spi_device_stdout st).next_write_address = st.next_write_address) ∧
      (∀ (st : spi_console_t) (gpio : Bool),
        (base_spi_device_set_gpio_tx_indicator st gpio).next_write_address =
          st.next_write_address) ∧
      (∀ (st : spi_console_t) (log : List spi_event) (P : List Nat) (log2 : List spi_event)
        (st2 : spi_console_t) (ret : Nat),
        st.next_write_address % 4 = 0 → st.next_write_address < cap →
        spi_device_send_frame host cap fuel st log P = .ok (log2, st2, ret) →
        st2.next_write_address % 4 = 0 ∧ st2.next_write_address < cap ∧
          (0 < P.length → P.length < 2147483648 → ret = P.length →
            (st.spi_console_gpio = false →
              st2.next_write_address =
                (st.next_write_address + 12 + roundup4 P.length) % cap) ∧
            (st.spi_console_gpio = true → st2.next_write_address = 0))) ∧
      (∀ (buf : List Nat) (st0 : spi_console_t) (log0 : List spi_event) (st : spi_console_t)
        (log : List spi_event) (w : Nat) (tr : List (List Nat × Nat)),
        st0.next_write_address % 4 = 0 → st0.next_write_address < cap →
        Sending host cap fuel buf st0 log0 st log w tr →
        st.next_write_address % 4 = 0 ∧ st.next_write_address < cap) ∧
      (∀ (rounds : Nat) (st : spi_console_t) (log : List spi_event) (buf : List Nat)
        (r : List spi_event × spi_console_t × Nat),
        st.next_write_address % 4 = 0 → st.next_write_address < cap →
        base_dev_spi_device host cap fuel rounds st log buf = .ok r →
        r.2.1.next_write_address % 4 = 0 ∧ r.2.1.next_write_address < cap) := by
  refine ⟨rfl, fun _ => rfl, fun _ _ => rfl, ?_, ?_, ?_⟩
  · intro st log P log2 st2 ret h4 hlt hrun
    have hinv := send_frame_cursor host cap fuel hc4 hc0 st log P log2 st2 ret h4 hlt hrun
    refine ⟨hinv.1, hinv.2, ?_⟩
    intro hpos hn hret
    have hF := frame_size_eq P.length hn
    have hacc : 12 + roundup4 P.length < cap := by
      by_contra hge
      have hrej := send_frame_rejected host cap fuel st log P (by rw [hF]; omega)
      rw [hrej] at hrun
      simp only [Except.ok.injEq, Prod.mk.injEq] at hrun
      omega
    rcases send_frame_cases host cap fuel st log P log2 st2 ret hrun with
      ⟨-, h0⟩ | ⟨h, ⟨hg, -⟩ | ⟨hg, h0⟩⟩ | ⟨hg, h, -⟩
    · omega
    · refine ⟨fun _ => ?_, fun hg2 => ?_⟩
      · rw [h, hF]
        simp only
        have e : (st.next_write_address + (12 + roundup4 P.length)) % kWord =
            st.next_write_address + (12 + roundup4 P.length) :=
          Nat.mod_eq_of_lt (by simp only [kWord]; omega)
        rw [e, Nat.add_assoc]
      · rw [hg] at hg2
        exact absurd hg2 (by decide)
    · omega
    · refine ⟨fun hg2 => ?_, fun _ => ?_⟩
      · rw [hg] at hg2
        exact absurd hg2 (by decide)
      · rw [h]
  · intro buf st0 log0 st log w tr h4 hlt hs
    exact sending_cursor host cap fuel hc4 hc0 buf st0 log0 h4 hlt st log w tr hs
  · intro rounds st log buf r h4 hlt hrun
    obtain ⟨tr2, hs, -⟩ := send_loop_sending host cap fuel buf st log rounds st log 0 [] r
      Sending.entry hrun
    exact sending_cursor host cap fuel hc4 hc0 buf st log h4 hlt _ _ _ _ hs

/-- Witness of C27: a buffer of 64 bytes; in polling mode the payload "ABCDE"
sent at the cursor 56 leaves the cursor at `(56 + 12 + 8) mod 64 = 12`. -/
theorem write_cursor_invariant_witness :
    (12 : Nat) % 4 = 0 ∧ (12 : Nat) < 64 ∧ 12 = (56 + 12 + roundup4 5) % 64 :=
  have h := (write_cursor_invariant
    { write_flash_buffer := fun _ _ _ => true, get_last_read_address := fun _ => some 52,
      get_csb_status := fun _ => some false }
    64 1 (by decide) (by decide) (by decide)).2.2.2.1
    { next_write_address := 56, spi_device_frame_num := 3, spi_console_gpio := false }
    [] [65, 66, 67, 68, 69]
    [spi_event.get_last_read_address, spi_event.write_flash_buffer 4 [65, 66, 67, 68],
      spi_event.write_flash_buffer 8 [69, 255, 255, 255],
      spi_event.write_flash_buffer 56 [239, 190, 165, 165, 3, 0, 0, 0],
      spi_event.write_flash_buffer 0 [5, 0, 0, 0]]
    { next_write_address := 12, spi_device_frame_num := 4, spi_console_gpio := false } 5
    (by decide) (by decide) (by decide)
  ⟨h.1, h.2.1, (h.2.2 (by decide) (by decide) rfl).1 rfl⟩

/-! ## The SPI console: flow control in polling mode -/

theorem adjusted_last_read_address_eq (cap r : Nat) (h12 : 12 ≤ cap)
    (hr : cap + r < 4294967296) :
    adjusted_last_read_address cap r = (cap + r - 12) % cap := by
  unfold adjusted_last_read_address
  have e : (cap + r % kWord + kWord - kSpiDeviceFrameHeaderSizeBytes) % kWord =
      cap + r - 12 := by
    simp only [kSpiDeviceFrameHeaderSizeBytes, kWord]
    omega
  rw [e]

theorem adjusted_last_read_address_lt (cap r : Nat) (hc0 : 0 < cap) :
    adjusted_last_read_address cap r < cap := by
  unfold adjusted_last_read_address
  exact Nat.mod_lt _ hc0

theorem next_read_address_eq (cap r : Nat) (hc0 : 0 < cap) (hc : cap < 4294967296) :
    next_read_address cap r = (adjusted_last_read_address cap r + 1) / 4 * 4 % cap := by
  unfold next_read_address
  have hlt := adjusted_last_read_address_lt cap r hc0
  generalize adjusted_last_read_address cap r = a at hlt ⊢
  have e : (a + 1) % kWord = a + 1 := by
    simp only [kWord]
    omega
  rw [e]

theorem next_read_address_lt (cap r : Nat) (hc0 : 0 < cap) :
    next_read_address cap r < cap := by
  unfold next_read_address
  exact Nat.mod_lt _ hc0

/-- C25, as amended: in polling mode, for every reported last-read address `r`
(with `capacity + r` below `2^32` and a capacity of at least 12), the read
pointer used for flow control is `a + 1` rounded down to a multiple of 4 and
reduced modulo the capacity, where `a = (capacity + r - 12) mod capacity`; this
is the least multiple of 4 that is at least `a`, reduced modulo the capacity,
when `a mod 4` is 0 or 3, and it is `a` rounded down to a multiple of 4, which
differs from that, when `a mod 4` is 1 or 2. -/
theorem read_pointer_rounds_down (cap r : Nat) (h12 : 12 ≤ cap)
    (hr : cap + r < 4294967296) :
    adjusted_last_read_address cap r = (cap + r - 12) % cap ∧
      next_read_address cap r = (adjusted_last_read_address cap r + 1) / 4 * 4 % cap ∧
      (adjusted_last_read_address cap r % 4 = 0 ∨ adjusted_last_read_address cap r % 4 = 3 →
        next_read_address cap r = roundup4 (adjusted_last_read_address cap r) % cap) ∧
      (adjusted_last_read_address cap r % 4 = 1 ∨ adjusted_last_read_address cap r % 4 = 2 →
        next_read_address cap r = adjusted_last_read_address cap r / 4 * 4 % cap ∧
          next_read_address cap r ≠ roundup4 (adjusted_last_read_address cap r) % cap) := by
  have hn := next_read_address_eq cap r (by omega) (by omega)
  have hlt := adjusted_last_read_address_lt cap r (by omega)
  refine ⟨adjusted_last_read_address_eq cap r h12 hr, hn, ?_, ?_⟩
  all_goals generalize adjusted_last_read_address cap r = a at hn hlt ⊢
  all_goals generalize next_read_address cap r = n at hn ⊢
  · intro h
    have e : roundup4 a = (a + 1) / 4 * 4 := by
      simp only [roundup4]
      omega
    rw [hn, e]
  · intro h
    have e1 : (a + 1) / 4 * 4 = a / 4 * 4 := by omega
    have e2 : roundup4 a = a / 4 * 4 + 4 := by
      simp only [roundup4]
      omega
    rw [hn, e1, e2]
    refine ⟨rfl, ?_⟩
    intro heq
    have hmod : a / 4 * 4 + 0 ≡ a / 4 * 4 + 4 [MOD cap] := by
      rw [Nat.add_zero]
      exact heq
    have h04 := Nat.ModEq.add_left_cancel' _ hmod
    have := Nat.ModEq.eq_of_lt_of_lt h04 (by omega) (by omega)
    omega

/-- Witness of C25 as amended: a buffer of 64 bytes and the reported address
13, for which `a = 1`. -/
theorem read_pointer_rounds_down_witness :
    adjusted_last_read_address 64 13 = (64 + 13 - 12) % 64 ∧
      next_read_address 64 13 = (adjusted_last_read_address 64 13 + 1) / 4 * 4 % 64 ∧
      (adjusted_last_read_address 64 13 % 4 = 0 ∨ adjusted_last_read_address 64 13 % 4 = 3 →
        next_read_address 64 13 = roundup4 (adjusted_last_read_address 64 13) % 64) ∧
      (adjusted_last_read_address 64 13 % 4 = 1 ∨ adjusted_last_read_address 64 13 % 4 = 2 →
        next_read_address 64 13 = adjusted_last_read_address 64 13 / 4 * 4 % 64 ∧
          next_read_address 64 13 ≠ roundup4 (adjusted_last_read_address 64 13) % 64) :=
  read_pointer_rounds_down 64 13 (by decide) (by decide)

/-- Counterexample to C25 as stated: with a buffer of 64 bytes and the reported
last-read address 13 the adjusted address is 1, whose next word boundary is 4,
but the read pointer that the polling loop uses is 0. -/
theorem read_pointer_counterexample :
    adjusted_last_read_address 64 13 = 1 ∧ roundup4 1 % 64 = 4 ∧
      next_read_address 64 13 = 0 ∧ available_buffer_size 64 0 13 = 63 := by
  decide

theorem available_buffer_size_eq (cap w r : Nat) (hc0 : 0 < cap) (hc : cap ≤ 2147483648)
    (hw : w < cap) :
    (available_buffer_size cap w r : Int) = ((next_read_address cap r : Int) - w - 1) % cap ∧
      available_buffer_size cap w r ≤ cap - 1 ∧
      (next_read_address cap r = w → available_buffer_size cap w r = cap - 1) := by
  have hn := next_read_address_lt cap r hc0
  unfold available_buffer_size
  generalize next_read_address cap r = n at hn ⊢
  by_cases hgt : n > w
  · rw [if_pos hgt]
    have e : (n + kWord - w + kWord - 1) % kWord = n - w - 1 := by
      simp only [kWord]
      omega
    rw [e]
    refine ⟨?_, by omega, by omega⟩
    rw [Int.emod_eq_of_lt (by omega) (by omega)]
    omega
  · rw [if_neg hgt]
    have e : ((n + (cap + kWord - w) % kWord) % kWord + kWord - 1) % kWord = n + cap - w - 1 := by
      simp only [kWord]
      omega
    rw [e]
    refine ⟨?_, by omega, by omega⟩
    rw [← Int.add_emod_self, Int.emod_eq_of_lt (by omega) (by omega)]
    omega

theorem spi_poll_loop_succ (host : spi_host_t) (cap fs nw fuel : Nat) (log : List spi_event) :
    spi_poll_loop host cap fs nw (fuel + 1) log =
      match host.get_last_read_address log with
      | none => .ok (log ++ [spi_event.get_last_read_address], false)
      | some r =>
        if (fs + kSpiDeviceBufferPreservedSizeBytes) % kWord > available_buffer_size cap nw r then
          spi_poll_loop host cap fs nw fuel (log ++ [spi_event.get_last_read_address])
        else .ok (log ++ [spi_event.get_last_read_address], true) := by
  rw [spi_poll_loop]
  rfl

theorem spi_poll_loop_trace (host : spi_host_t) (cap fs nw : Nat) :
    ∀ (fuel : Nat) (log : List spi_event) (r : List spi_event × Bool),
      spi_poll_loop host cap fs nw fuel log = .ok r →
      ∃ k, r.1 = log ++ List.replicate (k + 1) spi_event.get_last_read_address ∧
        (∀ i, i < k → ∃ a,
          host.get_last_read_address
              (log ++ List.replicate i spi_event.get_last_read_address) = some a ∧
            (fs + kSpiDeviceBufferPreservedSizeBytes) % kWord > available_buffer_size cap nw a) ∧
        (r.2 = true → ∃ a,
          host.get_last_read_address
              (log ++ List.replicate k spi_event.get_last_read_address) = some a ∧
            (fs + kSpiDeviceBufferPreservedSizeBytes) % kWord ≤ available_buffer_size cap nw a) ∧
        (r.2 = false →
          host.get_last_read_address
              (log ++ List.replicate k spi_event.get_last_read_address) = none) := by
  intro fuel
  induction fuel with
  | zero =>
    intro log r h
    simp [spi_poll_loop] at h
  | succ n ih =>
    intro log r h
    rw [spi_poll_loop_succ] at h
    cases hl : host.get_last_read_address log with
    | none =>
      rw [hl] at h
      simp only [Except.ok.injEq] at h
      refine ⟨0, ?_, ?_, ?_, ?_⟩
      · rw [← h]
        rfl
      · intro i hi
        omega
      · intro ht
        rw [← h] at ht
        simp at ht
      · intro _
        simpa using hl
    | some a =>
      rw [hl] at h
      simp only at h
      by_cases hgt : (fs + kSpiDeviceBufferPreservedSizeBytes) % kWord >
          available_buffer_size cap nw a
      · rw [if_pos hgt] at h
        obtain ⟨k, hk1, hk2, hk3, hk4⟩ := ih _ r h
        have happ : ∀ j, (log ++ [spi_event.get_last_read_address]) ++
            List.replicate j spi_event.get_last_read_address =
            log ++ List.replicate (j + 1) spi_event.get_last_read_address := by
          intro j
          rw [List.append_assoc, List.replicate_succ]
          rfl
        refine ⟨k + 1, ?_, ?_, ?_, ?_⟩
        · rw [hk1, happ]
        · intro i hi
          cases i with
          | zero => exact ⟨a, by simpa using hl, hgt⟩
          | succ j =>
            obtain ⟨b, hb1, hb2⟩ := hk2 j (by omega)
            rw [happ] at hb1
            exact ⟨b, hb1, hb2⟩
        · intro ht
          obtain ⟨b, hb1, hb2⟩ := hk3 ht
          rw [happ] at hb1
          exact ⟨b, hb1, hb2⟩
        · intro hf
          have := hk4 hf
          rw [happ] at this
          exact this
      · rw [if_neg hgt] at h
        simp only [Except.ok.injEq] at h
        refine ⟨0, ?_, ?_, ?_, ?_⟩
        · rw [← h]
          rfl
        · intro i hi
          omega
        · intro _
          exact ⟨a, by simpa using hl, by omega⟩
        · intro hf
          rw [← h] at hf
          simp at hf

theorem spi_csb_wait_extends (host : spi_host_t) (target : Bool) :
    ∀ (fuel : Nat) (log : List spi_event) (r : List spi_event × Bool),
      spi_csb_wait host target fuel log = .ok r →
      ∃ post, r.1 = log ++ post ∧ spi_writes post = [] := by
  intro fuel
  induction fuel with
  | zero => intro log r h; simp [spi_csb_wait] at h
  | succ n ih =>
    intro log r h
    unfold spi_csb_wait at h
    cases hl : host.get_csb_status log with
    | none =>
      rw [hl] at h
      simp only [Except.ok.injEq] at h
      exact ⟨[spi_event.get_csb_status], by rw [← h], rfl⟩
    | some a =>
      rw [hl] at h
      simp only at h
      by_cases hne : (a != target) = true
      · rw [if_pos hne] at h
        obtain ⟨post, hp1, hp2⟩ := ih _ r h
        refine ⟨spi_event.get_csb_status :: post, ?_, ?_⟩
        · rw [hp1, List.append_assoc]
          rfl
        · have e : spi_event.get_csb_status :: post = [spi_event.get_csb_status] ++ post := rfl
          rw [e, spi_writes_append, hp2]
          rfl
      · rw [if_neg hne] at h
        simp only [Except.ok.injEq] at h
        exact ⟨[spi_event.get_csb_status], by rw [← h], rfl⟩

theorem spi_csb_loop_extends (host : spi_host_t) (fuel : Nat) :
    ∀ (is : List Nat) (target : Bool) (log : List spi_event) (r : List spi_event × Bool),
      spi_csb_loop host fuel is target log = .ok r →
      ∃ post, r.1 = log ++ post ∧ spi_writes post = [] := by
  intro is
  induction is with
  | nil =>
    intro target log r h
    simp only [spi_csb_loop, Except.ok.injEq] at h
    exact ⟨[], by rw [← h, List.append_nil], rfl⟩
  | cons i is ih =>
    intro target log r h
    unfold spi_csb_loop at h
    cases hw : spi_csb_wait host target fuel log with
    | error e => rw [hw] at h; simp [Except.bind] at h
    | ok q =>
      rw [hw] at h
      simp only [Except.bind] at h
      obtain ⟨post1, hq1, hq2⟩ := spi_csb_wait_extends host target fuel log q hw
      by_cases hq : (!q.2) = true
      · rw [if_pos hq] at h
        simp only [Except.ok.injEq] at h
        exact ⟨post1, by rw [← h, hq1], hq2⟩
      · rw [if_neg hq] at h
        obtain ⟨post2, hr1, hr2⟩ := ih _ _ r h
        by_cases hi : i = 0
        · rw [if_pos hi] at hr1
          refine ⟨post1 ++ [spi_event.gpio_write false] ++ post2, ?_, ?_⟩
          · rw [hr1, hq1]
            simp only [List.append_assoc]
          · rw [spi_writes_append, spi_writes_append, hq2, hr2]
            rfl
        · rw [if_neg hi] at hr1
          refine ⟨post1 ++ post2, ?_, ?_⟩
          · rw [hr1, hq1]
            simp only [List.append_assoc]
          · rw [spi_writes_append, hq2, hr2]
            rfl

/-! ## The SPI console: the order of the driver writes -/

theorem cells_take (cap a m : Nat) (b : List Nat) (hm : m ≤ b.length) (ham : a + m ≤ cap) :
    write_cells [(a, b.take m)] =
      (List.range m).map (fun j => ((a + j) % cap, b.getD j 0)) := by
  rw [write_cells_single]
  have hl : (b.take m).length = m := by
    rw [List.length_take]
    omega
  rw [hl]
  apply List.map_congr_left
  intro j hj
  have hj2 : j < m := List.mem_range.mp hj
  have hmod : (a + j) % cap = a + j := Nat.mod_eq_of_lt (by omega)
  simp [hmod, List.getD, List.getElem?_take, hj2]

theorem cells_drop (cap a m : Nat) (b : List Nat) (ham : a + m = cap) (hb : b.length ≤ cap) :
    write_cells [(0, b.drop m)] =
      (List.range (b.length - m)).map (fun j => ((a + (m + j)) % cap, b.getD (m + j) 0)) := by
  rw [write_cells_single]
  rw [List.length_drop]
  apply List.map_congr_left
  intro j hj
  have hj2 : j < b.length - m := List.mem_range.mp hj
  have hmod : (a + (m + j)) % cap = 0 + j := by
    have e : a + (m + j) = j + cap := by omega
    rw [e, Nat.add_mod_right, Nat.mod_eq_of_lt (by omega)]
    omega
  simp [hmod, List.getD]

theorem range_map_split (f : Nat → Nat × Nat) (m n : Nat) (h : m ≤ n) :
    (List.range n).map f =
      (List.range m).map f ++ (List.range (n - m)).map (fun j => f (m + j)) := by
  have e : n = m + (n - m) := by omega
  conv_lhs => rw [e, List.range_add, List.map_append, List.map_map]
  rfl

theorem send_data_events (host : spi_host_t) (cap : Nat) (l : List spi_event) (b : List Nat)
    (a : Nat) (ha : a < cap) (hb : b.length ≤ cap) (hc : cap < kWord) :
    ∃ A, (spi_device_send_data host cap l b a).1 = l ++ A ∧
      (∀ e ∈ A, ∃ x d, e = spi_event.write_flash_buffer x d) ∧
      (spi_device_send_data host cap l b a).2 = writes_ok host l A ∧
      write_cells (spi_writes A) <+:
        (List.range b.length).map (fun j => ((a + j) % cap, b.getD j 0)) ∧
      ((spi_device_send_data host cap l b a).2 = true →
        write_cells (spi_writes A) =
          (List.range b.length).map (fun j => ((a + j) % cap, b.getD j 0))) := by
  unfold spi_device_send_data
  by_cases h0 : b.length = 0
  · rw [if_pos h0]
    refine ⟨[], by simp, by simp, rfl, ?_, ?_⟩
    · simp [spi_writes, write_cells]
    · intro _
      simp [spi_writes, write_cells, h0]
  · have hsp : (cap + kWord - a) % kWord = cap - a := by
      simp only [kWord] at hc ⊢
      omega
    rw [if_neg h0]
    simp only [hsp]
    by_cases hlt : cap - a < b.length
    · simp only [if_pos hlt]
      have hfull : write_cells [(a, b.take (cap - a)), (0, b.drop (cap - a))] =
          (List.range b.length).map (fun j => ((a + j) % cap, b.getD j 0)) := by
        have e1 : write_cells [(a, b.take (cap - a)), (0, b.drop (cap - a))] =
            write_cells [(a, b.take (cap - a))] ++ write_cells [(0, b.drop (cap - a))] := by
          rw [← write_cells_append]
          rfl
        rw [e1, cells_take cap a (cap - a) b (by omega) (by omega),
          cells_drop cap a (cap - a) b (by omega) hb,
          range_map_split _ (cap - a) b.length (by omega)]
      by_cases h1 : host.write_flash_buffer l a (b.take (cap - a)) = true
      · simp only [h1, Bool.not_true, Bool.false_eq_true, if_false]
        refine ⟨[spi_event.write_flash_buffer a (b.take (cap - a)),
          spi_event.write_flash_buffer 0 (b.drop (cap - a))], by simp, ?_, ?_, ?_, ?_⟩
        · intro e he
          simp only [List.mem_cons, List.mem_singleton, List.not_mem_nil, or_false] at he
          rcases he with he | he
          · exact ⟨_, _, he⟩
          · exact ⟨_, _, he⟩
        · simp [writes_ok, h1]
        · have e : spi_writes [spi_event.write_flash_buffer a (b.take (cap - a)),
              spi_event.write_flash_buffer 0 (b.drop (cap - a))] =
              [(a, b.take (cap - a)), (0, b.drop (cap - a))] := rfl
          rw [e, hfull]
        · intro _
          have e : spi_writes [spi_event.write_flash_buffer a (b.take (cap - a)),
              spi_event.write_flash_buffer 0 (b.drop (cap - a))] =
              [(a, b.take (cap - a)), (0, b.drop (cap - a))] := rfl
          rw [e, hfull]
      · have h1f : host.write_flash_buffer l a (b.take (cap - a)) = false := by
          simpa using h1
        simp only [h1f, Bool.not_false, if_true]
        refine ⟨[spi_event.write_flash_buffer a (b.take (cap - a))], rfl, ?_, ?_, ?_, ?_⟩
        · intro e he
          simp only [List.mem_singleton] at he
          exact ⟨_, _, he⟩
        · simp [writes_ok, h1f]
        · have e : spi_writes [spi_event.write_flash_buffer a (b.take (cap - a))] =
              [(a, b.take (cap - a))] := rfl
          rw [e, cells_take cap a (cap - a) b (by omega) (by omega),
            range_map_split _ (cap - a) b.length (by omega)]
          exact List.prefix_append _ _
        · intro h
          simp at h
    · simp only [if_neg hlt, lt_self_iff_false, if_false]
      have hfull : write_cells [(a, b.take b.length)] =
          (List.range b.length).map (fun j => ((a + j) % cap, b.getD j 0)) :=
        cells_take cap a b.length b (Nat.le_refl _) (by omega)
      have e : spi_writes [spi_event.write_flash_buffer a (b.take b.length)] =
          [(a, b.take b.length)] := rfl
      by_cases h1 : host.write_flash_buffer l a (b.take b.length) = true
      · simp only [h1, Bool.not_true, Bool.false_eq_true, if_false]
        refine ⟨[spi_event.write_flash_buffer a (b.take b.length)], rfl, ?_, ?_, ?_, ?_⟩
        · intro e he
          simp only [List.mem_singleton] at he
          exact ⟨_, _, he⟩
        · simp only [writes_ok, h1, Bool.and_self]
        · rw [e, hfull]
        · intro _
          rw [e, hfull]
      · have h1f : host.write_flash_buffer l a (b.take b.length) = false := by
          simpa using h1
        simp only [h1f, Bool.not_false, if_true]
        refine ⟨[spi_event.write_flash_buffer a (b.take b.length)], rfl, ?_, ?_, ?_, ?_⟩
        · intro e he
          simp only [List.mem_singleton] at he
          exact ⟨_, _, he⟩
        · simp only [writes_ok, h1f, Bool.and_true]
        · rw [e, hfull]
        · intro h
          simp at h

theorem send_frame_shape (host : spi_host_t) (cap fuel : Nat) (st : spi_console_t)
    (log : List spi_event) (P : List Nat) (log2 : List spi_event) (st2 : spi_console_t)
    (ret : Nat)
    (hcap : cap ≤ 2147483648) (hw : st.next_write_address < cap)
    (hn : P.length < 2147483648)
    (hrun : spi_device_send_frame host cap fuel st log P = .ok (log2, st2, ret)) :
    (cap ≤ 12 + roundup4 P.length ∧ log2 = log) ∨
      (12 + roundup4 P.length < cap ∧
        ∃ p s1 s2 s3,
          (if (!st.spi_console_gpio) = true then
            spi_poll_loop host cap (12 + roundup4 P.length) st.next_write_address fuel log
          else Except.ok (log, true)) = .ok p ∧
          s1 = spi_device_send_data host cap p.1 (P.take (P.length / 4 * 4))
            ((st.next_write_address + 12) % cap) ∧
          s2 = spi_device_send_data host cap s1.1
            (if P.length ≠ P.length / 4 * 4 then
              P.drop (P.length / 4 * 4) ++
                List.replicate (4 - (P.length - P.length / 4 * 4)) 255
            else [])
            ((st.next_write_address + 12 + P.length / 4 * 4) % cap) ∧
          s3 = spi_device_send_data host cap s2.1
            (le_bytes kSpiDeviceFrameMagicNumber ++ le_bytes st.spi_device_frame_num ++
              le_bytes P.length)
            st.next_write_address ∧
          ((p.2 = false ∧ log2 = p.1) ∨
            (p.2 = true ∧ s1.2 = false ∧ log2 = s1.1) ∨
            (p.2 = true ∧ s1.2 = true ∧ s2.2 = false ∧ log2 = s2.1) ∨
            (p.2 = true ∧ s1.2 = true ∧ s2.2 = true ∧
              ∃ post, log2 = s3.1 ++ post ∧ spi_writes post = [] ∧
                (s3.2 = false → post = [])))) := by
  have hk : P.length / 4 * 4 ≤ P.length := Nat.div_mul_le_self _ _
  have hr : roundup4 P.length = (P.length + 3) / 4 * 4 := rfl
  have h1 := frame_size_eq P.length hn
  have hdwa : (st.next_write_address + kSpiDeviceFrameHeaderSizeBytes) % kWord % cap =
      (st.next_write_address + 12) % cap := by
    have e : (st.next_write_address + kSpiDeviceFrameHeaderSizeBytes) % kWord =
        st.next_write_address + 12 := by
      simp only [kSpiDeviceFrameHeaderSizeBytes, kWord]
      omega
    rw [e]
  by_cases hrej : cap ≤ 12 + roundup4 P.length
  · left
    have := send_frame_rejected host cap fuel st log P (by rw [h1]; exact hrej)
    rw [this] at hrun
    simp only [Except.ok.injEq, Prod.mk.injEq] at hrun
    exact ⟨hrej, hrun.1.symm⟩
  right
  refine ⟨by omega, ?_⟩
  have hpwa : ((st.next_write_address + 12) % cap + P.length / 4 * 4) % kWord % cap =
      (st.next_write_address + 12 + P.length / 4 * 4) % cap := by
    have hlt : (st.next_write_address + 12) % cap < cap := Nat.mod_lt _ (by omega)
    have hlt2 : ((st.next_write_address + 12) % cap + P.length / 4 * 4) % kWord =
        (st.next_write_address + 12) % cap + P.length / 4 * 4 := by
      simp only [kWord]
      omega
    rw [hlt2, Nat.mod_add_mod]
  have hs2 : ∀ X : List spi_event,
      (if P.length ≠ P.length / 4 * 4 then
        spi_device_send_data host cap X
          (P.drop (P.length / 4 * 4) ++
            List.replicate (4 - (P.length - P.length / 4 * 4)) 255)
          ((st.next_write_address + 12 + P.length / 4 * 4) % cap)
      else (X, true)) =
      spi_device_send_data host cap X
        (if P.length ≠ P.length / 4 * 4 then
          P.drop (P.length / 4 * 4) ++
            List.replicate (4 - (P.length - P.length / 4 * 4)) 255
        else [])
        ((st.next_write_address + 12 + P.length / 4 * 4) % cap) := by
    intro X
    by_cases hne : P.length ≠ P.length / 4 * 4
    · rw [if_pos hne, if_pos hne]
    · rw [if_neg hne, if_neg hne]
      simp [spi_device_send_data]
  unfold spi_device_send_frame at hrun
  simp only [h1, hdwa, hpwa, hs2, ge_iff_le] at hrun
  rw [if_neg hrej] at hrun
  cases hq : (if (!st.spi_console_gpio) = true then
      spi_poll_loop host cap (12 + roundup4 P.length) st.next_write_address fuel log
    else Except.ok (log, true)) with
  | error e =>
    rw [hq] at hrun
    simp [Except.bind] at hrun
  | ok p =>
    rw [hq] at hrun
    simp only [Except.bind] at hrun
    refine ⟨p, _, _, _, rfl, rfl, rfl, rfl, ?_⟩
    generalize spi_device_send_data host cap p.1 (List.take (P.length / 4 * 4) P)
      ((st.next_write_address + 12) % cap) = s1 at hrun ⊢
    generalize spi_device_send_data host cap s1.1
      (if P.length ≠ P.length / 4 * 4 then
        P.drop (P.length / 4 * 4) ++ List.replicate (4 - (P.length - P.length / 4 * 4)) 255
      else [])
      ((st.next_write_address + 12 + P.length / 4 * 4) % cap) = s2 at hrun ⊢
    generalize spi_device_send_data host cap s2.1
      (le_bytes kSpiDeviceFrameMagicNumber ++ le_bytes st.spi_device_frame_num ++
        le_bytes P.length) st.next_write_address = s3 at hrun ⊢
    by_cases hp : p.2 = true
    swap
    · have hpf : p.2 = false := by simpa using hp
      simp only [hpf, Bool.not_false, if_true, Except.ok.injEq, Prod.mk.injEq] at hrun
      exact Or.inl ⟨hpf, hrun.1.symm⟩
    simp only [hp, Bool.not_true, Bool.false_eq_true, if_false] at hrun
    by_cases h1s : s1.2 = true
    swap
    · have hf : s1.2 = false := by simpa using h1s
      simp only [hf, Bool.not_false, if_true, Except.ok.injEq, Prod.mk.injEq] at hrun
      exact Or.inr (Or.inl ⟨hp, hf, hrun.1.symm⟩)
    simp only [h1s, Bool.not_true, Bool.false_eq_true, if_false] at hrun
    by_cases h2s : s2.2 = true
    swap
    · have hf : s2.2 = false := by simpa using h2s
      simp only [hf, Bool.not_false, if_true, Except.ok.injEq, Prod.mk.injEq] at hrun
      exact Or.inr (Or.inr (Or.inl ⟨hp, h1s, hf, hrun.1.symm⟩))
    simp only [h2s, Bool.not_true, Bool.false_eq_true, if_false] at hrun
    refine Or.inr (Or.inr (Or.inr ⟨hp, h1s, h2s, ?_⟩))
    by_cases h3s : s3.2 = true
    swap
    · have hf : s3.2 = false := by simpa using h3s
      simp only [hf, Bool.not_false, if_true, Except.ok.injEq, Prod.mk.injEq] at hrun
      exact ⟨[], by rw [List.append_nil]; exact hrun.1.symm, rfl, fun _ => rfl⟩
    simp only [h3s, Bool.not_true, Bool.false_eq_true, if_false] at hrun
    by_cases hg : st.spi_console_gpio = true
    · rw [if_pos hg] at hrun
      cases hc : spi_csb_loop host fuel [0, 1, 2, 3] false
          (s3.1 ++ [spi_event.gpio_write true]) with
      | error e =>
        rw [hc] at hrun
        simp at hrun
      | ok v =>
        rw [hc] at hrun
        simp only at hrun
        obtain ⟨post, hv1, hv2⟩ := spi_csb_loop_extends host fuel _ _ _ v hc
        have hl2 : log2 = v.1 := by
          by_cases h5 : (!v.2) = true
          · rw [if_pos h5] at hrun
            simp only [Except.ok.injEq, Prod.mk.injEq] at hrun
            exact hrun.1.symm
          · rw [if_neg h5] at hrun
            simp only [Except.ok.injEq, Prod.mk.injEq] at hrun
            exact hrun.1.symm
        refine ⟨[spi_event.gpio_write true] ++ post, ?_, ?_, ?_⟩
        · rw [hl2, hv1, List.append_assoc]
        · rw [spi_writes_append, hv2]
          rfl
        · intro hf
          rw [h3s] at hf
          simp at hf
    · rw [if_neg hg] at hrun
      simp only [Except.ok.injEq, Prod.mk.injEq] at hrun
      exact ⟨[], by rw [List.append_nil]; exact hrun.1.symm, rfl, fun _ => rfl⟩

theorem writes_ok_append (host : spi_host_t) :
    ∀ (X l Y : List spi_event),
      writes_ok host l (X ++ Y) = (writes_ok host l X && writes_ok host (l ++ X) Y) := by
  intro X
  induction X with
  | nil =>
    intro l Y
    simp [writes_ok]
  | cons e X ih =>
    intro l Y
    have e2 : l ++ e :: X = (l ++ [e]) ++ X := by simp
    cases e <;> simp only [List.cons_append, writes_ok, List.append_eq, ih, e2, Bool.and_assoc]

theorem spi_writes_polls (k : Nat) :
    spi_writes (List.replicate k spi_event.get_last_read_address) = [] := by
  induction k with
  | zero => rfl
  | succ n ih =>
    rw [List.replicate_succ]
    have e : spi_event.get_last_read_address ::
        List.replicate n spi_event.get_last_read_address =
        [spi_event.get_last_read_address] ++
          List.replicate n spi_event.get_last_read_address := rfl
    rw [e, spi_writes_append, ih]
    rfl

theorem frame_cells (cap w fn : Nat) (P : List Nat) :
    (List.range (P.take (P.length / 4 * 4)).length).map
        (fun j => (((w + 12) % cap + j) % cap, (P.take (P.length / 4 * 4)).getD j 0)) =
      (List.range' 12 (P.length / 4 * 4)).map
        (fun i => ((w + i) % cap, (frame_bytes fn P).getD i 0)) ∧
    (List.range (if P.length ≠ P.length / 4 * 4 then
          P.drop (P.length / 4 * 4) ++ List.replicate (4 - (P.length - P.length / 4 * 4)) 255
        else []).length).map
        (fun j => (((w + 12 + P.length / 4 * 4) % cap + j) % cap,
          (if P.length ≠ P.length / 4 * 4 then
            P.drop (P.length / 4 * 4) ++ List.replicate (4 - (P.length - P.length / 4 * 4)) 255
          else []).getD j 0)) =
      (List.range' (12 + P.length / 4 * 4) (roundup4 P.length - P.length / 4 * 4)).map
        (fun i => ((w + i) % cap, (frame_bytes fn P).getD i 0)) ∧
    (List.range (le_bytes kSpiDeviceFrameMagicNumber ++ le_bytes fn ++
          le_bytes P.length).length).map
        (fun j => ((w + j) % cap,
          (le_bytes kSpiDeviceFrameMagicNumber ++ le_bytes fn ++ le_bytes P.length).getD j 0)) =
      (List.range' 0 12).map (fun i => ((w + i) % cap, (frame_bytes fn P).getD i 0)) ∧
    List.range' 12 (roundup4 P.length) =
      List.range' 12 (P.length / 4 * 4) ++
        List.range' (12 + P.length / 4 * 4) (roundup4 P.length - P.length / 4 * 4) := by
  have hk : P.length / 4 * 4 ≤ P.length := Nat.div_mul_le_self _ _
  have hr : roundup4 P.length = (P.length + 3) / 4 * 4 := rfl
  have hfb := frame_bytes_split fn P
  generalize hD2 : (if P.length ≠ P.length / 4 * 4 then
      P.drop (P.length / 4 * 4) ++ List.replicate (4 - (P.length - P.length / 4 * 4)) 255
    else []) = D2 at hfb ⊢
  generalize hH : le_bytes kSpiDeviceFrameMagicNumber ++ le_bytes fn ++
      le_bytes P.length = H at hfb ⊢
  have hl1 : (P.take (P.length / 4 * 4)).length = P.length / 4 * 4 := by
    rw [List.length_take]
    omega
  have hl2 : D2.length = roundup4 P.length - P.length / 4 * 4 := by
    rw [← hD2]
    split_ifs with hne
    · simp only [List.length_append, List.length_drop, List.length_replicate]
      omega
    · simp only [List.length_nil]
      omega
  have hl3 : H.length = 12 := by
    rw [← hH]
    rfl
  rw [hl1, hl2, hl3]
  refine ⟨?_, ?_, ?_, ?_⟩
  · apply cells_shift cap _ w 12 _ _ (frame_bytes fn P)
    · intro j hj
      have := getD_mid H (P.take (P.length / 4 * 4)) D2 j (by omega)
      rw [hl3] at this
      rw [hfb, this]
    · intro j
      rw [Nat.mod_add_mod, Nat.add_assoc]
  · apply cells_shift cap _ w (12 + P.length / 4 * 4) _ _ (frame_bytes fn P)
    · intro j _
      have hlen : (H ++ List.take (P.length / 4 * 4) P).length = 12 + P.length / 4 * 4 := by
        rw [List.length_append, hl1, hl3]
      rw [hfb, List.getD_append_right _ _ _ _ (by rw [hlen]; omega), hlen,
        Nat.add_sub_cancel_left]
    · intro j
      rw [Nat.mod_add_mod]
      congr 1
      omega
  · apply cells_shift cap _ w 0 _ _ (frame_bytes fn P)
    · intro j hj
      rw [hfb, List.append_assoc, List.getD_append _ _ _ _ (by omega), Nat.zero_add]
    · intro j
      rw [Nat.zero_add]
  · rw [List.range'_append_1]
    have e : roundup4 P.length - P.length / 4 * 4 + P.length / 4 * 4 = roundup4 P.length := by
      omega
    rw [e]

theorem send_frame_events (host : spi_host_t) (cap fuel : Nat) (st : spi_console_t)
    (log : List spi_event) (P : List Nat) (log2 : List spi_event) (st2 : spi_console_t)
    (ret : Nat)
    (hcap : cap ≤ 2147483648) (hw : st.next_write_address < cap)
    (hn : P.length < 2147483648)
    (hrun : spi_device_send_frame host cap fuel st log P = .ok (log2, st2, ret)) :
    ∃ pre A H post,
      log2 = log ++ pre ++ A ++ H ++ post ∧
      (∀ e ∈ A, ∃ x d, e = spi_event.write_flash_buffer x d) ∧
      (∀ e ∈ H, ∃ x d, e = spi_event.write_flash_buffer x d) ∧
      spi_writes post = [] ∧
      write_cells (spi_writes A) <+:
        (List.range' 12 (roundup4 P.length)).map
          (fun i => ((st.next_write_address + i) % cap,
            (frame_bytes st.spi_device_frame_num P).getD i 0)) ∧
      write_cells (spi_writes H) <+:
        (List.range' 0 12).map
          (fun i => ((st.next_write_address + i) % cap,
            (frame_bytes st.spi_device_frame_num P).getD i 0)) ∧
      (H ≠ [] → writes_ok host (log ++ pre) A = true ∧
        write_cells (spi_writes A) =
          (List.range' 12 (roundup4 P.length)).map
            (fun i => ((st.next_write_address + i) % cap,
              (frame_bytes st.spi_device_frame_num P).getD i 0))) ∧
      (st.spi_console_gpio = true → pre = []) ∧
      (st.spi_console_gpio = false →
        (pre = [] ∧ A = [] ∧ H = [] ∧ post = []) ∨
        ∃ k, pre = List.replicate (k + 1) spi_event.get_last_read_address ∧
          (∀ i, i < k → ∃ b,
            host.get_last_read_address
                (log ++ List.replicate i spi_event.get_last_read_address) = some b ∧
              available_buffer_size cap st.next_write_address b <
                12 + roundup4 P.length + 12) ∧
          ((host.get_last_read_address
                (log ++ List.replicate k spi_event.get_last_read_address) = none ∧
              A = [] ∧ H = [] ∧ post = []) ∨
            ∃ a, host.get_last_read_address
                (log ++ List.replicate k spi_event.get_last_read_address) = some a ∧
              12 + roundup4 P.length + 12 ≤
                available_buffer_size cap st.next_write_address a)) := by
  have hk : P.length / 4 * 4 ≤ P.length := Nat.div_mul_le_self _ _
  have hr : roundup4 P.length = (P.length + 3) / 4 * 4 := rfl
  have hcapK : cap < kWord := by
    simp only [kWord]
    omega
  rcases send_frame_shape host cap fuel st log P log2 st2 ret hcap hw hn hrun with
    ⟨-, hl⟩ | ⟨hacc, p, s1, s2, s3, hq, hs1, hs2, hs3, hcases⟩
  · refine ⟨[], [], [], [], by simp [hl], by simp, by simp, rfl, ?_, ?_, ?_, ?_, ?_⟩
    · exact List.nil_prefix
    · exact List.nil_prefix
    · intro h
      exact absurd rfl h
    · intro _
      rfl
    · intro _
      exact Or.inl ⟨rfl, rfl, rfl, rfl⟩
  have hfs : (12 + roundup4 P.length + kSpiDeviceBufferPreservedSizeBytes) % kWord =
      12 + roundup4 P.length + 12 := by
    simp only [kSpiDeviceBufferPreservedSizeBytes, kSpiDeviceFrameHeaderSizeBytes, kWord]
    omega
  have hpre : ∃ pre, p.1 = log ++ pre ∧ (st.spi_console_gpio = true → pre = [] ∧ p.2 = true) ∧
      (st.spi_console_gpio = false →
        ∃ k, pre = List.replicate (k + 1) spi_event.get_last_read_address ∧
          (∀ i, i < k → ∃ b,
            host.get_last_read_address
                (log ++ List.replicate i spi_event.get_last_read_address) = some b ∧
              available_buffer_size cap st.next_write_address b <
                12 + roundup4 P.length + 12) ∧
          (p.2 = false → host.get_last_read_address
                (log ++ List.replicate k spi_event.get_last_read_address) = none) ∧
          (p.2 = true → ∃ a, host.get_last_read_address
                (log ++ List.replicate k spi_event.get_last_read_address) = some a ∧
              12 + roundup4 P.length + 12 ≤
                available_buffer_size cap st.next_write_address a)) := by
    by_cases hg : st.spi_console_gpio = true
    · simp only [hg, Bool.not_true, Bool.false_eq_true, if_false, Except.ok.injEq] at hq
      refine ⟨[], by rw [← hq, List.append_nil], fun _ => ⟨rfl, by rw [← hq]⟩, ?_⟩
      intro hf
      rw [hg] at hf
      exact absurd hf (by decide)
    · have hgf : st.spi_console_gpio = false := by simpa using hg
      simp only [hgf, Bool.not_false, if_true] at hq
      obtain ⟨k, hk1, hk2, hk3, hk4⟩ := spi_poll_loop_trace host cap _ _ fuel log p hq
      rw [hfs] at hk2 hk3
      refine ⟨_, hk1, fun h => absurd h hg, fun _ => ⟨k, rfl, hk2, hk4, hk3⟩⟩
  obtain ⟨pre, hp1, hpg, hpp⟩ := hpre
  have fc := frame_cells cap st.next_write_address st.spi_device_frame_num P
  obtain ⟨A1, ha1, hw1, hok1, hpf1, heq1⟩ := send_data_events host cap p.1
    (P.take (P.length / 4 * 4)) ((st.next_write_address + 12) % cap)
    (Nat.mod_lt _ (by omega)) (by rw [List.length_take]; omega) hcapK
  rw [← hs1] at ha1 hok1 heq1
  rw [fc.1] at hpf1 heq1
  have hD2 : (if P.length ≠ P.length / 4 * 4 then
      P.drop (P.length / 4 * 4) ++ List.replicate (4 - (P.length - P.length / 4 * 4)) 255
    else []).length ≤ cap := by
    split_ifs
    · simp only [List.length_append, List.length_drop, List.length_replicate]
      omega
    · simp only [List.length_nil]
      omega
  obtain ⟨A2, ha2, hw2, hok2, hpf2, heq2⟩ := send_data_events host cap s1.1
    (if P.length ≠ P.length / 4 * 4 then
      P.drop (P.length / 4 * 4) ++ List.replicate (4 - (P.length - P.length / 4 * 4)) 255
    else []) ((st.next_write_address + 12 + P.length / 4 * 4) % cap)
    (Nat.mod_lt _ (by omega)) hD2 hcapK
  rw [← hs2] at ha2 hok2 heq2
  rw [fc.2.1] at hpf2 heq2
  obtain ⟨A3, ha3, hw3, hok3, hpf3, heq3⟩ := send_data_events host cap s2.1
    (le_bytes kSpiDeviceFrameMagicNumber ++ le_bytes st.spi_device_frame_num ++
      le_bytes P.length) st.next_write_address hw
    (by
      have e : (le_bytes kSpiDeviceFrameMagicNumber ++ le_bytes st.spi_device_frame_num ++
          le_bytes P.length).length = 12 := rfl
      rw [e]
      omega) hcapK
  rw [← hs3] at ha3 hok3 heq3
  rw [fc.2.2.1] at hpf3 heq3
  clear hs1 hs2 hs3 hD2
  rw [fc.2.2.2]
  simp only [List.map_append]
  generalize (List.range' 12 (P.length / 4 * 4)).map
    (fun i => ((st.next_write_address + i) % cap,
      (frame_bytes st.spi_device_frame_num P).getD i 0)) = C1 at hpf1 heq1 ⊢
  generalize (List.range' (12 + P.length / 4 * 4) (roundup4 P.length - P.length / 4 * 4)).map
    (fun i => ((st.next_write_address + i) % cap,
      (frame_bytes st.spi_device_frame_num P).getD i 0)) = C2 at hpf2 heq2 ⊢
  generalize (List.range' 0 12).map
    (fun i => ((st.next_write_address + i) % cap,
      (frame_bytes st.spi_device_frame_num P).getD i 0)) = C3 at hpf3 heq3 ⊢
  have hpoll_ok : p.2 = true → st.spi_console_gpio = false →
      (pre = [] ∧ (∃ x : Unit, False)) ∨
      ∃ k, pre = List.replicate (k + 1) spi_event.get_last_read_address ∧
        (∀ i, i < k → ∃ b,
          host.get_last_read_address
              (log ++ List.replicate i spi_event.get_last_read_address) = some b ∧
            available_buffer_size cap st.next_write_address b <
              12 + roundup4 P.length + 12) ∧
        ∃ a, host.get_last_read_address
            (log ++ List.replicate k spi_event.get_last_read_address) = some a ∧
          12 + roundup4 P.length + 12 ≤ available_buffer_size cap st.next_write_address a := by
    intro hpt hgf
    obtain ⟨k, hk1, hk2, -, hk4⟩ := hpp hgf
    exact Or.inr ⟨k, hk1, hk2, hk4 hpt⟩
  rcases hcases with ⟨hpf, hl⟩ | ⟨hpt, h1f, hl⟩ | ⟨hpt, h1t, h2f, hl⟩ | ⟨hpt, h1t, h2t, post, hl, hpost, -⟩
  · refine ⟨pre, [], [], [], by simp [hl, hp1], by simp, by simp, rfl, List.nil_prefix,
      List.nil_prefix, fun h => absurd rfl h, fun hg => (hpg hg).1, ?_⟩
    intro hgf
    obtain ⟨k, hk1, hk2, hk3, -⟩ := hpp hgf
    exact Or.inr ⟨k, hk1, hk2, Or.inl ⟨hk3 hpf, rfl, rfl, rfl⟩⟩
  · refine ⟨pre, A1, [], [], by simp [hl, ha1, hp1], hw1, by simp, rfl, ?_,
      List.nil_prefix, fun h => absurd rfl h, fun hg => (hpg hg).1, ?_⟩
    · exact hpf1.trans (List.prefix_append _ _)
    · intro hgf
      rcases hpoll_ok hpt hgf with ⟨-, ⟨-, hfalse⟩⟩ | ⟨k, hk1, hk2, hk3⟩
      · exact absurd hfalse id
      · exact Or.inr ⟨k, hk1, hk2, Or.inr hk3⟩
  · have hc12 : write_cells (spi_writes (A1 ++ A2)) = C1 ++ write_cells (spi_writes A2) := by
      rw [spi_writes_append, write_cells_append, heq1 h1t]
    refine ⟨pre, A1 ++ A2, [], [], by simp [hl, ha2, ha1, hp1], ?_, by simp, rfl, ?_,
      List.nil_prefix, fun h => absurd rfl h, fun hg => (hpg hg).1, ?_⟩
    · intro e he
      rcases List.mem_append.mp he with h | h
      · exact hw1 e h
      · exact hw2 e h
    · rw [hc12]
      exact (List.prefix_append_right_inj C1).mpr hpf2
    · intro hgf
      rcases hpoll_ok hpt hgf with ⟨-, ⟨-, hfalse⟩⟩ | ⟨k, hk1, hk2, hk3⟩
      · exact absurd hfalse id
      · exact Or.inr ⟨k, hk1, hk2, Or.inr hk3⟩
  · have hc12 : write_cells (spi_writes (A1 ++ A2)) = C1 ++ C2 := by
      rw [spi_writes_append, write_cells_append, heq1 h1t, heq2 h2t]
    refine ⟨pre, A1 ++ A2, A3, post, by simp [hl, ha3, ha2, ha1, hp1], ?_, hw3, hpost, ?_,
      hpf3, ?_, fun hg => (hpg hg).1, ?_⟩
    · intro e he
      rcases List.mem_append.mp he with h | h
      · exact hw1 e h
      · exact hw2 e h
    · rw [hc12]
    · intro _
      refine ⟨?_, hc12⟩
      rw [writes_ok_append, ← hp1, ← hok1, ← ha1, ← hok2, h1t, h2t]
      rfl
    · intro hgf
      rcases hpoll_ok hpt hgf with ⟨-, ⟨-, hfalse⟩⟩ | ⟨k, hk1, hk2, hk3⟩
      · exact absurd hfalse id
      · exact Or.inr ⟨k, hk1, hk2, Or.inr hk3⟩

/-- C24: in polling mode, for the write cursor `w < capacity` and the read
pointer `n = next_read_address` derived from a reported last-read address, the
free space that `spi_device_send_frame` computes is `(n - w - 1) mod capacity`
(over the integers), so it is `capacity - 1` when `n = w` and never more; and
if the call issues any buffer write, then the calls it made begin with `k + 1`
polls of the last-read address, the buffer writes come after them, the answer
to the last of these polls gave a free space of at least the framed size plus
12, and the free space was computed anew from the answer to each earlier poll,
each time falling short of that. -/
theorem poll_free_space (host : spi_host_t) (cap fuel : Nat) (st : spi_console_t)
    (log : List spi_event) (P : List Nat) (log2 : List spi_event) (st2 : spi_console_t)
    (ret : Nat)
    (hcap : cap ≤ 2147483648) (hw : st.next_write_address < cap)
    (hn : P.length < 2147483648) (hpol : st.spi_console_gpio = false)
    (hrun : spi_device_send_frame host cap fuel st log P = .ok (log2, st2, ret)) :
    (∀ r, next_read_address cap r < cap ∧
      (available_buffer_size cap st.next_write_address r : Int) =
        ((next_read_address cap r : Int) - st.next_write_address - 1) % cap ∧
      available_buffer_size cap st.next_write_address r ≤ cap - 1 ∧
      (next_read_address cap r = st.next_write_address →
        available_buffer_size cap st.next_write_address r = cap - 1)) ∧
      (spi_writes log2 ≠ spi_writes log →
        ∃ k a tail,
          log2 = log ++ List.replicate (k + 1) spi_event.get_last_read_address ++ tail ∧
          host.get_last_read_address
              (log ++ List.replicate k spi_event.get_last_read_address) = some a ∧
          12 + roundup4 P.length + 12 ≤ available_buffer_size cap st.next_write_address a ∧
          ∀ i, i < k → ∃ b,
            host.get_last_read_address
                (log ++ List.replicate i spi_event.get_last_read_address) = some b ∧
              available_buffer_size cap st.next_write_address b <
                12 + roundup4 P.length + 12) := by
  refine ⟨?_, ?_⟩
  · intro r
    have h := available_buffer_size_eq cap st.next_write_address r (by omega) hcap hw
    exact ⟨next_read_address_lt cap r (by omega), h.1, h.2.1, h.2.2⟩
  · intro hne
    obtain ⟨pre, A, H, post, hl, -, -, hpost, -, -, -, -, hp⟩ :=
      send_frame_events host cap fuel st log P log2 st2 ret hcap hw hn hrun
    rcases hp hpol with ⟨h1, h2, h3, h4⟩ | ⟨k, hk1, hk2, hk3⟩
    · rw [hl, h1, h2, h3, h4] at hne
      simp at hne
    · rcases hk3 with ⟨-, h2, h3, h4⟩ | ⟨a, ha1, ha2⟩
      · rw [hl, hk1, h2, h3, h4] at hne
        simp [spi_writes_append, spi_writes_polls] at hne
      · refine ⟨k, a, A ++ H ++ post, ?_, ha1, ha2, hk2⟩
        rw [hl, hk1]
        simp only [List.append_assoc]

/-- Witness of C24: the payload "ABCDE" sent at the cursor 56 of a buffer of 64
bytes, the host reporting the last-read address 52: the read pointer is 40 and
the free space 47, enough for the framed size 20 plus 12. -/
theorem poll_free_space_witness :
    (available_buffer_size 64 56 52 : Int) = ((next_read_address 64 52 : Int) - 56 - 1) % 64 ∧
      next_read_address 64 52 = 40 ∧ available_buffer_size 64 56 52 = 47 :=
  have h := (poll_free_space
    { write_flash_buffer := fun _ _ _ => true, get_last_read_address := fun _ => some 52,
      get_csb_status := fun _ => some false }
    64 1 { next_write_address := 56, spi_device_frame_num := 3, spi_console_gpio := false }
    [] [65, 66, 67, 68, 69]
    [spi_event.get_last_read_address, spi_event.write_flash_buffer 4 [65, 66, 67, 68],
      spi_event.write_flash_buffer 8 [69, 255, 255, 255],
      spi_event.write_flash_buffer 56 [239, 190, 165, 165, 3, 0, 0, 0],
      spi_event.write_flash_buffer 0 [5, 0, 0, 0]]
    { next_write_address := 12, spi_device_frame_num := 4, spi_console_gpio := false } 5
    (by decide) (by decide) (by decide) rfl (by decide)).1 52
  ⟨h.2.1, by decide, by decide⟩

/-- C26: in every execution of `spi_device_send_frame` that returns, the driver
calls it made are, in this order, polls `pre`, the payload and padding writes
`A`, the header writes `H` and the calls `post` of the handshake, which write
nothing: the bytes that `A` stores are an initial part of the payload and
padding bytes of the frame, at the addresses from `w + 12` on, and the bytes
that `H` stores are an initial part of the 12 header bytes at the addresses
from the cursor `w` on. A header write is issued only if every write of `A` was
answered with success and `A` stored the whole payload and padding; so if a
write of `A` fails, no header write is issued. -/
theorem header_after_payload (host : spi_host_t) (cap fuel : Nat) (st : spi_console_t)
    (log : List spi_event) (P : List Nat) (log2 : List spi_event) (st2 : spi_console_t)
    (ret : Nat)
    (hcap : cap ≤ 2147483648) (hw : st.next_write_address < cap)
    (hn : P.length < 2147483648)
    (hrun : spi_device_send_frame host cap fuel st log P = .ok (log2, st2, ret)) :
    ∃ pre A H post,
      log2 = log ++ pre ++ A ++ H ++ post ∧
      spi_writes pre = [] ∧ spi_writes post = [] ∧
      (∀ e ∈ A, ∃ x d, e = spi_event.write_flash_buffer x d) ∧
      (∀ e ∈ H, ∃ x d, e = spi_event.write_flash_buffer x d) ∧
      write_cells (spi_writes A) <+:
        (List.range' 12 (roundup4 P.length)).map
          (fun i => ((st.next_write_address + i) % cap,
            (frame_bytes st.spi_device_frame_num P).getD i 0)) ∧
      write_cells (spi_writes H) <+:
        (List.range' 0 12).map
          (fun i => ((st.next_write_address + i) % cap,
            (frame_bytes st.spi_device_frame_num P).getD i 0)) ∧
      (H ≠ [] → writes_ok host (log ++ pre) A = true ∧
        write_cells (spi_writes A) =
          (List.range' 12 (roundup4 P.length)).map
            (fun i => ((st.next_write_address + i) % cap,
              (frame_bytes st.spi_device_frame_num P).getD i 0))) ∧
      (writes_ok host (log ++ pre) A = false → H = []) := by
  obtain ⟨pre, A, H, post, hl, hA, hH, hpost, hcA, hcH, himp, hg, hp⟩ :=
    send_frame_events host cap fuel st log P log2 st2 ret hcap hw hn hrun
  refine ⟨pre, A, H, post, hl, ?_, hpost, hA, hH, hcA, hcH, himp, ?_⟩
  · by_cases hgp : st.spi_console_gpio = true
    · rw [hg hgp]
      rfl
    · rcases hp (by simpa using hgp) with ⟨h1, -⟩ | ⟨k, hk1, -⟩
      · rw [h1]
        rfl
      · rw [hk1]
        exact spi_writes_polls _
  · intro hf
    by_contra hne
    rw [(himp hne).1] at hf
    exact absurd hf (by decide)

/-- Witness of C26: the payload "ABCDE" at the cursor 56 of a buffer of 64
bytes, with a driver that refuses every write beyond the second call: the
write of the padding group fails and no header write follows. -/
theorem header_after_payload_witness :
    ∃ pre A H post,
      [spi_event.get_last_read_address, spi_event.write_flash_buffer 4 [65, 66, 67, 68],
          spi_event.write_flash_buffer 8 [69, 255, 255, 255]] =
        [] ++ pre ++ A ++ H ++ post ∧
      spi_writes pre = [] ∧ spi_writes post = [] ∧
      (∀ e ∈ A, ∃ x d, e = spi_event.write_flash_buffer x d) ∧
      (∀ e ∈ H, ∃ x d, e = spi_event.write_flash_buffer x d) ∧
      write_cells (spi_writes A) <+:
        (List.range' 12 (roundup4 [65, 66, 67, 68, 69].length)).map
          (fun i => ((56 + i) % 64, (frame_bytes 3 [65, 66, 67, 68, 69]).getD i 0)) ∧
      write_cells (spi_writes H) <+:
        (List.range' 0 12).map
          (fun i => ((56 + i) % 64, (frame_bytes 3 [65, 66, 67, 68, 69]).getD i 0)) ∧
      (H ≠ [] →
        writes_ok
            { write_flash_buffer := fun l _ _ => decide (l.length < 2),
              get_last_read_address := fun _ => some 52,
              get_csb_status := fun _ => some false }
            ([] ++ pre) A = true ∧
        write_cells (spi_writes A) =
          (List.range' 12 (roundup4 [65, 66, 67, 68, 69].length)).map
            (fun i => ((56 + i) % 64, (frame_bytes 3 [65, 66, 67, 68, 69]).getD i 0))) ∧
      (writes_ok
          { write_flash_buffer := fun l _ _ => decide (l.length < 2),
            get_last_read_address := fun _ => some 52,
            get_csb_status := fun _ => some false }
          ([] ++ pre) A = false → H = []) :=
  header_after_payload
    { write_flash_buffer := fun l _ _ => decide (l.length < 2),
      get_last_read_address := fun _ => some 52,
      get_csb_status := fun _ => some false }
    64 1 { next_write_address := 56, spi_device_frame_num := 3, spi_console_gpio := false }
    [] [65, 66, 67, 68, 69] _
    { next_write_address := 56, spi_device_frame_num := 3, spi_console_gpio := false } 0
    (by decide) (by decide) (by decide) (by decide)

/-! ## The SPI console: the chunk loop of the sink -/

theorem max_payload_eq (cap : Nat) (h : 28 ≤ cap) (hc : cap < 4294967296) :
    kSpiDeviceMaxFramePayloadSizeBytes cap = cap - 12 - 12 - 4 := by
  simp only [kSpiDeviceMaxFramePayloadSizeBytes, kSpiDeviceBufferPreservedSizeBytes,
    kSpiDeviceFrameHeaderSizeBytes, kWord]
  omega

theorem spi_payload_len_le (cap : Nat) (buf : List Nat) (w : Nat) :
    spi_payload_len cap buf w ≤ buf.length - w := by
  unfold spi_payload_len
  split_ifs <;> omega

theorem spi_chunk_length (cap : Nat) (buf : List Nat) (w : Nat) :
    ((buf.drop w).take (spi_payload_len cap buf w)).length = spi_payload_len cap buf w := by
  have := spi_payload_len_le cap buf w
  rw [List.length_take, List.length_drop]
  omega

theorem accepted_chunks_append (tr : List (List Nat × Nat)) (e : List Nat × Nat) :
    accepted_chunks (tr ++ [e]) =
      accepted_chunks tr ++ (if e.2 = e.1.length then [e.1] else []) := by
  unfold accepted_chunks
  rw [List.filter_append, List.map_append]
  by_cases h : e.2 = e.1.length
  · simp [List.filter, h]
  · simp [List.filter, h]

theorem sending_offset (host : spi_host_t) (cap fuel : Nat) (buf : List Nat)
    (st0 : spi_console_t) (log0 : List spi_event) (hlen : buf.length < 4294967296)
    (st : spi_console_t) (log : List spi_event) (w : Nat) (tr : List (List Nat × Nat))
    (h : Sending host cap fuel buf st0 log0 st log w tr) :
    w ≤ buf.length ∧ (accepted_chunks tr).flatten = buf.take w ∧
      ∀ e ∈ tr, ∃ o, o < buf.length ∧ e.1 = (buf.drop o).take (spi_payload_len cap buf o) := by
  induction h with
  | entry =>
    refine ⟨Nat.zero_le _, by simp [accepted_chunks], ?_⟩
    intro e he
    simp at he
  | round st log w tr log2 st2 ret _ hw hf ih =>
    obtain ⟨ih1, ih2, ih3⟩ := ih
    have hpl := spi_payload_len_le cap buf w
    have hcl := spi_chunk_length cap buf w
    have hmod : (w + spi_payload_len cap buf w) % kWord = w + spi_payload_len cap buf w := by
      simp only [kWord]
      omega
    refine ⟨?_, ?_, ?_⟩
    · split_ifs
      · rw [hmod]
        omega
      · exact ih1
    · rw [accepted_chunks_append, List.flatten_append, ih2]
      simp only [hcl]
      by_cases hacc : ret = spi_payload_len cap buf w
      · rw [if_pos hacc, if_pos hacc, hmod]
        simp only [List.flatten_cons, List.flatten_nil, List.append_nil]
        rw [List.take_add]
      · rw [if_neg hacc, if_neg hacc]
        simp
    · intro e he
      rcases List.mem_append.mp he with h | h
      · exact ih3 e h
      · simp only [List.mem_singleton] at h
        exact ⟨w, hw, by rw [h]⟩

theorem spi_chunk_facts (cap : Nat) (buf : List Nat) (o : Nat) (hc4 : cap % 4 = 0)
    (hc32 : 32 ≤ cap) (hc : cap ≤ 2147483648) (ho : o < buf.length) :
    (buf.drop o).take (spi_payload_len cap buf o) = (buf.drop o).take (cap - 12 - 12 - 4) ∧
      spi_payload_len cap buf o = min (buf.length - o) (cap - 12 - 12 - 4) ∧
      1 ≤ spi_payload_len cap buf o ∧ spi_payload_len cap buf o ≤ cap - 12 - 12 - 4 ∧
      12 + roundup4 (spi_payload_len cap buf o) < cap ∧
      (kSpiDeviceFrameHeaderSizeBytes + (spi_payload_len cap buf o + 3) % kWord / 4 * 4) %
        kWord < cap ∧
      12 + roundup4 (spi_payload_len cap buf o) + 12 ≤ cap - 4 := by
  have hmax := max_payload_eq cap (by omega) (by omega)
  have hpl : spi_payload_len cap buf o = min (buf.length - o) (cap - 12 - 12 - 4) := by
    unfold spi_payload_len
    rw [hmax]
    split_ifs <;> omega
  have htake : (buf.drop o).take (spi_payload_len cap buf o) =
      (buf.drop o).take (cap - 12 - 12 - 4) := by
    rw [hpl]
    by_cases hle : buf.length - o ≤ cap - 12 - 12 - 4
    · rw [Nat.min_eq_left hle, List.take_of_length_le (by rw [List.length_drop]),
        List.take_of_length_le (by rw [List.length_drop]; exact hle)]
    · rw [Nat.min_eq_right (by omega)]
  have hsz : spi_payload_len cap buf o < 2147483648 := by
    rw [hpl]
    omega
  have hF := frame_size_eq _ hsz
  rw [hF]
  generalize spi_payload_len cap buf o = n at hpl hsz htake ⊢
  have hr : roundup4 n = (n + 3) / 4 * 4 := rfl
  refine ⟨htake, hpl, ?_, ?_, ?_, ?_, ?_⟩ <;> omega

/-- C22: for every buffer capacity `C` that is a multiple of 4 and at least 32
(at most `2^31`) and every input, at every configuration that the loop of
`base_dev_spi_device` reaches, the chunks that the frame sender has accepted
so far are, joined in order, exactly the first `write_data_len` bytes of the
input, and the chunk handed next starts at `write_data_len` and holds the next
`C - 12 - 12 - 4` bytes, or all that are left if these are fewer; a chunk that
is not accepted is handed again. Every chunk handed has between 1 and
`C - 12 - 12 - 4` bytes, so its framed size `12 + roundup4 chunk` is below `C`,
the test of the rejection branch of `spi_device_send_frame` fails for it, and
its framed size plus 12 is at most `C - 4`, which is no more than `C - 1`, the
bound of the free space that the polling loop computes. When the function
returns, the accepted chunks joined are the whole input. -/
theorem chunks_fit_buffer (host : spi_host_t) (cap fuel : Nat) (buf : List Nat)
    (st0 : spi_console_t) (log0 : List spi_event) (st : spi_console_t)
    (log : List spi_event) (w : Nat) (tr : List (List Nat × Nat))
    (hc4 : cap % 4 = 0) (hc32 : 32 ≤ cap) (hc : cap ≤ 2147483648)
    (hlen : buf.length < 4294967296)
    (h : Sending host cap fuel buf st0 log0 st log w tr) :
    w ≤ buf.length ∧ (accepted_chunks tr).flatten = buf.take w ∧
      (∀ e ∈ tr, 1 ≤ e.1.length ∧ e.1.length ≤ cap - 12 - 12 - 4 ∧
        12 + roundup4 e.1.length < cap ∧
        (kSpiDeviceFrameHeaderSizeBytes + (e.1.length + 3) % kWord / 4 * 4) % kWord < cap ∧
        12 + roundup4 e.1.length + 12 ≤ cap - 4) ∧
      (w < buf.length →
        (buf.drop w).take (spi_payload_len cap buf w) =
          (buf.drop w).take (cap - 12 - 12 - 4) ∧
        ((buf.drop w).take (spi_payload_len cap buf w)).length =
          min (buf.length - w) (cap - 12 - 12 - 4) ∧
        (w + spi_payload_len cap buf w) % kWord =
          w + ((buf.drop w).take (spi_payload_len cap buf w)).length) ∧
      cap - 4 ≤ cap - 1 ∧
      (∀ w2 r, w2 < cap → available_buffer_size cap w2 r ≤ cap - 1) ∧
      (∀ rounds r, base_dev_spi_device host cap fuel rounds st0 log0 buf = .ok r →
        ∃ tr2, Sending host cap fuel buf st0 log0 r.2.1 r.1 r.2.2 tr2 ∧
          (accepted_chunks tr2).flatten = buf) := by
  obtain ⟨h1, h2, h3⟩ := sending_offset host cap fuel buf st0 log0 hlen st log w tr h
  refine ⟨h1, h2, ?_, ?_, by omega, ?_, ?_⟩
  · intro e he
    obtain ⟨o, ho, heq⟩ := h3 e he
    have hf := spi_chunk_facts cap buf o hc4 hc32 hc ho
    have hcl := spi_chunk_length cap buf o
    rw [← heq] at hcl
    rw [hcl]
    exact ⟨hf.2.2.1, hf.2.2.2.1, hf.2.2.2.2.1, hf.2.2.2.2.2.1, hf.2.2.2.2.2.2⟩
  · intro hw
    have hf := spi_chunk_facts cap buf w hc4 hc32 hc hw
    have hcl := spi_chunk_length cap buf w
    have hpl := spi_payload_len_le cap buf w
    refine ⟨hf.1, by rw [hcl]; exact hf.2.1, ?_⟩
    rw [hcl]
    simp only [kWord]
    omega
  · intro w2 r hw2
    exact (available_buffer_size_eq cap w2 r (by omega) hc hw2).2.1
  · intro rounds r hrun
    obtain ⟨tr2, hs, hnl⟩ := send_loop_sending host cap fuel buf st0 log0 rounds st0 log0 0 []
      r Sending.entry hrun
    obtain ⟨g1, g2, -⟩ := sending_offset host cap fuel buf st0 log0 hlen _ _ _ _ hs
    refine ⟨tr2, hs, ?_⟩
    rw [g2, List.take_of_length_le (by omega)]

/-- Witness of C22: a buffer of 32 bytes, so chunks of at most 4 bytes, and the
input "ABCDEF"; after the first frame the chunk "ABCD" has been handed and
accepted. -/
theorem chunks_fit_buffer_witness :
    1 ≤ [65, 66, 67, 68].length ∧ [65, 66, 67, 68].length ≤ 32 - 12 - 12 - 4 ∧
      12 + roundup4 [65, 66, 67, 68].length < 32 ∧
      (kSpiDeviceFrameHeaderSizeBytes + ([65, 66, 67, 68].length + 3) % kWord / 4 * 4) %
        kWord < 32 ∧
      12 + roundup4 [65, 66, 67, 68].length + 12 ≤ 32 - 4 :=
  (chunks_fit_buffer
    { write_flash_buffer := fun _ _ _ => true, get_last_read_address := fun _ => some 12,
      get_csb_status := fun _ => some false }
    32 1 [65, 66, 67, 68, 69, 70] spi_console_init []
    { next_write_address := 16, spi_device_frame_num := 1, spi_console_gpio := false }
    [spi_event.get_last_read_address, spi_event.write_flash_buffer 12 [65, 66, 67, 68],
      spi_event.write_flash_buffer 0 [239, 190, 165, 165, 0, 0, 0, 0, 4, 0, 0, 0]]
    _ _ (by decide) (by decide) (by decide) (by decide)
    (Sending.round spi_console_init [] 0 [] _ _ 4 Sending.entry (by decide)
      (by decide))).2.2.1 ([65, 66, 67, 68], 4) (by decide)

theorem send_loop_retry (host : spi_host_t) (cap fuel : Nat) (buf : List Nat) (rounds : Nat)
    (st : spi_console_t) (log : List spi_event) (w : Nat) (log2 : List spi_event)
    (st2 : spi_console_t) (ret : Nat) (hw : w < buf.length)
    (hf : spi_device_send_frame host cap fuel st log
      ((buf.drop w).take (spi_payload_len cap buf w)) = .ok (log2, st2, ret))
    (hne : ret ≠ spi_payload_len cap buf w) :
    spi_device_send_loop host cap fuel buf (rounds + 1) st log w =
      spi_device_send_loop host cap fuel buf rounds st2 log2 w := by
  rw [spi_device_send_loop, if_pos hw]
  simp only
  have hpl : (if buf.length - w > kSpiDeviceMaxFramePayloadSizeBytes cap then
      kSpiDeviceMaxFramePayloadSizeBytes cap else buf.length - w) =
      spi_payload_len cap buf w := rfl
  rw [hpl, hf]
  simp only [Except.bind]
  rw [if_neg hne]

theorem send_loop_spins (host : spi_host_t) (cap fuel : Nat) (buf : List Nat)
    (hpos : 0 < buf.length)
    (hfail : ∀ (st : spi_console_t) (log : List spi_event), ∃ log2 st2 ret,
      spi_device_send_frame host cap fuel st log
        ((buf.drop 0).take (spi_payload_len cap buf 0)) = .ok (log2, st2, ret) ∧
      ret ≠ spi_payload_len cap buf 0) :
    ∀ (rounds : Nat) (st : spi_console_t) (log : List spi_event),
      spi_device_send_loop host cap fuel buf rounds st log 0 = .error Fault.exhausted := by
  intro rounds
  induction rounds with
  | zero =>
    intro st log
    rfl
  | succ n ih =>
    intro st log
    obtain ⟨log2, st2, ret, hf, hne⟩ := hfail st log
    rw [send_loop_retry host cap fuel buf n st log 0 log2 st2 ret hpos hf hne]
    exact ih st2 log2

theorem send_frame_dead_driver (st : spi_console_t) (log : List spi_event) :
    ∃ log2 st2 ret,
      spi_device_send_frame
          { write_flash_buffer := fun _ _ _ => false, get_last_read_address := fun _ => none,
            get_csb_status := fun _ => none }
          64 1 st log ((List.drop 0 [65]).take (spi_payload_len 64 [65] 0)) =
        .ok (log2, st2, ret) ∧
      ret ≠ ((List.drop 0 [65]).take (spi_payload_len 64 [65] 0)).length := by
  have hc : (List.drop 0 [65]).take (spi_payload_len 64 [65] 0) = [65] := by decide
  rw [hc]
  have h : ∃ log2, spi_device_send_frame
      { write_flash_buffer := fun _ _ _ => false, get_last_read_address := fun _ => none,
        get_csb_status := fun _ => none }
      64 1 st log [65] = .ok (log2, st, 0) := by
    rcases st with ⟨w, fn, g⟩
    cases g
    · exact ⟨log ++ [spi_event.get_last_read_address], by
        simp [spi_device_send_frame, spi_poll_loop, Except.bind,
          kSpiDeviceFrameHeaderSizeBytes, kWord]⟩
    · simp [spi_device_send_frame, spi_device_send_data, Except.bind,
        kSpiDeviceFrameHeaderSizeBytes, kWord]
  obtain ⟨l2, h2⟩ := h
  exact ⟨l2, st, 0, h2, by decide⟩

/-- C23, as amended: when the frame sender fails on some chunk (returns a count
other than the length of the chunk), `base_dev_spi_device` does not stop: its
loop goes round again with `write_data_len` unchanged and hands the same chunk
to the frame sender again; whenever `base_dev_spi_device` returns, it returns
the requested length, never less; and if the frame sender fails on the first
chunk of a non-empty input each time, the function does not return, however
many rounds it is given. -/
theorem send_loop_retries (host : spi_host_t) (cap fuel : Nat) (buf : List Nat)
    (hlen : buf.length < 4294967296) :
    (∀ (rounds : Nat) (st : spi_console_t) (log : List spi_event)
      (r : List spi_event × spi_console_t × Nat),
      base_dev_spi_device host cap fuel rounds st log buf = .ok r → r.2.2 = buf.length) ∧
      (∀ (rounds : Nat) (st : spi_console_t) (log : List spi_event) (w : Nat)
        (log2 : List spi_event) (st2 : spi_console_t) (ret : Nat),
        w < buf.length →
        spi_device_send_frame host cap fuel st log
          ((buf.drop w).take (spi_payload_len cap buf w)) = .ok (log2, st2, ret) →
        ret ≠ ((buf.drop w).take (spi_payload_len cap buf w)).length →
        spi_device_send_loop host cap fuel buf (rounds + 1) st log w =
          spi_device_send_loop host cap fuel buf rounds st2 log2 w) ∧
      (0 < buf.length →
        (∀ (st : spi_console_t) (log : List spi_event), ∃ log2 st2 ret,
          spi_device_send_frame host cap fuel st log
            ((buf.drop 0).take (spi_payload_len cap buf 0)) = .ok (log2, st2, ret) ∧
          ret ≠ ((buf.drop 0).take (spi_payload_len cap buf 0)).length) →
        ∀ (rounds : Nat) (st : spi_console_t) (log : List spi_event),
          base_dev_spi_device host cap fuel rounds st log buf = .error Fault.exhausted) := by
  refine ⟨?_, ?_, ?_⟩
  · intro rounds st log r hrun
    obtain ⟨tr2, hs, hnl⟩ := send_loop_sending host cap fuel buf st log rounds st log 0 [] r
      Sending.entry hrun
    obtain ⟨g1, -, -⟩ := sending_offset host cap fuel buf st log hlen _ _ _ _ hs
    omega
  · intro rounds st log w log2 st2 ret hw hf hne
    rw [spi_chunk_length] at hne
    exact send_loop_retry host cap fuel buf rounds st log w log2 st2 ret hw hf hne
  · intro hpos hfail rounds st log
    apply send_loop_spins host cap fuel buf hpos
    intro st log
    obtain ⟨log2, st2, ret, hf, hne⟩ := hfail st log
    rw [spi_chunk_length] at hne
    exact ⟨log2, st2, ret, hf, hne⟩

/-- Witness of C23 as amended: with a driver that refuses the first write and
accepts the later ones the call for "ABCD" returns 4; with a driver that
refuses every call the call for "A" does not return within 5 rounds. -/
theorem send_loop_retries_witness :
    (([spi_event.get_last_read_address, spi_event.write_flash_buffer 12 [65, 66, 67, 68],
        spi_event.get_last_read_address, spi_event.write_flash_buffer 12 [65, 66, 67, 68],
        spi_event.write_flash_buffer 0 [239, 190, 165, 165, 0, 0, 0, 0, 4, 0, 0, 0]],
        ({ next_write_address := 16, spi_device_frame_num := 1, spi_console_gpio := false } :
          spi_console_t), 4) : List spi_event × spi_console_t × Nat).2.2 =
        [65, 66, 67, 68].length ∧
      base_dev_spi_device
          { write_flash_buffer := fun _ _ _ => false, get_last_read_address := fun _ => none,
            get_csb_status := fun _ => none }
          64 1 5 spi_console_init [] [65] = .error Fault.exhausted :=
  ⟨(send_loop_retries
      { write_flash_buffer := fun l _ _ => decide (1 < l.length),
        get_last_read_address := fun _ => some 12, get_csb_status := fun _ => some false }
      64 1 [65, 66, 67, 68] (by decide)).1 3 spi_console_init [] _ (by decide),
    (send_loop_retries
      { write_flash_buffer := fun _ _ _ => false, get_last_read_address := fun _ => none,
        get_csb_status := fun _ => none }
      64 1 [65] (by decide)).2.2 (by decide) send_frame_dead_driver 5 spi_console_init []⟩

/-- Counterexample to C23 as stated: with a driver that refuses the first write
and accepts the later ones, the frame sender returns 0 for the chunk "ABCD",
yet `base_dev_spi_device` does not stop there with a count below 4: it sends
the chunk again and returns 4. -/
theorem send_loop_counterexample :
    spi_device_send_frame
        { write_flash_buffer := fun l _ _ => decide (1 < l.length),
          get_last_read_address := fun _ => some 12, get_csb_status := fun _ => some false }
        64 1 spi_console_init [] [65, 66, 67, 68] =
      .ok ([spi_event.get_last_read_address, spi_event.write_flash_buffer 12 [65, 66, 67, 68]],
        spi_console_init, 0) ∧
    base_dev_spi_device
        { write_flash_buffer := fun l _ _ => decide (1 < l.length),
          get_last_read_address := fun _ => some 12, get_csb_status := fun _ => some false }
        64 1 3 spi_console_init [] [65, 66, 67, 68] =
      .ok ([spi_event.get_last_read_address, spi_event.write_flash_buffer 12 [65, 66, 67, 68],
          spi_event.get_last_read_address, spi_event.write_flash_buffer 12 [65, 66, 67, 68],
          spi_event.write_flash_buffer 0 [239, 190, 165, 165, 0, 0, 0, 0, 4, 0, 0, 0]],
        { next_write_address := 16, spi_device_frame_num := 1, spi_console_gpio := false },
        4) := by
  decide

/-! ## The SPI console: a handshake that fails -/

/-- C21, the code at the failing input: the SPI sink is installed, the GPIO
pin is set, and one byte is printed through a driver whose first chip-select
query fails. The first call of `spi_device_send_frame` writes a header with
the frame number 0, raises the frame number to 1 and then returns 0; the second
call, the first to report success, writes a header with the frame number 1, so
the first frame sent successfully after the installation carries 1, not 0. -/
theorem first_frame_number_after_failure :
    spi_device_send_frame
        { write_flash_buffer := fun _ _ _ => true, get_last_read_address := fun _ => some 0,
          get_csb_status := fun l =>
            if l.count spi_event.get_csb_status = 0 then none
            else some (decide (l.count spi_event.get_csb_status % 2 = 0)) }
        64 1 (base_spi_device_set_gpio_tx_indicator (base_spi_device_stdout spi_console_init) true)
        [] [65] =
      .ok ([spi_event.write_flash_buffer 12 [65, 255, 255, 255],
          spi_event.write_flash_buffer 0 [239, 190, 165, 165, 0, 0, 0, 0, 1, 0, 0, 0],
          spi_event.gpio_write true, spi_event.get_csb_status],
        { next_write_address := 16, spi_device_frame_num := 1, spi_console_gpio := true }, 0) ∧
    base_dev_spi_device
        { write_flash_buffer := fun _ _ _ => true, get_last_read_address := fun _ => some 0,
          get_csb_status := fun l =>
            if l.count spi_event.get_csb_status = 0 then none
            else some (decide (l.count spi_event.get_csb_status % 2 = 0)) }
        64 1 3 (base_spi_device_set_gpio_tx_indicator (base_spi_device_stdout spi_console_init) true)
        [] [65] =
      .ok ([spi_event.write_flash_buffer 12 [65, 255, 255, 255],
          spi_event.write_flash_buffer 0 [239, 190, 165, 165, 0, 0, 0, 0, 1, 0, 0, 0],
          spi_event.gpio_write true, spi_event.get_csb_status,
          spi_event.write_flash_buffer 28 [65, 255, 255, 255],
          spi_event.write_flash_buffer 16 [239, 190, 165, 165, 1, 0, 0, 0, 1, 0, 0, 0],
          spi_event.gpio_write true, spi_event.get_csb_status, spi_event.gpio_write false,
          spi_event.get_csb_status, spi_event.get_csb_status, spi_event.get_csb_status],
        { next_write_address := 0, spi_device_frame_num := 2, spi_console_gpio := true }, 1) := by
  decide

/-- C28, the code at the failing input: in the GPIO-handshake mode, with a
driver whose chip-select query fails, `spi_device_send_frame` returns 0 for the
payload "A" after it has written the frame and moved the write cursor from 0 to
16 and the frame number from 0 to 1. -/
theorem failed_handshake_state :
    spi_device_send_frame
        { write_flash_buffer := fun _ _ _ => true, get_last_read_address := fun _ => some 0,
          get_csb_status := fun _ => none }
        64 1 { next_write_address := 0, spi_device_frame_num := 0, spi_console_gpio := true }
        [] [65] =
      .ok ([spi_event.write_flash_buffer 12 [65, 255, 255, 255],
          spi_event.write_flash_buffer 0 [239, 190, 165, 165, 0, 0, 0, 0, 1, 0, 0, 0],
          spi_event.gpio_write true, spi_event.get_csb_status],
        { next_write_address := 16, spi_device_frame_num := 1, spi_console_gpio := true }, 0) := by
  decide

theorem send_frame_polling_failure (host : spi_host_t) (cap fuel : Nat) (st : spi_console_t)
    (log : List spi_event) (P : List Nat) (log2 : List spi_event) (st2 : spi_console_t)
    (hpol : st.spi_console_gpio = false) (hpos : 0 < P.length)
    (hrun : spi_device_send_frame host cap fuel st log P = .ok (log2, st2, 0)) :
    st2 = st := by
  rcases send_frame_cases host cap fuel st log P log2 st2 0 hrun with
    ⟨h, -⟩ | ⟨-, ⟨-, h0⟩ | ⟨hg, -⟩⟩ | ⟨hg, -, -⟩
  · exact h
  · omega
  · rw [hpol] at hg
    exact absurd hg (by decide)
  · rw [hpol] at hg
    exact absurd hg (by decide)

theorem send_frame_success_frame_num (host : spi_host_t) (cap fuel : Nat)
    (st : spi_console_t) (log : List spi_event) (P : List Nat) (log2 : List spi_event)
    (st2 : spi_console_t) (hpos : 0 < P.length)
    (hrun : spi_device_send_frame host cap fuel st log P = .ok (log2, st2, P.length)) :
    st2.spi_device_frame_num = (st.spi_device_frame_num + 1) % kWord := by
  rcases send_frame_cases host cap fuel st log P log2 st2 P.length hrun with
    ⟨-, h0⟩ | ⟨h, -⟩ | ⟨-, h, -⟩
  · omega
  · rw [h]
  · rw [h]

theorem stdout_resets_frame_num (st : spi_console_t) :
    (base_spi_device_stdout st).spi_device_frame_num = 0 := rfl

/-! ## The SPI console: a frame that is sent -/

theorem spi_poll_loop_grants (host : spi_host_t) (cap fs nw : Nat) :
    ∀ (k fuel : Nat) (log : List spi_event), k < fuel →
      (∀ i, i < k → ∃ b,
        host.get_last_read_address
            (log ++ List.replicate i spi_event.get_last_read_address) = some b ∧
          available_buffer_size cap nw b < (fs + kSpiDeviceBufferPreservedSizeBytes) % kWord) →
      (∃ a, host.get_last_read_address
            (log ++ List.replicate k spi_event.get_last_read_address) = some a ∧
          (fs + kSpiDeviceBufferPreservedSizeBytes) % kWord ≤ available_buffer_size cap nw a) →
      spi_poll_loop host cap fs nw fuel log =
        .ok (log ++ List.replicate (k + 1) spi_event.get_last_read_address, true) := by
  intro k
  induction k with
  | zero =>
    intro fuel log hf _ hlast
    obtain ⟨a, ha1, ha2⟩ := hlast
    obtain ⟨n, rfl⟩ : ∃ n, fuel = n + 1 := ⟨fuel - 1, by omega⟩
    simp only [List.replicate_zero, List.append_nil] at ha1
    rw [spi_poll_loop_succ, ha1]
    simp only
    rw [if_neg (by omega)]
    rfl
  | succ k ih =>
    intro fuel log hf hearly hlast
    obtain ⟨n, rfl⟩ : ∃ n, fuel = n + 1 := ⟨fuel - 1, by omega⟩
    obtain ⟨b, hb1, hb2⟩ := hearly 0 (by omega)
    simp only [List.replicate_zero, List.append_nil] at hb1
    have happ : ∀ j, (log ++ [spi_event.get_last_read_address]) ++
        List.replicate j spi_event.get_last_read_address =
        log ++ List.replicate (j + 1) spi_event.get_last_read_address := by
      intro j
      rw [List.append_assoc, List.replicate_succ]
      rfl
    rw [spi_poll_loop_succ, hb1]
    simp only
    rw [if_pos hb2, ih n (log ++ [spi_event.get_last_read_address]) (by omega), happ]
    · intro i hi
      rw [happ]
      exact hearly (i + 1) (by omega)
    · rw [happ]
      exact hlast

theorem spi_csb_wait_answers (host : spi_host_t) (target : Bool) :
    ∀ (j fuel : Nat) (log : List spi_event), j < fuel →
      (∀ i, i < j → ∃ c,
        host.get_csb_status (log ++ List.replicate i spi_event.get_csb_status) = some c ∧
          c ≠ target) →
      host.get_csb_status (log ++ List.replicate j spi_event.get_csb_status) = some target →
      spi_csb_wait host target fuel log =
        .ok (log ++ List.replicate (j + 1) spi_event.get_csb_status, true) := by
  intro j
  induction j with
  | zero =>
    intro fuel log hf _ hlast
    obtain ⟨n, rfl⟩ : ∃ n, fuel = n + 1 := ⟨fuel - 1, by omega⟩
    simp only [List.replicate_zero, List.append_nil] at hlast
    rw [spi_csb_wait, hlast]
    simp
  | succ j ih =>
    intro fuel log hf hearly hlast
    obtain ⟨n, rfl⟩ : ∃ n, fuel = n + 1 := ⟨fuel - 1, by omega⟩
    obtain ⟨c, hc1, hc2⟩ := hearly 0 (by omega)
    simp only [List.replicate_zero, List.append_nil] at hc1
    have happ : ∀ i, (log ++ [spi_event.get_csb_status]) ++
        List.replicate i spi_event.get_csb_status =
        log ++ List.replicate (i + 1) spi_event.get_csb_status := by
      intro i
      rw [List.append_assoc, List.replicate_succ]
      rfl
    have hne : (c != target) = true := by simpa using hc2
    rw [spi_csb_wait, hc1]
    simp only
    rw [if_pos hne, ih n (log ++ [spi_event.get_csb_status]) (by omega), happ]
    · intro i hi
      rw [happ]
      exact hearly (i + 1) (by omega)
    · rw [happ]
      exact hlast

theorem spi_csb_loop_answers (host : spi_host_t) (fuel : Nat)
    (hcsb : ∀ (l : List spi_event) (target : Bool), ∃ j, j < fuel ∧
      (∀ i, i < j → ∃ c,
        host.get_csb_status (l ++ List.replicate i spi_event.get_csb_status) = some c ∧
          c ≠ target) ∧
      host.get_csb_status (l ++ List.replicate j spi_event.get_csb_status) = some target) :
    ∀ (is : List Nat) (target : Bool) (log : List spi_event),
      ∃ log2, spi_csb_loop host fuel is target log = .ok (log2, true) := by
  intro is
  induction is with
  | nil =>
    intro target log
    exact ⟨log, rfl⟩
  | cons i is ih =>
    intro target log
    obtain ⟨j, hj, hearly, hlast⟩ := hcsb log target
    have hw := spi_csb_wait_answers host target j fuel log hj hearly hlast
    rw [spi_csb_loop, hw]
    simp only [Except.bind, Bool.not_true, Bool.false_eq_true, if_false]
    exact ih _ _

theorem send_frame_runs (host : spi_host_t) (cap fuel : Nat) (st : spi_console_t)
    (log : List spi_event) (P : List Nat) (pl : List spi_event)
    (hcap : cap ≤ 2147483648) (hw : st.next_write_address < cap)
    (hacc : 12 + roundup4 P.length < cap)
    (hok : ∀ l a d, host.write_flash_buffer l a d = true)
    (hq : (if (!st.spi_console_gpio) = true then
        spi_poll_loop host cap (12 + roundup4 P.length) st.next_write_address fuel log
      else Except.ok (log, true)) = .ok (pl, true))
    (hcsb : st.spi_console_gpio = true → ∀ L : List spi_event,
      ∃ L2, spi_csb_loop host fuel [0, 1, 2, 3] false L = .ok (L2, true)) :
    ∃ log2 st2, spi_device_send_frame host cap fuel st log P = .ok (log2, st2, P.length) ∧
      st2.spi_device_frame_num = (st.spi_device_frame_num + 1) % kWord ∧
      spi_writes log2 = spi_writes
        (spi_device_send_data host cap
          (spi_device_send_data host cap
            (spi_device_send_data host cap pl (P.take (P.length / 4 * 4))
              ((st.next_write_address + 12) % cap)).1
            (if P.length ≠ P.length / 4 * 4 then
              P.drop (P.length / 4 * 4) ++
                List.replicate (4 - (P.length - P.length / 4 * 4)) 255
            else [])
            ((st.next_write_address + 12 + P.length / 4 * 4) % cap)).1
          (le_bytes kSpiDeviceFrameMagicNumber ++ le_bytes st.spi_device_frame_num ++
            le_bytes P.length)
          st.next_write_address).1 := by
  have hk : P.length / 4 * 4 ≤ P.length := Nat.div_mul_le_self _ _
  have hr : roundup4 P.length = (P.length + 3) / 4 * 4 := rfl
  have hcapK : cap < kWord := by
    simp only [kWord]
    omega
  have h1 := frame_size_eq P.length (by omega)
  have hdwa : (st.next_write_address + kSpiDeviceFrameHeaderSizeBytes) % kWord % cap =
      (st.next_write_address + 12) % cap := by
    have e : (st.next_write_address + kSpiDeviceFrameHeaderSizeBytes) % kWord =
        st.next_write_address + 12 := by
      simp only [kSpiDeviceFrameHeaderSizeBytes, kWord]
      omega
    rw [e]
  have hpwa : ((st.next_write_address + 12) % cap + P.length / 4 * 4) % kWord % cap =
      (st.next_write_address + 12 + P.length / 4 * 4) % cap := by
    have hlt : (st.next_write_address + 12) % cap < cap := Nat.mod_lt _ (by omega)
    have hlt2 : ((st.next_write_address + 12) % cap + P.length / 4 * 4) % kWord =
        (st.next_write_address + 12) % cap + P.length / 4 * 4 := by
      simp only [kWord]
      omega
    rw [hlt2, Nat.mod_add_mod]
  have hs2 : ∀ X : List spi_event,
      (if P.length ≠ P.length / 4 * 4 then
        spi_device_send_data host cap X
          (P.drop (P.length / 4 * 4) ++
            List.replicate (4 - (P.length - P.length / 4 * 4)) 255)
          ((st.next_write_address + 12 + P.length / 4 * 4) % cap)
      else (X, true)) =
      spi_device_send_data host cap X
        (if P.length ≠ P.length / 4 * 4 then
          P.drop (P.length / 4 * 4) ++
            List.replicate (4 - (P.length - P.length / 4 * 4)) 255
        else [])
        ((st.next_write_address + 12 + P.length / 4 * 4) % cap) := by
    intro X
    by_cases hne : P.length ≠ P.length / 4 * 4
    · rw [if_pos hne, if_pos hne]
    · rw [if_neg hne, if_neg hne]
      simp [spi_device_send_data]
  have S1 := send_data_cells host cap pl (P.take (P.length / 4 * 4))
    ((st.next_write_address + 12) % cap) hok (Nat.mod_lt _ (by omega))
    (by simp only [List.length_take]; omega) hcapK
  have S2 := send_data_cells host cap
    (spi_device_send_data host cap pl (P.take (P.length / 4 * 4))
      ((st.next_write_address + 12) % cap)).1
    (if P.length ≠ P.length / 4 * 4 then
      P.drop (P.length / 4 * 4) ++
        List.replicate (4 - (P.length - P.length / 4 * 4)) 255
    else [])
    ((st.next_write_address + 12 + P.length / 4 * 4) % cap) hok (Nat.mod_lt _ (by omega))
    (by split_ifs <;> simp; omega) hcapK
  have S3 := send_data_cells host cap
    (spi_device_send_data host cap
      (spi_device_send_data host cap pl (P.take (P.length / 4 * 4))
        ((st.next_write_address + 12) % cap)).1
      (if P.length ≠ P.length / 4 * 4 then
        P.drop (P.length / 4 * 4) ++
          List.replicate (4 - (P.length - P.length / 4 * 4)) 255
      else [])
      ((st.next_write_address + 12 + P.length / 4 * 4) % cap)).1
    (le_bytes kSpiDeviceFrameMagicNumber ++ le_bytes st.spi_device_frame_num ++
      le_bytes P.length)
    st.next_write_address hok hw (by simp [le_bytes]; omega) hcapK
  unfold spi_device_send_frame
  simp only [h1, hdwa, hpwa, hs2, ge_iff_le]
  rw [if_neg (by omega), hq]
  simp only [Except.bind, S1.1, S2.1, S3.1, Bool.not_true, Bool.false_eq_true, if_false]
  by_cases hg : st.spi_console_gpio = true
  · rw [if_pos hg]
    obtain ⟨L2, hL⟩ := hcsb hg
      ((spi_device_send_data host cap
        (spi_device_send_data host cap
          (spi_device_send_data host cap pl (P.take (P.length / 4 * 4))
            ((st.next_write_address + 12) % cap)).1
          (if P.length ≠ P.length / 4 * 4 then
            P.drop (P.length / 4 * 4) ++
              List.replicate (4 - (P.length - P.length / 4 * 4)) 255
          else [])
          ((st.next_write_address + 12 + P.length / 4 * 4) % cap)).1
        (le_bytes kSpiDeviceFrameMagicNumber ++ le_bytes st.spi_device_frame_num ++
          le_bytes P.length)
        st.next_write_address).1 ++ [spi_event.gpio_write true])
    have hvw := spi_csb_loop_writes host fuel _ _ _ _ hL
    have e : spi_writes [spi_event.gpio_write true] = [] := rfl
    rw [spi_writes_append, e, List.append_nil] at hvw
    rw [hL]
    simp only [Bool.not_true, Bool.false_eq_true, if_false]
    exact ⟨_, _, rfl, rfl, hvw⟩
  · rw [if_neg hg]
    exact ⟨_, _, rfl, rfl, rfl⟩

theorem alternating_host_answers (l : List spi_event) (target : Bool) :
    ∃ j, j < 2 ∧
      (∀ i, i < j → ∃ c,
        ({ write_flash_buffer := fun _ _ _ => true, get_last_read_address := fun _ => none,
           get_csb_status := fun l => some (decide (l.length % 2 = 0)) } :
          spi_host_t).get_csb_status
            (l ++ List.replicate i spi_event.get_csb_status) = some c ∧ c ≠ target) ∧
      ({ write_flash_buffer := fun _ _ _ => true, get_last_read_address := fun _ => none,
         get_csb_status := fun l => some (decide (l.length % 2 = 0)) } :
        spi_host_t).get_csb_status
          (l ++ List.replicate j spi_event.get_csb_status) = some target := by
  by_cases h : decide (l.length % 2 = 0) = target
  · refine ⟨0, by decide, ?_, ?_⟩
    · intro i hi
      omega
    · simp only [List.replicate_zero, List.append_nil]
      rw [h]
  · refine ⟨1, by decide, ?_, ?_⟩
    · intro i hi
      have hi0 : i = 0 := by omega
      subst hi0
      exact ⟨decide (l.length % 2 = 0), by simp, h⟩
    · simp only [List.length_append, List.length_replicate]
      congr 1
      cases target
      · simp only [decide_eq_false_iff_not] at h ⊢
        omega
      · simp only [decide_eq_true_eq] at h ⊢
        omega

/-- C20: a frame whose framed size `12 + roundup4 n` is below the capacity,
sent at the write cursor `w < capacity` with every driver write succeeding, is
accepted as soon as the host lets it through: in polling mode when, after `k`
polls that report too little space, the next poll reports a free space of at
least the framed size plus 12, and in the GPIO-handshake mode when the host
answers each wait for the chip-select line, each with fewer queries than
`fuel`. Then `spi_device_send_frame` returns `n`, raises the frame number by
one, and has asked the driver to store, at the buffer address
`(w + i) mod capacity`, the byte `i` of the frame: the little-endian bytes of
0xA5A5BEEF, of the frame number and of `n`, the payload, and 0xFF up to the
next multiple of 4. The payload part is stored first and the header last;
`12 + roundup4 n` bytes are stored, each address once, and no driver write
reaches beyond the capacity: a write that would cross the end is split and
continues at address 0. -/
theorem send_frame_stores (host : spi_host_t) (cap fuel : Nat) (st : spi_console_t)
    (log : List spi_event) (P : List Nat)
    (hcap : cap ≤ 2147483648) (hw : st.next_write_address < cap)
    (hacc : 12 + roundup4 P.length < cap)
    (hok : ∀ l a d, host.write_flash_buffer l a d = true)
    (hpoll : st.spi_console_gpio = false → ∃ k, k < fuel ∧
      (∀ i, i < k → ∃ b,
        host.get_last_read_address
            (log ++ List.replicate i spi_event.get_last_read_address) = some b ∧
          available_buffer_size cap st.next_write_address b < 12 + roundup4 P.length + 12) ∧
      ∃ a, host.get_last_read_address
            (log ++ List.replicate k spi_event.get_last_read_address) = some a ∧
          12 + roundup4 P.length + 12 ≤ available_buffer_size cap st.next_write_address a)
    (hcsb : st.spi_console_gpio = true → ∀ (l : List spi_event) (target : Bool),
      ∃ j, j < fuel ∧
        (∀ i, i < j → ∃ c,
          host.get_csb_status (l ++ List.replicate i spi_event.get_csb_status) = some c ∧
            c ≠ target) ∧
        host.get_csb_status (l ++ List.replicate j spi_event.get_csb_status) = some target) :
    ∃ log2 st2,
      spi_device_send_frame host cap fuel st log P = .ok (log2, st2, P.length) ∧
      st2.spi_device_frame_num = (st.spi_device_frame_num + 1) % 4294967296 ∧
      ∃ W, spi_writes log2 = spi_writes log ++ W ∧
        write_cells W =
          (List.range' 12 (roundup4 P.length) ++ List.range' 0 12).map
            (fun i => ((st.next_write_address + i) % cap,
              (frame_bytes st.spi_device_frame_num P).getD i 0)) ∧
        (write_cells W).length = 12 + roundup4 P.length ∧
        (frame_bytes st.spi_device_frame_num P).length = 12 + roundup4 P.length ∧
        ((write_cells W).map Prod.fst).Nodup ∧
        ∀ w ∈ W, w.1 + w.2.length ≤ cap := by
  have hr : roundup4 P.length = (P.length + 3) / 4 * 4 := rfl
  have hfs : (12 + roundup4 P.length + kSpiDeviceBufferPreservedSizeBytes) % kWord =
      12 + roundup4 P.length + 12 := by
    simp only [kSpiDeviceBufferPreservedSizeBytes, kSpiDeviceFrameHeaderSizeBytes, kWord]
    omega
  have hq : ∃ pl, (if (!st.spi_console_gpio) = true then
        spi_poll_loop host cap (12 + roundup4 P.length) st.next_write_address fuel log
      else Except.ok (log, true)) = .ok (pl, true) ∧ spi_writes pl = spi_writes log := by
    by_cases hg : st.spi_console_gpio = true
    · refine ⟨log, ?_, rfl⟩
      simp only [hg, Bool.not_true, Bool.false_eq_true, if_false]
    · have hgf : st.spi_console_gpio = false := by simpa using hg
      obtain ⟨k, hk, hearly, hlast⟩ := hpoll hgf
      refine ⟨log ++ List.replicate (k + 1) spi_event.get_last_read_address, ?_, ?_⟩
      · simp only [hgf, Bool.not_false, if_true]
        apply spi_poll_loop_grants host cap _ _ k fuel log hk
        · rw [hfs]
          exact hearly
        · rw [hfs]
          exact hlast
      · rw [spi_writes_append, spi_writes_polls, List.append_nil]
  obtain ⟨pl, hq1, hq2⟩ := hq
  obtain ⟨log2, st2, hrun, hnum, hlog⟩ :=
    send_frame_runs host cap fuel st log P pl hcap hw hacc hok hq1
      (fun hg L => spi_csb_loop_answers host fuel (hcsb hg) _ _ L)
  refine ⟨log2, st2, hrun, hnum, ?_⟩
  exact frame_write_cells host cap st log P log2 pl hcap hw hacc hok hq2 hlog

/-- Witness of C20: the payload "ABCDE" sent as frame 3 of a buffer of 64
bytes; in polling mode at the cursor 56, where the first poll reports too
little space and the second enough, and the header crosses the end of the
buffer and continues at address 0; and in the GPIO-handshake mode at the
cursor 0 with a chip-select line that answers in turn. -/
theorem send_frame_stores_witness :
    (∃ log2 st2,
      spi_device_send_frame
          { write_flash_buffer := fun _ _ _ => true,
            get_last_read_address := fun l => if l.length = 0 then some 8 else some 52,
            get_csb_status := fun _ => none }
          64 2 { next_write_address := 56, spi_device_frame_num := 3, spi_console_gpio := false }
          [] [65, 66, 67, 68, 69] = .ok (log2, st2, [65, 66, 67, 68, 69].length) ∧
      st2.spi_device_frame_num = (3 + 1) % 4294967296 ∧
      ∃ W, spi_writes log2 = spi_writes [] ++ W ∧
        write_cells W =
          (List.range' 12 (roundup4 [65, 66, 67, 68, 69].length) ++ List.range' 0 12).map
            (fun i => ((56 + i) % 64, (frame_bytes 3 [65, 66, 67, 68, 69]).getD i 0)) ∧
        (write_cells W).length = 12 + roundup4 [65, 66, 67, 68, 69].length ∧
        (frame_bytes 3 [65, 66, 67, 68, 69]).length =
          12 + roundup4 [65, 66, 67, 68, 69].length ∧
        ((write_cells W).map Prod.fst).Nodup ∧
        ∀ w ∈ W, w.1 + w.2.length ≤ 64) ∧
    (∃ log2 st2,
      spi_device_send_frame
          { write_flash_buffer := fun _ _ _ => true, get_last_read_address := fun _ => none,
            get_csb_status := fun l => some (decide (l.length % 2 = 0)) }
          64 2 { next_write_address := 0, spi_device_frame_num := 3, spi_console_gpio := true }
          [] [65, 66, 67, 68, 69] = .ok (log2, st2, [65, 66, 67, 68, 69].length) ∧
      st2.spi_device_frame_num = (3 + 1) % 4294967296 ∧
      ∃ W, spi_writes log2 = spi_writes [] ++ W ∧
        write_cells W =
          (List.range' 12 (roundup4 [65, 66, 67, 68, 69].length) ++ List.range' 0 12).map
            (fun i => ((0 + i) % 64, (frame_bytes 3 [65, 66, 67, 68, 69]).getD i 0)) ∧
        (write_cells W).length = 12 + roundup4 [65, 66, 67, 68, 69].length ∧
        (frame_bytes 3 [65, 66, 67, 68, 69]).length =
          12 + roundup4 [65, 66, 67, 68, 69].length ∧
        ((write_cells W).map Prod.fst).Nodup ∧
        ∀ w ∈ W, w.1 + w.2.length ≤ 64) :=
  ⟨send_frame_stores
      { write_flash_buffer := fun _ _ _ => true,
        get_last_read_address := fun l => if l.length = 0 then some 8 else some 52,
        get_csb_status := fun _ => none }
      64 2 { next_write_address := 56, spi_device_frame_num := 3, spi_console_gpio := false }
      [] [65, 66, 67, 68, 69] (by decide) (by decide) (by decide) (fun _ _ _ => rfl)
      (fun _ => ⟨1, by decide,
        fun i hi => by
          have hi0 : i = 0 := by omega
          subst hi0
          exact ⟨8, rfl, by decide⟩,
        ⟨52, rfl, by decide⟩⟩)
      (fun h => absurd h (by decide)),
    send_frame_stores
      { write_flash_buffer := fun _ _ _ => true, get_last_read_address := fun _ => none,
        get_csb_status := fun l => some (decide (l.length % 2 = 0)) }
      64 2 { next_write_address := 0, spi_device_frame_num := 3, spi_console_gpio := true }
      [] [65, 66, 67, 68, 69] (by decide) (by decide) (by decide) (fun _ _ _ => rfl)
      (fun h => absurd h (by decide))
      (fun _ => alternating_host_answers)⟩

/-- The run of the first half of the witness of C20, evaluated: two polls, the
payload group, the padded group, and the header in two parts across the end of
the buffer. -/
theorem polled_frame_run :
    spi_device_send_frame
        { write_flash_buffer := fun _ _ _ => true,
          get_last_read_address := fun l => if l.length = 0 then some 8 else some 52,
          get_csb_status := fun _ => none }
        64 2 { next_write_address := 56, spi_device_frame_num := 3, spi_console_gpio := false }
        [] [65, 66, 67, 68, 69] =
      .ok ([spi_event.get_last_read_address, spi_event.get_last_read_address,
          spi_event.write_flash_buffer 4 [65, 66, 67, 68],
          spi_event.write_flash_buffer 8 [69, 255, 255, 255],
          spi_event.write_flash_buffer 56 [239, 190, 165, 165, 3, 0, 0, 0],
          spi_event.write_flash_buffer 0 [5, 0, 0, 0]],
        { next_write_address := 12, spi_device_frame_num := 4, spi_console_gpio := false },
        5) := by
  decide

theorem frame_writes_of_run (host : spi_host_t) (cap fuel : Nat) (st : spi_console_t)
    (log : List spi_event) (P : List Nat) (log2 : List spi_event) (st2 : spi_console_t)
    (ret : Nat)
    (hcap : cap ≤ 2147483648) (hw : st.next_write_address < cap)
    (hacc : 12 + roundup4 P.length < cap)
    (hok : ∀ l a d, host.write_flash_buffer l a d = true)
    (hpoll : ∀ l, host.get_last_read_address l ≠ none)
    (hrun : spi_device_send_frame host cap fuel st log P = .ok (log2, st2, ret)) :
    ∃ W, spi_writes log2 = spi_writes log ++ W ∧
      write_cells W =
        (List.range' 12 (roundup4 P.length) ++ List.range' 0 12).map
          (fun i => ((st.next_write_address + i) % cap,
            (frame_bytes st.spi_device_frame_num P).getD i 0)) ∧
      (write_cells W).length = 12 + roundup4 P.length ∧
      (frame_bytes st.spi_device_frame_num P).length = 12 + roundup4 P.length ∧
      ((write_cells W).map Prod.fst).Nodup ∧
      ∀ w ∈ W, w.1 + w.2.length ≤ cap := by
  obtain ⟨p, hp, hlog⟩ :=
    send_frame_log host cap fuel st log P log2 st2 ret hcap hw hacc hok hpoll hrun
  exact frame_write_cells host cap st log P log2 p hcap hw hacc hok hp hlog
end Print
